import Mathlib

/-!
Calibration capture pipeline of `camera_model`.

A shallow embedding of `src/intrinsic_calib.cc` and `src/stereo_calib.cc`:
the board geometry helpers `calcBoardCornerPositions` and
`calcArucoCornerPositions`, the image enumeration and stereo filename pairing,
the per-frame acceptance logic, and the sample gate of both `main` functions.

Conventions of the embedding.

* `std::vector<T>` is `List T`; `push_back` appends at the end, `clear` yields `[]`.
* C++ `int` values are `Int`, and the result of an `int` sum or product is reduced to
  32 bits by `toInt32`: signed overflow is undefined in C++, and the two's complement
  result is what the compiled programs yield.  `size_t` arithmetic wraps modulo `2 ^ 64`.
* An unchecked read outside a `std::vector` is undefined in C++: it yields whatever the
  memory holds there, or ends the process with a memory fault (`Exn.memory_fault`).
* C++ `float` is an abstract type `F` with the two operations the code uses
  (`FloatOps`): conversion from `int` and multiplication.
* `std::string` is `List Char`, ordered lexicographically.
* Library calls whose code is outside the two source files (detectors, image
  reading) are parameters of the model.
-/

namespace CameraModel

/-! ## Board geometry -/

/-- The operations on C++ `float` used by the geometry code: the implicit
conversion from `int` and the product of two floats. -/
class FloatOps (F : Type) where
  /-- Implicit conversion `int → float`. -/
  ofInt : Int → F
  /-- Product of two floats. -/
  mul : F → F → F

/-- Exact integer arithmetic as an instance of `FloatOps`, used to evaluate the
geometry functions on concrete boards. -/
instance instFloatOpsInt : FloatOps Int where
  ofInt := id
  mul := Int.mul

/-- The point type `cv::Point3f`. -/
structure Point3f (F : Type) where
  x : F
  y : F
  z : F
deriving DecidableEq, Repr

/-- The board size type `cv::Size`. -/
structure Size where
  width : Int
  height : Int
deriving DecidableEq, Repr

/-- The enumeration `Camera::PatternType`. -/
inductive PatternType where
  | CHESSBOARD
  | CIRCLES_GRID
  | ASYMMETRIC_CIRCLES_GRID
  | ARUCO
  | CHARUCO
deriving DecidableEq, Repr

/-- The call `v.clear()` on a `std::vector`: whatever `v` held, it is empty afterwards. -/
def clear {α : Type} (_v : List α) : List α := []

/-- The counted loop `for (int k = 0; k < n; ++k) body(k)` acting on a state. -/
def forLoop {σ : Type} (n : Int) (body : Int → σ → σ) (s : σ) : σ :=
  (List.range n.toNat).foldl (fun acc (k : Nat) => body (k : Int) acc) s

/-- The result of 32-bit `int` arithmetic whose exact result is `x`: the two's complement
value in `[-2 ^ 31, 2 ^ 31)` congruent to `x` modulo `2 ^ 32`.  Inside that range it is
`x` itself; outside, C++ leaves the behaviour undefined and the compiled code wraps. -/
def toInt32 (x : Int) : Int :=
  (x + 2 ^ 31) % 2 ^ 32 - 2 ^ 31

/-- The expression `i * squareSize` with `i` an `int` and `squareSize` a `float`. -/
def scale {F : Type} [FloatOps F] (i : Int) (squareSize : F) : F :=
  FloatOps.mul (FloatOps.ofInt i) squareSize

/-- `calcBoardCornerPositions(boardSize, squareSize, corners, patternType)`.
The argument `corners` is the previous content of the output vector; the result
is its content on return. -/
def calcBoardCornerPositions {F : Type} [FloatOps F] (boardSize : Size) (squareSize : F)
    (corners : List (Point3f F)) (patternType : PatternType) : List (Point3f F) :=
  let corners := clear corners
  match patternType with
  | .CHESSBOARD | .CIRCLES_GRID =>
    forLoop boardSize.height (fun i corners =>
      forLoop boardSize.width (fun j corners =>
        corners ++ [⟨scale j squareSize, scale i squareSize, FloatOps.ofInt 0⟩]) corners) corners
  | .ASYMMETRIC_CIRCLES_GRID =>
    forLoop boardSize.height (fun i corners =>
      forLoop boardSize.width (fun j corners =>
        corners ++ [⟨scale (toInt32 (toInt32 (2 * j) + Int.tmod i 2)) squareSize,
          scale i squareSize, FloatOps.ofInt 0⟩]) corners) corners
  | _ => corners

/-- The ways a statement of the two programs ends abnormally: the C++ exceptions they can
raise, none of which they catch, and the memory fault of an unchecked read. -/
inductive Exn where
  /-- `std::out_of_range`, thrown by `std::string::compare` and `std::vector::at`. -/
  | out_of_range
  /-- `boost::filesystem::filesystem_error`, thrown by `directory_iterator`. -/
  | filesystem_error
  /-- Not a C++ exception: the memory fault that ends the process when an unchecked read
  outside a vector touches memory it may not read. -/
  | memory_fault
deriving DecidableEq, Repr

deriving instance DecidableEq for Except

/-- The counted loop `for (int k = 0; k < n; ++k) body(k)` with a body that can end
abnormally, which ends the loop. -/
def forLoopM {σ : Type} (n : Int) (body : Int → σ → Except Exn σ) (s : σ) : Except Exn σ :=
  (List.range n.toNat).foldlM (fun acc (k : Nat) => body (k : Int) acc) s

/-- The unchecked element access `v[i]` of `std::vector`.  Inside the bounds it is the
element.  Outside them C++ leaves the behaviour undefined: the read yields whatever the
memory holds there, or the process ends with a memory fault.  The parameter `oob` stands
for the memory outside the vector: `oob i` is the value read at index `i`, or `none` for
the fault. -/
def vecAt {α : Type} (oob : Int → Option α) (v : List α) (i : Int) : Except Exn α :=
  match (if 0 ≤ i then v[i.toNat]? else none) with
  | some x => .ok x
  | none =>
    match oob i with
    | some x => .ok x
    | none => .error .memory_fault

/-- `calcArucoCornerPositions(board, corners_id, objectPoints)`; `chessboardCorners`
is the per-ID corner table `board->chessboardCorners`, `objectPoints` the previous
content of the output vector, `oob` the memory outside the table.  The result is the
content of `objectPoints` on return, or the memory fault in which the call ended. -/
def calcArucoCornerPositions {P : Type} (oob : Int → Option P) (chessboardCorners : List P)
    (corners_id : List Int) (objectPoints : List P) : Except Exn (List P) :=
  let objectPoints := clear objectPoints
  forLoopM corners_id.length (fun i objectPoints => do
    let id ← vecAt (fun _ => none) corners_id i
    let p ← vecAt oob chessboardCorners id
    pure (objectPoints ++ [p])) objectPoints

/-! ## Strings and the directory listing -/

/-- The type `std::string`, a sequence of characters compared lexicographically. -/
abbrev CppString := List Char

/-- The difference `a - b` of two `size_t` values: it wraps around modulo `2 ^ 64`
when `b` exceeds `a`. -/
def sizeSub (a b : Nat) : Nat :=
  if b ≤ a then a - b else (a + 2 ^ 64 - b) % 2 ^ 64

/-- The conversion of an `int` to `size_t` that C++ applies when the two are compared. -/
def toSizeT (x : Int) : Nat := (x % 2 ^ 64).toNat

/-- The sign of the lexicographic comparison of two strings, as `std::string::compare`
returns it: negative, zero or positive. -/
def strCompare (a b : CppString) : Int :=
  if a < b then -1 else if b < a then 1 else 0

/-- The substring `[pos, pos + len)` of `s`, cut at the end of `s`, as
`std::string::compare` takes it: `std::out_of_range` when `pos > s.size()`. -/
def substr (s : CppString) (pos len : Nat) : Except Exn CppString :=
  if s.length < pos then .error .out_of_range else .ok ((s.drop pos).take len)

/-- The call `s.compare(pos, len, str)`. -/
def compareAt (s : CppString) (pos len : Nat) (str : CppString) : Except Exn Int := do
  let a ← substr s pos len
  pure (strCompare a str)

/-- The call `s.compare(pos, len, str, subpos, sublen)`. -/
def compareSub (s : CppString) (pos len : Nat) (str : CppString) (subpos sublen : Nat) :
    Except Exn Int := do
  let a ← substr s pos len
  let b ← substr str subpos sublen
  pure (strCompare a b)

/-- The checked element access `v.at(i)` of `std::vector`. -/
def vecAtChecked {α : Type} (v : List α) (i : Nat) : Except Exn α :=
  match v[i]? with
  | some x => .ok x
  | none => .error .out_of_range

/-- The checked assignment `v.at(i) = x`. -/
def vecSetChecked {α : Type} (v : List α) (i : Nat) (x : α) : Except Exn (List α) :=
  if i < v.length then .ok (v.set i x) else .error .out_of_range

/-- The case-insensitive comparison `boost::iequals`. -/
def iequals (a b : CppString) : Bool :=
  a.map Char.toLower == b.map Char.toLower

/-- One entry met by `boost::filesystem::directory_iterator`. -/
structure DirEntry where
  /-- The value of `itr->path().filename().string()`. -/
  filename : CppString
  /-- The value of `is_regular_file(itr->status())`. -/
  is_regular_file : Bool
deriving DecidableEq, Repr

/-- The value of `itr->path().string()` for the entry named `filename`: that name under
the input directory. -/
def entryPath (inputDir filename : CppString) : CppString :=
  inputDir ++ '/' :: filename

/-- The value of `boost::filesystem::path(p).filename().string()`: what follows the
last separator of `p`. -/
def pathFilename (p : CppString) : CppString :=
  (p.reverse.takeWhile (fun ch => ch != '/')).reverse

/-- The call `std::sort(v.begin(), v.end())` on a vector of strings: the ascending
rearrangement of `v`, which is unique for the total order on strings. -/
def stdSort (v : List CppString) : List CppString :=
  v.insertionSort (fun a b => a ≤ b)

/-! ## Stereo: image enumeration and filename pairing (`stereo_calib.cc`) -/

/-- One round of the directory loop of `stereo_calib.cc` (lines 244-278): the
regular-file test, the extension filter, then the two prefix filters. -/
def stereoEnumStep (inputDir fileExtension prefixL prefixR : CppString)
    (acc : List CppString × List CppString) (e : DirEntry) :
    Except Exn (List CppString × List CppString) := do
  if !e.is_regular_file then
    pure acc
  else
    let filename := e.filename
    let c ← compareAt filename (sizeSub filename.length fileExtension.length)
      fileExtension.length fileExtension
    if c ≠ 0 then
      pure acc
    else
      let imageFilenamesL ←
        if prefixL.isEmpty then pure (acc.1 ++ [entryPath inputDir e.filename])
        else do
          let cL ← compareAt filename 0 prefixL.length prefixL
          pure (if cL = 0 then acc.1 ++ [entryPath inputDir e.filename] else acc.1)
      let imageFilenamesR ←
        if prefixR.isEmpty then pure (acc.2 ++ [entryPath inputDir e.filename])
        else do
          let cR ← compareAt filename 0 prefixR.length prefixR
          pure (if cR = 0 then acc.2 ++ [entryPath inputDir e.filename] else acc.2)
      pure (imageFilenamesL, imageFilenamesR)

/-- The directory loop of `stereo_calib.cc`: the candidate lists `imageFilenamesL` and
`imageFilenamesR`, in the order the directory is enumerated. -/
def stereoEnumerate (inputDir fileExtension prefixL prefixR : CppString)
    (entries : List DirEntry) : Except Exn (List CppString × List CppString) :=
  entries.foldlM (stereoEnumStep inputDir fileExtension prefixL prefixR) ([], [])

/-- The file name of `path` with its first `n` characters removed: the suffix that the
pairing validation compares. -/
def strippedName (n : Nat) (path : CppString) : CppString :=
  (pathFilename path).drop n

/-- The pairing condition in the words of the specification: at every index, the left
file name with its first `|prefixL|` characters removed equals the right file name with
its first `|prefixR|` characters removed. -/
def suffixesAgree (prefixL prefixR : CppString) (L R : List CppString) : Prop :=
  ∀ i, i < L.length →
    (L[i]?).map (strippedName prefixL.length) = (R[i]?).map (strippedName prefixR.length)

instance (prefixL prefixR : CppString) (L R : List CppString) :
    Decidable (suffixesAgree prefixL prefixR L R) := by
  unfold suffixesAgree
  infer_instance

/-- One round of the filename matching loop of `stereo_calib.cc` (lines 296-315). -/
def matchStep (prefixL prefixR : CppString) (imageFilenamesL imageFilenamesR : List CppString)
    (matchImages : Bool) (i : Nat) : Except Exn Bool := do
  let filenameL := pathFilename (← vecAtChecked imageFilenamesL i)
  let filenameR := pathFilename (← vecAtChecked imageFilenamesR i)
  let c ← compareSub filenameL prefixL.length (sizeSub filenameL.length prefixL.length)
    filenameR prefixR.length (sizeSub filenameR.length prefixR.length)
  pure (if c ≠ 0 then false else matchImages)

/-- The filename matching loop of `stereo_calib.cc` over the two sorted lists: the
final value of `matchImages`. -/
def matchFilenames (prefixL prefixR : CppString)
    (imageFilenamesL imageFilenamesR : List CppString) : Except Exn Bool :=
  (List.range imageFilenamesL.length).foldlM
    (matchStep prefixL prefixR imageFilenamesL imageFilenamesR) true

/-! ## External collaborators -/

/-- The enumeration `Camera::ModelType`. -/
inductive ModelType where
  | KANNALA_BRANDT
  | MEI
  | PINHOLE
  | SCARAMUZZA
deriving DecidableEq, Repr

/-- The file system as the two programs query it. -/
structure FileSystem where
  /-- The call `boost::filesystem::exists(p)`. -/
  fsExists : CppString → Bool
  /-- The call `boost::filesystem::is_directory(p)`. -/
  is_directory : CppString → Bool
  /-- The entries `boost::filesystem::directory_iterator(p)` runs through, in its
  order, or the exception its constructor throws. -/
  directory_iterator : CppString → Except Exn (List DirEntry)
  /-- Whether `cv::FileStorage(filename, READ).isOpened()` holds. -/
  fileStorageIsOpened : CppString → Bool

/-- The object `cv::aruco::CharucoBoard`, of which the programs read the per-ID
corner table. -/
structure CharucoBoard (F : Type) where
  chessboardCorners : List (Point3f F)
deriving DecidableEq, Repr

/-- The three vectors `corners`, `ids`, `rejected` that marker detection fills. -/
structure Markers (C : Type) where
  corners : List C
  ids : List Int
  rejected : List C

/-- The image library and the detectors, which are outside the two source files.
`Img` is `cv::Mat`, `P2` is `cv::Point2f`, `C` is the element type of the marker
corner vector (`std::vector<cv::Point2f>` in the stereo program, `cv::Point2f` in
the mono program). -/
structure Vision (Img P2 C F : Type) where
  /-- The call `cv::imread(path, -1)`. -/
  imread : CppString → Img
  /-- `Chessboard(boardSize, image)` after `findCorners(useOpenCV)`: the values of
  `cornersFound()` and `getCorners()`. -/
  findCorners : Size → Img → Bool → Bool × List P2
  /-- `cv::findCirclesGrid(image, boardSize, points, flags)`, the third argument
  telling whether `flags` is `CALIB_CB_ASYMMETRIC_GRID`: the returned flag and `points`. -/
  findCirclesGrid : Img → Size → Bool → Bool × List P2
  /-- `cv::aruco::CharucoBoard::create(squaresX, squaresY, squareLength, markerLength,
  dictionary)`, the dictionary given by its id. -/
  CharucoBoard_create : Int → Int → F → F → Int → CharucoBoard F
  /-- `cv::aruco::detectMarkers(image, dictionary, corners, ids, detectorParams, rejected)`. -/
  detectMarkers : Img → Int → Markers C
  /-- `cv::aruco::refineDetectedMarkers(image, board, corners, ids, rejected)`. -/
  refineDetectedMarkers : Img → CharucoBoard F → Markers C → Markers C
  /-- `cv::aruco::interpolateCornersCharuco(corners, ids, image, board, charucoCorners,
  charucoIds)`: the interpolated corners and their IDs. -/
  interpolateCornersCharuco : List C → List Int → Img → CharucoBoard F → List P2 × List Int
  /-- The memory outside `board->chessboardCorners`: what an unchecked read at an index
  without table entry yields, `none` when the read ends in a memory fault. -/
  oob : Int → Option (Point3f F)

/-- The contract of `cv::aruco::interpolateCornersCharuco`, whose code is outside the two
source files, as far as the stereo acceptance relies on it.  The call yields the
chessboard corners of the board that it found, in the order of the board's corner table:
the IDs are indices into that table of `corners` entries, ascending and so without
repetition, and there is one 2D corner per ID. -/
def InterpolationContract {P2 : Type} (corners : Nat) (result : List P2 × List Int) : Prop :=
  result.2.Pairwise (fun a b => a < b) ∧
    (∀ id ∈ result.2, 0 ≤ id ∧ id < (corners : Int)) ∧
    result.1.length = result.2.length

instance {P2 : Type} (corners : Nat) (result : List P2 × List Int) :
    Decidable (InterpolationContract corners result) := by
  unfold InterpolationContract
  infer_instance

/-- How a run of `main` ends. -/
inductive Exit where
  /-- A `return status;` of `main`. -/
  | returned (status : Int)
  /-- An exception left `main`, or a memory fault occurred; the process is terminated. -/
  | uncaught (e : Exn)
deriving DecidableEq, Repr

/-- The chain of `boost::iequals` tests on the camera model name. -/
def parseModelType (cameraModel : CppString) : Option ModelType :=
  if iequals cameraModel "kannala-brandt".toList then some .KANNALA_BRANDT
  else if iequals cameraModel "mei".toList then some .MEI
  else if iequals cameraModel "pinhole".toList then some .PINHOLE
  else if iequals cameraModel "scaramuzza".toList then some .SCARAMUZZA
  else none

/-- The chain of `boost::iequals` tests on the pattern name. -/
def parsePatternType (pattern : CppString) : Option PatternType :=
  if iequals pattern "chessboard".toList then some .CHESSBOARD
  else if iequals pattern "circles_grid".toList then some .CIRCLES_GRID
  else if iequals pattern "asymmetric_circles_grid".toList then some .ASYMMETRIC_CIRCLES_GRID
  else if iequals pattern "aruco".toList then some .ARUCO
  else if iequals pattern "charuco".toList then some .CHARUCO
  else none

/-- `readArucoMarkerParameters(filename, params)`: false exactly when the file
cannot be opened. -/
def readArucoMarkerParameters (fs : FileSystem) (filename : CppString) : Bool :=
  if !fs.fileStorageIsOpened filename then false else true

/-! ## The calibration dataset -/

/-- Modelled from the spec: `camera_model::StereoCameraCalibration` is not under `src/`.
Its dataset is the append-only sequence of accepted correspondence pairs; this is one
pair, as `addChessboardData(cornersL, cornersR)` or
`addCornersData(pointsL, pointsR, objectPoints)` hands it over. -/
inductive StereoSample (P2 P3 : Type) where
  | chessboard (cornersL cornersR : List P2)
  | corners (pointsL pointsR : List P2) (objectPoints : List P3)
deriving DecidableEq, Repr

/-- Modelled from the spec: `camodocal::CameraCalibration` is not under `src/`.  Its
dataset is the append-only sequence of accepted correspondence sets; this is one set,
as `addChessboardData(corners)` or `addMarkerData(points, objectPoints)` hands it over. -/
inductive MonoSample (C P3 : Type) where
  | chessboard (corners : List C)
  | marker (points : List C) (objectPoints : List P3)
deriving DecidableEq, Repr

/-- Modelled from the spec: `sampleCount()` of the calibration object, the number of
samples accepted so far. -/
def sampleCount {S : Type} (dataset : List S) : Int := (dataset.length : Int)

/-! ## Stereo: the frame loop and `main` (`stereo_calib.cc`) -/

/-- The parsed command line of `stereo_calib`. -/
structure StereoOptions (F : Type) where
  help : Bool
  boardSize : Size
  squareSize : F
  markerSize : F
  dictionaryId : Int
  inputDir : CppString
  outputDir : CppString
  prefixL : CppString
  prefixR : CppString
  pattern : CppString
  arucoParams : CppString
  fileExtension : CppString
  cameraModel : CppString
  cameraNameL : CppString
  cameraNameR : CppString
  useOpenCV : Bool
  viewResults : Bool
  verbose : Bool

/-- The variables the stereo frame loop updates; `frames` counts the rounds run. -/
structure StereoState (P2 P3 : Type) where
  frames : Nat
  dataset : List (StereoSample P2 P3)
  chessboardFoundL : List Bool
  chessboardFoundR : List Bool
deriving DecidableEq, Repr

/-- The acceptance test of the stereo ChArUco case (line 461):
`charuco_idsL.size() == boardSize.width * boardSize.height &&
 charuco_idsL.size() == charuco_idsR.size()`.  The product is an `int` product, converted
to `size_t` for the comparison. -/
def stereoCharucoAccepted (boardSize : Size) (charuco_idsL charuco_idsR : List Int) : Bool :=
  charuco_idsL.length == toSizeT (toInt32 (boardSize.width * boardSize.height)) &&
    charuco_idsL.length == charuco_idsR.length

/-- The ChArUco case of the stereo frame loop (lines 424-481) for frame `i`. -/
def stereoCharucoFrame {Img P2 F : Type} (vis : Vision Img P2 (List P2) F)
    (boardSize : Size) (dictionaryId : Int) (charucoboard : CharucoBoard F)
    (imageL imageR : Img) (st : StereoState P2 (Point3f F)) (i : Nat) :
    Except Exn (StereoState P2 (Point3f F)) := do
  let markersL := vis.detectMarkers imageL dictionaryId
  let markersR := vis.detectMarkers imageR dictionaryId
  let markersL := vis.refineDetectedMarkers imageL charucoboard markersL
  let (charucoL, charucoR) :=
    if markersL.ids.length > 0 && markersR.ids.length > 0 then
      (vis.interpolateCornersCharuco markersL.corners markersL.ids imageL charucoboard,
       vis.interpolateCornersCharuco markersR.corners markersR.ids imageR charucoboard)
    else (([], []), ([], []))
  let (charuco_cornersL, charuco_idsL) := charucoL
  let (charuco_cornersR, charuco_idsR) := charucoR
  if stereoCharucoAccepted boardSize charuco_idsL charuco_idsR then
    let chessboardFoundL ← vecSetChecked st.chessboardFoundL i true
    let chessboardFoundR ← vecSetChecked st.chessboardFoundR i true
    let objectPoints ←
      calcArucoCornerPositions vis.oob charucoboard.chessboardCorners charuco_idsL []
    pure { frames := st.frames + 1
           dataset := st.dataset ++ [.corners charuco_cornersL charuco_cornersR objectPoints]
           chessboardFoundL := chessboardFoundL
           chessboardFoundR := chessboardFoundR }
  else
    pure { st with frames := st.frames + 1 }

/-- One round of the stereo frame loop (lines 336-486). -/
def stereoFrame {Img P2 F : Type} [FloatOps F] (vis : Vision Img P2 (List P2) F)
    (opts : StereoOptions F) (patternType : PatternType) (charucoboard : CharucoBoard F)
    (imageFilenamesL imageFilenamesR : List CppString)
    (st : StereoState P2 (Point3f F)) (i : Nat) : Except Exn (StereoState P2 (Point3f F)) := do
  let imageL := vis.imread (← vecAtChecked imageFilenamesL i)
  let imageR := vis.imread (← vecAtChecked imageFilenamesR i)
  match patternType with
  | .CHESSBOARD =>
    let chessboardL := vis.findCorners opts.boardSize imageL opts.useOpenCV
    let chessboardR := vis.findCorners opts.boardSize imageR opts.useOpenCV
    let dataset :=
      if chessboardL.1 && chessboardR.1 then
        st.dataset ++ [.chessboard chessboardL.2 chessboardR.2]
      else st.dataset
    let chessboardFoundL ← vecSetChecked st.chessboardFoundL i chessboardL.1
    let chessboardFoundR ← vecSetChecked st.chessboardFoundR i chessboardR.1
    pure { frames := st.frames + 1, dataset := dataset
           chessboardFoundL := chessboardFoundL, chessboardFoundR := chessboardFoundR }
  | .CIRCLES_GRID | .ASYMMETRIC_CIRCLES_GRID =>
    let flags := decide (patternType = .ASYMMETRIC_CIRCLES_GRID)
    let (foundL, circle_pointsL) := vis.findCirclesGrid imageL opts.boardSize flags
    let (foundR, circle_pointsR) := vis.findCirclesGrid imageR opts.boardSize flags
    let dataset :=
      if foundL && foundR then
        let objectPoints :=
          calcBoardCornerPositions opts.boardSize opts.squareSize [] patternType
        st.dataset ++ [.corners circle_pointsL circle_pointsR objectPoints]
      else st.dataset
    let chessboardFoundL ← vecSetChecked st.chessboardFoundL i foundL
    let chessboardFoundR ← vecSetChecked st.chessboardFoundR i foundR
    pure { frames := st.frames + 1, dataset := dataset
           chessboardFoundL := chessboardFoundL, chessboardFoundR := chessboardFoundR }
  | .ARUCO => pure { st with frames := st.frames + 1 }
  | .CHARUCO =>
    stereoCharucoFrame vis opts.boardSize opts.dictionaryId charucoboard imageL imageR st i

/-- The stereo frame loop over all image pairs, from the state set up at lines 331-335. -/
def stereoFrames {Img P2 F : Type} [FloatOps F] (vis : Vision Img P2 (List P2) F)
    (opts : StereoOptions F) (patternType : PatternType) (charucoboard : CharucoBoard F)
    (imageFilenamesL imageFilenamesR : List CppString) :
    Except Exn (StereoState P2 (Point3f F)) :=
  (List.range imageFilenamesL.length).foldlM
    (stereoFrame vis opts patternType charucoboard imageFilenamesL imageFilenamesR)
    { frames := 0, dataset := []
      chessboardFoundL := List.replicate imageFilenamesL.length false
      chessboardFoundR := List.replicate imageFilenamesR.length false }

/-- What a run of `stereo_calib` did: how it ended, how many rounds of the frame loop
ran, the dataset and found flags at the end, whether `calibration.calibrate()` was
called, and the image names selected by the result viewer. -/
structure StereoOutcome (P2 P3 : Type) where
  exit : Exit
  frames : Nat
  dataset : List (StereoSample P2 P3)
  chessboardFoundL : List Bool
  chessboardFoundR : List Bool
  calibrated : Bool
  cbImageFilenamesL : List CppString
  cbImageFilenamesR : List CppString
deriving DecidableEq, Repr

/-- A run that ends with nothing to show: by a `return` before the frame loop, or by an
exception that leaves `main`. -/
def StereoOutcome.early {P2 P3 : Type} (e : Exit) : StereoOutcome P2 P3 :=
  { exit := e, frames := 0, dataset := [], chessboardFoundL := [], chessboardFoundR := []
    calibrated := false, cbImageFilenamesL := [], cbImageFilenamesR := [] }

/-- Lines 124-239 of `stereo_calib.cc`: the help switch, the input directory test, the
camera model and pattern names, and the ChArUco set-up.  The result is the pattern
type and the ChArUco board (an empty table when the pattern is not ChArUco, where
the pointer stays null and is never read), or the `return` that ends the run. -/
def stereoSetup {Img P2 F : Type} (vis : Vision Img P2 (List P2) F) (fs : FileSystem)
    (opts : StereoOptions F) : Except Exit (PatternType × CharucoBoard F) :=
  if opts.help then .error (.returned 1)
  else if !fs.fsExists opts.inputDir && !fs.is_directory opts.inputDir then
    .error (.returned 1)
  else
    match parseModelType opts.cameraModel with
    | none => .error (.returned 1)
    | some _ =>
      match parsePatternType opts.pattern with
      | none => .error (.returned 1)
      | some .CHARUCO =>
        let charucoboard := vis.CharucoBoard_create (toInt32 (opts.boardSize.width + 1))
          (toInt32 (opts.boardSize.height + 1)) opts.squareSize opts.markerSize
          opts.dictionaryId
        let readOk := readArucoMarkerParameters fs opts.arucoParams
        if !readOk then .error (.returned 0) else .ok (.CHARUCO, charucoboard)
      | some patternType => .ok (patternType, ⟨[]⟩)

/-- Lines 241-320 of `stereo_calib.cc`: enumeration of the candidates, the two
fail-fast tests on the candidate lists, the two sorts and the filename matching.  The
result is the pair of sorted lists, or the way the run ends. -/
def stereoImages {F : Type} (fs : FileSystem) (opts : StereoOptions F) :
    Except Exit (List CppString × List CppString) :=
  match fs.directory_iterator opts.inputDir with
  | .error e => .error (.uncaught e)
  | .ok entries =>
    match stereoEnumerate opts.inputDir opts.fileExtension opts.prefixL opts.prefixR entries with
    | .error e => .error (.uncaught e)
    | .ok (imageFilenamesL, imageFilenamesR) =>
      if imageFilenamesL.isEmpty || imageFilenamesR.isEmpty then .error (.returned 1)
      else if imageFilenamesL.length ≠ imageFilenamesR.length then .error (.returned 1)
      else
        let imageFilenamesL := stdSort imageFilenamesL
        let imageFilenamesR := stdSort imageFilenamesR
        match matchFilenames opts.prefixL opts.prefixR imageFilenamesL imageFilenamesR with
        | .error e => .error (.uncaught e)
        | .ok matchImages =>
          if !matchImages then .error (.returned 1)
          else .ok (imageFilenamesL, imageFilenamesR)

/-- The selection loop of the result viewer: the names at the indices where `keep` holds. -/
def selectFound (imageFilenames : List CppString) (keep : Nat → Bool) : List CppString :=
  ((List.range imageFilenames.length).filter keep).filterMap (fun i => imageFilenames[i]?)

/-- Lines 490-555 of `stereo_calib.cc`: the sample gate, the calibration and the
result viewer, from the state the frame loop left. -/
def stereoFinish {P2 P3 : Type} (viewResults : Bool)
    (imageFilenamesL imageFilenamesR : List CppString) (st : StereoState P2 P3) :
    StereoOutcome P2 P3 :=
  if sampleCount st.dataset < 10 then
    { exit := .returned 1, frames := st.frames, dataset := st.dataset
      chessboardFoundL := st.chessboardFoundL, chessboardFoundR := st.chessboardFoundR
      calibrated := false, cbImageFilenamesL := [], cbImageFilenamesR := [] }
  else
    let keep : Nat → Bool := fun i =>
      !(!(st.chessboardFoundL.getD i false) || !(st.chessboardFoundR.getD i false))
    { exit := .returned 0, frames := st.frames, dataset := st.dataset
      chessboardFoundL := st.chessboardFoundL, chessboardFoundR := st.chessboardFoundR
      calibrated := true
      cbImageFilenamesL := if viewResults then selectFound imageFilenamesL keep else []
      cbImageFilenamesR := if viewResults then selectFound imageFilenamesR keep else [] }

/-- The function `main` of `stereo_calib.cc`. -/
def stereo_calib_main {Img P2 F : Type} [FloatOps F] (vis : Vision Img P2 (List P2) F)
    (fs : FileSystem) (opts : StereoOptions F) : StereoOutcome P2 (Point3f F) :=
  match stereoSetup vis fs opts with
  | .error e => .early e
  | .ok (patternType, charucoboard) =>
    match stereoImages fs opts with
    | .error e => .early e
    | .ok (imageFilenamesL, imageFilenamesR) =>
      match stereoFrames vis opts patternType charucoboard imageFilenamesL imageFilenamesR with
      | .error e => .early (.uncaught e)
      | .ok st => stereoFinish opts.viewResults imageFilenamesL imageFilenamesR st

/-! ## Mono: image enumeration, the frame loop and `main` (`intrinsic_calib.cc`) -/

/-- The parsed command line of `intrinsic_calib`; `prefix_` is the option `prefix`. -/
structure MonoOptions (F : Type) where
  help : Bool
  boardSize : Size
  squareSize : F
  markerSize : F
  dictionaryId : Int
  inputDir : CppString
  prefix_ : CppString
  pattern : CppString
  arucoParams : CppString
  fileExtension : CppString
  cameraModel : CppString
  cameraName : CppString
  useOpenCV : Bool
  arucoRefine : Bool
  viewResults : Bool
  verbose : Bool

/-- One round of the directory loop of `intrinsic_calib.cc` (lines 242-272): the
regular-file test, the prefix filter, then the extension filter. -/
def monoEnumStep (inputDir fileExtension prefix_ : CppString)
    (imageFilenames : List CppString) (e : DirEntry) : Except Exn (List CppString) := do
  if !e.is_regular_file then
    pure imageFilenames
  else
    let filename := e.filename
    let skip ←
      if !prefix_.isEmpty then do
        let c ← compareAt filename 0 prefix_.length prefix_
        pure (decide (c ≠ 0))
      else pure false
    if skip then
      pure imageFilenames
    else
      let c ← compareAt filename (sizeSub filename.length fileExtension.length)
        fileExtension.length fileExtension
      if c ≠ 0 then pure imageFilenames
      else pure (imageFilenames ++ [entryPath inputDir e.filename])

/-- The directory loop of `intrinsic_calib.cc`: the candidate list `imageFilenames`. -/
def monoEnumerate (inputDir fileExtension prefix_ : CppString) (entries : List DirEntry) :
    Except Exn (List CppString) :=
  entries.foldlM (monoEnumStep inputDir fileExtension prefix_) []

/-- The variables the mono frame loop updates; `frames` counts the rounds run. -/
structure MonoState (C P3 : Type) where
  frames : Nat
  dataset : List (MonoSample C P3)
  chessboardFound : List Bool
deriving DecidableEq, Repr

/-- The ChArUco case of the mono frame loop (lines 361-402). -/
def monoCharucoFrame {Img P2 F : Type} (vis : Vision Img P2 P2 F)
    (arucoRefine : Bool) (dictionaryId : Int) (charucoboard : CharucoBoard F)
    (image : Img) (st : MonoState P2 (Point3f F)) : Except Exn (MonoState P2 (Point3f F)) := do
  let markers := vis.detectMarkers image dictionaryId
  let markers :=
    if arucoRefine then vis.refineDetectedMarkers image charucoboard markers else markers
  let (_currentCharucoCorners, _currentCharucoIds) :=
    if markers.ids.length > 0 then
      vis.interpolateCornersCharuco markers.corners markers.ids image charucoboard
    else ([], [])
  if markers.ids.length > 0 then
    let objectPoints ←
      calcArucoCornerPositions vis.oob charucoboard.chessboardCorners markers.ids []
    pure { st with frames := st.frames + 1
                   dataset := st.dataset ++ [.marker markers.corners objectPoints] }
  else
    pure { st with frames := st.frames + 1 }

/-- One round of the mono frame loop (lines 292-408). -/
def monoFrame {Img P2 F : Type} [FloatOps F] (vis : Vision Img P2 P2 F)
    (opts : MonoOptions F) (patternType : PatternType) (charucoboard : CharucoBoard F)
    (imageFilenames : List CppString)
    (st : MonoState P2 (Point3f F)) (i : Nat) : Except Exn (MonoState P2 (Point3f F)) := do
  let image := vis.imread (← vecAtChecked imageFilenames i)
  match patternType with
  | .CHESSBOARD =>
    let chessboard := vis.findCorners opts.boardSize image opts.useOpenCV
    let dataset :=
      if chessboard.1 then st.dataset ++ [.chessboard chessboard.2] else st.dataset
    let chessboardFound ← vecSetChecked st.chessboardFound i chessboard.1
    pure { frames := st.frames + 1, dataset := dataset, chessboardFound := chessboardFound }
  | .CIRCLES_GRID | .ASYMMETRIC_CIRCLES_GRID =>
    let flags := decide (patternType = .ASYMMETRIC_CIRCLES_GRID)
    let (found, circle_points) := vis.findCirclesGrid image opts.boardSize flags
    let dataset :=
      if found then
        let objectPoints :=
          calcBoardCornerPositions opts.boardSize opts.squareSize [] patternType
        st.dataset ++ [.marker circle_points objectPoints]
      else st.dataset
    let chessboardFound ← vecSetChecked st.chessboardFound i found
    pure { frames := st.frames + 1, dataset := dataset, chessboardFound := chessboardFound }
  | .ARUCO => pure { st with frames := st.frames + 1 }
  | .CHARUCO =>
    monoCharucoFrame vis opts.arucoRefine opts.dictionaryId charucoboard image st

/-- The mono frame loop over all images, from the state set up at lines 288-291. -/
def monoFrames {Img P2 F : Type} [FloatOps F] (vis : Vision Img P2 P2 F)
    (opts : MonoOptions F) (patternType : PatternType) (charucoboard : CharucoBoard F)
    (imageFilenames : List CppString) : Except Exn (MonoState P2 (Point3f F)) :=
  (List.range imageFilenames.length).foldlM
    (monoFrame vis opts patternType charucoboard imageFilenames)
    { frames := 0, dataset := []
      chessboardFound := List.replicate imageFilenames.length false }

/-- What a run of `intrinsic_calib` did: how it ended, how many rounds of the frame
loop ran, the dataset and found flags at the end, whether `calibration.calibrate()`
was called, and the image names selected by the result viewer. -/
structure MonoOutcome (C P3 : Type) where
  exit : Exit
  frames : Nat
  dataset : List (MonoSample C P3)
  chessboardFound : List Bool
  calibrated : Bool
  cbImageFilenames : List CppString
deriving DecidableEq, Repr

/-- A run that ends with nothing to show: by a `return` before the frame loop, or by an
exception that leaves `main`. -/
def MonoOutcome.early {C P3 : Type} (e : Exit) : MonoOutcome C P3 :=
  { exit := e, frames := 0, dataset := [], chessboardFound := []
    calibrated := false, cbImageFilenames := [] }

/-- Lines 124-237 of `intrinsic_calib.cc`: the help switch, the input directory test,
the camera model and pattern names, and the ChArUco set-up. -/
def monoSetup {Img P2 F : Type} (vis : Vision Img P2 P2 F) (fs : FileSystem)
    (opts : MonoOptions F) : Except Exit (PatternType × CharucoBoard F) :=
  if opts.help then .error (.returned 1)
  else if !fs.fsExists opts.inputDir && !fs.is_directory opts.inputDir then
    .error (.returned 1)
  else
    match parseModelType opts.cameraModel with
    | none => .error (.returned 1)
    | some _ =>
      match parsePatternType opts.pattern with
      | none => .error (.returned 1)
      | some .CHARUCO =>
        let charucoboard := vis.CharucoBoard_create opts.boardSize.width
          opts.boardSize.height opts.squareSize opts.markerSize opts.dictionaryId
        let readOk := readArucoMarkerParameters fs opts.arucoParams
        if !readOk then .error (.returned 0) else .ok (.CHARUCO, charucoboard)
      | some patternType => .ok (patternType, ⟨[]⟩)

/-- Lines 239-278 of `intrinsic_calib.cc`: enumeration of the candidates and the test
that there is one. -/
def monoImages {F : Type} (fs : FileSystem) (opts : MonoOptions F) :
    Except Exit (List CppString) :=
  match fs.directory_iterator opts.inputDir with
  | .error e => .error (.uncaught e)
  | .ok entries =>
    match monoEnumerate opts.inputDir opts.fileExtension opts.prefix_ entries with
    | .error e => .error (.uncaught e)
    | .ok imageFilenames =>
      if imageFilenames.isEmpty then .error (.returned 1) else .ok imageFilenames

/-- Lines 436-495 of `intrinsic_calib.cc`: the sample gate, the calibration and the
result viewer, from the state the frame loop left. -/
def monoFinish {C P3 : Type} (viewResults : Bool) (imageFilenames : List CppString)
    (st : MonoState C P3) : MonoOutcome C P3 :=
  if sampleCount st.dataset < 10 then
    { exit := .returned 1, frames := st.frames, dataset := st.dataset
      chessboardFound := st.chessboardFound, calibrated := false, cbImageFilenames := [] }
  else
    let keep : Nat → Bool := fun i => !(!(st.chessboardFound.getD i false))
    { exit := .returned 0, frames := st.frames, dataset := st.dataset
      chessboardFound := st.chessboardFound, calibrated := true
      cbImageFilenames := if viewResults then selectFound imageFilenames keep else [] }

/-- The function `main` of `intrinsic_calib.cc`. -/
def intrinsic_calib_main {Img P2 F : Type} [FloatOps F] (vis : Vision Img P2 P2 F)
    (fs : FileSystem) (opts : MonoOptions F) : MonoOutcome P2 (Point3f F) :=
  match monoSetup vis fs opts with
  | .error e => .early e
  | .ok (patternType, charucoboard) =>
    match monoImages fs opts with
    | .error e => .early e
    | .ok imageFilenames =>
      match monoFrames vis opts patternType charucoboard imageFilenames with
      | .error e => .early (.uncaught e)
      | .ok st => monoFinish opts.viewResults imageFilenames st

/-! ## What one frame contributes -/

/-- Whether the pattern type is one of the three grid patterns. -/
def PatternType.isGrid : PatternType → Bool
  | .CHESSBOARD | .CIRCLES_GRID | .ASYMMETRIC_CIRCLES_GRID => true
  | _ => false

/-- The grid detection that both programs run on an image: `findCorners` for a
chessboard, `findCirclesGrid` for the two circle grids.  The result is the found flag
and the 2D points. -/
def gridDetect {Img P2 C F : Type} (vis : Vision Img P2 C F) (boardSize : Size)
    (useOpenCV : Bool) (patternType : PatternType) (image : Img) : Bool × List P2 :=
  match patternType with
  | .CHESSBOARD => vis.findCorners boardSize image useOpenCV
  | _ => vis.findCirclesGrid image boardSize (decide (patternType = .ASYMMETRIC_CIRCLES_GRID))

/-- The sample the mono program hands over for a grid detection with 2D points
`points`: `addChessboardData(points)` for a chessboard, and
`addMarkerData(points, objectPoints)` with the grid of `calcBoardCornerPositions` for
the circle grids. -/
def monoGridSample {P2 F : Type} [FloatOps F] (boardSize : Size) (squareSize : F)
    (patternType : PatternType) (points : List P2) : MonoSample P2 (Point3f F) :=
  match patternType with
  | .CHESSBOARD => .chessboard points
  | _ => .marker points (calcBoardCornerPositions boardSize squareSize [] patternType)

/-- The raw marker IDs that the ChArUco case of the mono frame loop works with for the
image at `path`: those of the detection, after the refinement pass when it is on. -/
def monoMarkers {Img P2 F : Type} (vis : Vision Img P2 P2 F)
    (opts : MonoOptions F) (charucoboard : CharucoBoard F) (path : CppString) : Markers P2 :=
  let image := vis.imread path
  let markers := vis.detectMarkers image opts.dictionaryId
  if opts.arucoRefine then vis.refineDetectedMarkers image charucoboard markers else markers

/-- Whether the table reads of one round of the mono frame loop are defined for the image
at `path`: the round does not end in a memory fault.  Only the ChArUco case reads the
table. -/
def monoReadsDefined {Img P2 F : Type} (vis : Vision Img P2 P2 F)
    (opts : MonoOptions F) (patternType : PatternType) (charucoboard : CharucoBoard F)
    (path : CppString) : Prop :=
  patternType = .CHARUCO →
    ∃ objectPoints, calcArucoCornerPositions vis.oob charucoboard.chessboardCorners
      (monoMarkers vis opts charucoboard path).ids [] = .ok objectPoints

/-- The sample that one round of the mono frame loop adds for the image at `path`, if
it adds one; in the ChArUco case, when the table reads of the round are defined. -/
def monoSampleOf {Img P2 F : Type} [FloatOps F] (vis : Vision Img P2 P2 F)
    (opts : MonoOptions F) (patternType : PatternType) (charucoboard : CharucoBoard F)
    (path : CppString) : Option (MonoSample P2 (Point3f F)) :=
  let image := vis.imread path
  match patternType with
  | .ARUCO => none
  | .CHARUCO =>
    let markers := vis.detectMarkers image opts.dictionaryId
    let markers :=
      if opts.arucoRefine then vis.refineDetectedMarkers image charucoboard markers
      else markers
    if markers.ids.length > 0 then
      match calcArucoCornerPositions vis.oob charucoboard.chessboardCorners markers.ids [] with
      | .ok objectPoints => some (.marker markers.corners objectPoints)
      | .error _ => none
    else none
  | _ =>
    let detection := gridDetect vis opts.boardSize opts.useOpenCV patternType image
    if detection.1 then
      some (monoGridSample opts.boardSize opts.squareSize patternType detection.2)
    else none

/-- The value that one round of the mono frame loop leaves in `chessboardFound` for the
image at `path`: the found flag of the grid detection, and the initial `false` in the
ArUco and ChArUco cases, which never write the flag. -/
def monoFlagOf {Img P2 F : Type} (vis : Vision Img P2 P2 F)
    (opts : MonoOptions F) (patternType : PatternType) (path : CppString) : Bool :=
  match patternType with
  | .ARUCO | .CHARUCO => false
  | _ => (gridDetect vis opts.boardSize opts.useOpenCV patternType (vis.imread path)).1

/-- The sample the stereo program hands over for a pair of grid detections:
`addChessboardData(pointsL, pointsR)` for a chessboard, and
`addCornersData(pointsL, pointsR, objectPoints)` with the grid of
`calcBoardCornerPositions` for the circle grids. -/
def stereoGridSample {P2 F : Type} [FloatOps F] (boardSize : Size) (squareSize : F)
    (patternType : PatternType) (pointsL pointsR : List P2) : StereoSample P2 (Point3f F) :=
  match patternType with
  | .CHESSBOARD => .chessboard pointsL pointsR
  | _ => .corners pointsL pointsR
      (calcBoardCornerPositions boardSize squareSize [] patternType)

/-- The interpolated board corners and their IDs of the left and of the right image in
the stereo ChArUco case: both empty unless each image shows a raw marker (the left one
after the refinement pass). -/
def stereoInterpolated {Img P2 F : Type} (vis : Vision Img P2 (List P2) F)
    (dictionaryId : Int) (charucoboard : CharucoBoard F) (imageL imageR : Img) :
    (List P2 × List Int) × (List P2 × List Int) :=
  let markersL := vis.detectMarkers imageL dictionaryId
  let markersR := vis.detectMarkers imageR dictionaryId
  let markersL := vis.refineDetectedMarkers imageL charucoboard markersL
  if markersL.ids.length > 0 && markersR.ids.length > 0 then
    (vis.interpolateCornersCharuco markersL.corners markersL.ids imageL charucoboard,
     vis.interpolateCornersCharuco markersR.corners markersR.ids imageR charucoboard)
  else (([], []), ([], []))

/-- Whether the table reads of one round of the stereo frame loop are defined for the
image pair at `pathL`, `pathR`: the round does not end in a memory fault.  Only the
ChArUco case reads the table, with the interpolated IDs of the left image. -/
def stereoReadsDefined {Img P2 F : Type} (vis : Vision Img P2 (List P2) F)
    (opts : StereoOptions F) (patternType : PatternType) (charucoboard : CharucoBoard F)
    (pathL pathR : CppString) : Prop :=
  patternType = .CHARUCO →
    ∃ objectPoints, calcArucoCornerPositions vis.oob charucoboard.chessboardCorners
      (stereoInterpolated vis opts.dictionaryId charucoboard (vis.imread pathL)
        (vis.imread pathR)).1.2 [] = .ok objectPoints

/-- The sample that one round of the stereo frame loop adds for the image pair at
`pathL`, `pathR`, if it adds one; in the ChArUco case, when the table reads of the round
are defined. -/
def stereoSampleOf {Img P2 F : Type} [FloatOps F] (vis : Vision Img P2 (List P2) F)
    (opts : StereoOptions F) (patternType : PatternType) (charucoboard : CharucoBoard F)
    (pathL pathR : CppString) : Option (StereoSample P2 (Point3f F)) :=
  let imageL := vis.imread pathL
  let imageR := vis.imread pathR
  match patternType with
  | .ARUCO => none
  | .CHARUCO =>
    let charuco := stereoInterpolated vis opts.dictionaryId charucoboard imageL imageR
    if stereoCharucoAccepted opts.boardSize charuco.1.2 charuco.2.2 then
      match calcArucoCornerPositions vis.oob charucoboard.chessboardCorners charuco.1.2 [] with
      | .ok objectPoints => some (.corners charuco.1.1 charuco.2.1 objectPoints)
      | .error _ => none
    else none
  | _ =>
    let detectionL := gridDetect vis opts.boardSize opts.useOpenCV patternType imageL
    let detectionR := gridDetect vis opts.boardSize opts.useOpenCV patternType imageR
    if detectionL.1 && detectionR.1 then
      some (stereoGridSample opts.boardSize opts.squareSize patternType
        detectionL.2 detectionR.2)
    else none

/-- The values that one round of the stereo frame loop leaves in `chessboardFoundL` and
`chessboardFoundR` for the image pair at `pathL`, `pathR`. -/
def stereoFlagsOf {Img P2 F : Type} (vis : Vision Img P2 (List P2) F)
    (opts : StereoOptions F) (patternType : PatternType) (charucoboard : CharucoBoard F)
    (pathL pathR : CppString) : Bool × Bool :=
  let imageL := vis.imread pathL
  let imageR := vis.imread pathR
  match patternType with
  | .ARUCO => (false, false)
  | .CHARUCO =>
    let charuco := stereoInterpolated vis opts.dictionaryId charucoboard imageL imageR
    let accepted := stereoCharucoAccepted opts.boardSize charuco.1.2 charuco.2.2
    (accepted, accepted)
  | _ =>
    ((gridDetect vis opts.boardSize opts.useOpenCV patternType imageL).1,
     (gridDetect vis opts.boardSize opts.useOpenCV patternType imageR).1)

/-- The state of the mono frame loop after `k` rounds, in closed form: the samples of
the first `k` images, their flags, and the initial `false` for the images to come. -/
def monoAfter {Img P2 F : Type} [FloatOps F] (vis : Vision Img P2 P2 F)
    (opts : MonoOptions F) (patternType : PatternType) (charucoboard : CharucoBoard F)
    (imageFilenames : List CppString) (k : Nat) : MonoState P2 (Point3f F) :=
  { frames := k
    dataset := (imageFilenames.take k).filterMap
      (monoSampleOf vis opts patternType charucoboard)
    chessboardFound := (imageFilenames.take k).map (monoFlagOf vis opts patternType)
      ++ List.replicate (imageFilenames.length - k) false }

/-- The state of the stereo frame loop after `k` rounds, in closed form. -/
def stereoAfter {Img P2 F : Type} [FloatOps F] (vis : Vision Img P2 (List P2) F)
    (opts : StereoOptions F) (patternType : PatternType) (charucoboard : CharucoBoard F)
    (imageFilenamesL imageFilenamesR : List CppString) (k : Nat) :
    StereoState P2 (Point3f F) :=
  { frames := k
    dataset := ((imageFilenamesL.zip imageFilenamesR).take k).filterMap
      (fun pair => stereoSampleOf vis opts patternType charucoboard pair.1 pair.2)
    chessboardFoundL := ((imageFilenamesL.zip imageFilenamesR).take k).map
        (fun pair => (stereoFlagsOf vis opts patternType charucoboard pair.1 pair.2).1)
      ++ List.replicate (imageFilenamesL.length - k) false
    chessboardFoundR := ((imageFilenamesL.zip imageFilenamesR).take k).map
        (fun pair => (stereoFlagsOf vis opts patternType charucoboard pair.1 pair.2).2)
      ++ List.replicate (imageFilenamesR.length - k) false }

/-- The 2D points of a mono sample. -/
def MonoSample.points2D {C P3 : Type} : MonoSample C P3 → List C
  | .chessboard corners => corners
  | .marker points _ => points

/-- Modelled from the spec: the 3D points of a mono sample.  `addMarkerData` is handed
them.  `addChessboardData` is not under `src/`; by the specification it pairs the
detected corners with the geometry's 3D grid point at the same index, which is the grid
of `calcBoardCornerPositions` for the board. -/
def MonoSample.points3D {C F : Type} [FloatOps F] (boardSize : Size) (squareSize : F) :
    MonoSample C (Point3f F) → List (Point3f F)
  | .chessboard _ => calcBoardCornerPositions boardSize squareSize [] .CHESSBOARD
  | .marker _ objectPoints => objectPoints

/-- The 2D points of the left side of a stereo sample. -/
def StereoSample.points2DL {P2 P3 : Type} : StereoSample P2 P3 → List P2
  | .chessboard cornersL _ => cornersL
  | .corners pointsL _ _ => pointsL

/-- The 2D points of the right side of a stereo sample. -/
def StereoSample.points2DR {P2 P3 : Type} : StereoSample P2 P3 → List P2
  | .chessboard _ cornersR => cornersR
  | .corners _ pointsR _ => pointsR

/-- Modelled from the spec: the 3D points of a stereo sample, shared by its two sides.
`addCornersData` is handed them.  `addChessboardData` is not under `src/`; by the
specification it pairs the detected corners with the geometry's 3D grid point at the
same index, which is the grid of `calcBoardCornerPositions` for the board. -/
def StereoSample.points3D {P2 F : Type} [FloatOps F] (boardSize : Size) (squareSize : F) :
    StereoSample P2 (Point3f F) → List (Point3f F)
  | .chessboard _ _ => calcBoardCornerPositions boardSize squareSize [] .CHESSBOARD
  | .corners _ _ objectPoints => objectPoints

/-! ## A concrete detector for evaluating the programs -/

/-- A detector with scripted answers, over exact integer arithmetic.  An image is
the name of its file; a file whose name starts with `right` is a right image.  Grid
detection succeeds exactly on the files listed in `found`.  Every image shows one raw
marker with ID `0` and corners `marker`, and interpolation yields the board-corner IDs
`idsL` on a left image and `idsR` on a right one, the corner of ID `k` being seen at
`10 * k` on the left and at `10 * k + 1` on the right.  A ChArUco board of `sx x sy`
squares has the `(sx - 1) * (sy - 1)` inner corners of its squares as table, and a read
outside a table ends in a memory fault. -/
def scriptedVisionOf {C : Type} (marker : C) (found : List CppString) (idsL idsR : List Int) :
    Vision CppString Int C Int where
  imread := fun path => pathFilename path
  findCorners := fun _ image _ => (found.contains image, [])
  findCirclesGrid := fun image _ _ => (found.contains image, [])
  CharucoBoard_create := fun sx sy squareLength _ _ =>
    ⟨calcBoardCornerPositions ⟨sx - 1, sy - 1⟩ squareLength [] .CHESSBOARD⟩
  detectMarkers := fun _ _ => ⟨[marker], [0], []⟩
  refineDetectedMarkers := fun _ _ markers => markers
  interpolateCornersCharuco := fun _ _ image _ =>
    if image.take 5 == "right".toList then (idsR.map (fun k => 10 * k + 1), idsR)
    else (idsL.map (fun k => 10 * k), idsL)
  oob := fun _ => none

/-- The scripted detector of the stereo program, where the corners of one marker are a
vector of points. -/
def scriptedVision (found : List CppString) (idsL idsR : List Int) :
    Vision CppString Int (List Int) Int :=
  scriptedVisionOf [0] found idsL idsR

/-- The scripted detector of the mono program, where the marker corner vector holds points. -/
def scriptedMonoVision (found : List CppString) (ids : List Int) :
    Vision CppString Int Int Int :=
  scriptedVisionOf 0 found ids ids

/-- The state at the start of the stereo frame loop for one image pair. -/
def stereoStart : StereoState Int (Point3f Int) :=
  { frames := 0, dataset := [], chessboardFoundL := [false], chessboardFoundR := [false] }

/-- The corner table of a ChArUco board with three inner corners in one row, one unit
apart. -/
def board3 : CharucoBoard Int :=
  ⟨[⟨0, 0, 0⟩, ⟨1, 0, 0⟩, ⟨2, 0, 0⟩]⟩

/-- A file system whose input directory exists and holds regular files with the given
names, enumerated in the given order; every parameter file can be opened. -/
def listedFs (names : List CppString) : FileSystem where
  fsExists := fun _ => true
  is_directory := fun _ => true
  directory_iterator := fun _ => .ok (names.map (fun n => ⟨n, true⟩))
  fileStorageIsOpened := fun _ => true

/-- A command line of `stereo_calib` over exact integer arithmetic: images `*.png` in the
directory `images`, prefixes `left` and `right`, camera model `mei`. -/
def stereoOptions (pattern : CppString) (boardSize : Size) (verbose : Bool) :
    StereoOptions Int :=
  { help := false, boardSize := boardSize, squareSize := 120, markerSize := 60
    dictionaryId := 0, inputDir := "images".toList, outputDir := ".".toList
    prefixL := "left".toList, prefixR := "right".toList, pattern := pattern
    arucoParams := "detector.yml".toList, fileExtension := ".png".toList
    cameraModel := "mei".toList, cameraNameL := "camera_left".toList
    cameraNameR := "camera_right".toList, useOpenCV := false, viewResults := false
    verbose := verbose }

/-- A command line of `intrinsic_calib` over exact integer arithmetic: images `*.png` in
the directory `calibrationdata`, prefix `left-`, camera model `mei`. -/
def monoOptions (pattern : CppString) (boardSize : Size) : MonoOptions Int :=
  { help := false, boardSize := boardSize, squareSize := 7, markerSize := 3
    dictionaryId := 0, inputDir := "calibrationdata".toList, prefix_ := "left-".toList
    pattern := pattern, arucoParams := "detector.yml".toList
    fileExtension := ".png".toList, cameraModel := "mei".toList
    cameraName := "camera".toList, useOpenCV := true, arucoRefine := true
    viewResults := false, verbose := true }

/-- The file names `pre ++ k ++ ".png"` for `k` in `tags`. -/
def numbered (pre : String) (tags : List String) : List CppString :=
  tags.map (fun k => (pre ++ k ++ ".png").toList)

/-- A detector that finds nothing, for runs that end before any detection. -/
def idleVision : Vision CppString Int (List Int) Int :=
  scriptedVision [] [] []

/-- The directory of the pairing example that succeeds: `left_a.png`, `left_b.png`,
`right_a.png`, `right_b.png`, enumerated in mixed order. -/
def pairedFs : FileSystem :=
  listedFs (numbered "" ["right_b", "left_b", "right_a", "left_a"])

/-- The directory of the pairing example that fails: `left_a.png`, `left_b.png`,
`right_a.png`, `right_c.png`. -/
def mispairedFs : FileSystem :=
  listedFs (numbered "" ["right_c", "left_b", "right_a", "left_a"])

/-- Ten tags, for directories with ten images per camera. -/
def tenTags : List String :=
  ["0", "1", "2", "3", "4", "5", "6", "7", "8", "9"]

/-- Nine tags, for directories with nine images per camera. -/
def nineTags : List String :=
  ["1", "2", "3", "4", "5", "6", "7", "8", "9"]

/-- A file system like `listedFs names` in which no detector-parameter file can be
opened. -/
def unreadableParamsFs (names : List CppString) : FileSystem :=
  { listedFs names with fileStorageIsOpened := fun _ => false }

/-- The state at the start of the mono frame loop for one image. -/
def monoStart : MonoState Int (Point3f Int) :=
  { frames := 0, dataset := [], chessboardFound := [false] }

/-- Twelve tags, for a directory with twelve images. -/
def twelveTags : List String :=
  tenTags ++ ["10", "11"]

/-- Eleven of the twelve tags: all but the last. -/
def elevenTags : List String :=
  tenTags ++ ["10"]

/-- A mono ChArUco run with the result viewer switched on, over ten images that each show
one raw marker, on a board of 3 x 3 squares. -/
def monoCharucoRun : MonoOutcome Int (Point3f Int) :=
  intrinsic_calib_main (scriptedMonoVision [] []) (listedFs (numbered "left-" tenTags))
    { monoOptions "charuco".toList ⟨3, 3⟩ with viewResults := true }

/-- A scripted detector that finds no raw marker in any image, while its interpolation,
were it called, would yield the board-corner IDs `idsL` and `idsR`. -/
def markerlessVision (idsL idsR : List Int) : Vision CppString Int (List Int) Int :=
  { scriptedVision [] idsL idsR with detectMarkers := fun _ _ => ⟨[], [], []⟩ }

/-! ## Lemmas on loops that fill a vector -/

theorem foldl_push_eq_map {α β : Type} (f : β → α) (l : List β) (s : List α) :
    l.foldl (fun acc k => acc ++ [f k]) s = s ++ l.map f := by
  induction l generalizing s with
  | nil => simp
  | cons a l ih => simp [ih]

theorem foldl_append_eq_flatMap {α β : Type} (g : β → List α) (l : List β) (s : List α) :
    l.foldl (fun acc k => acc ++ g k) s = s ++ l.flatMap g := by
  induction l generalizing s with
  | nil => simp
  | cons a l ih => simp [ih]

theorem forLoop_push {α : Type} (n : Int) (f : Int → α) (s : List α) :
    forLoop n (fun k acc => acc ++ [f k]) s
      = s ++ (List.range n.toNat).map (fun k : Nat => f (k : Int)) := by
  unfold forLoop
  exact foldl_push_eq_map (fun k : Nat => f (k : Int)) _ s

/-- Two nested counted loops that push one element per inner iteration fill the
vector block by block. -/
theorem forLoop_nested_push {α : Type} (h w : Int) (p : Int → Int → α) (s : List α) :
    forLoop h (fun i acc => forLoop w (fun j acc => acc ++ [p i j]) acc) s
      = s ++ (List.range h.toNat).flatMap
          (fun i : Nat => (List.range w.toNat).map (fun j : Nat => p (i : Int) (j : Int))) := by
  have hin : (fun (i : Int) (acc : List α) => forLoop w (fun j acc => acc ++ [p i j]) acc)
      = fun i acc => acc ++ (List.range w.toNat).map (fun j : Nat => p i (j : Int)) := by
    funext i acc
    exact forLoop_push w (p i) acc
  rw [hin]
  unfold forLoop
  exact foldl_append_eq_flatMap
    (fun i : Nat => (List.range w.toNat).map (fun j : Nat => p (i : Int) (j : Int))) _ s

theorem length_rows {α : Type} (h w : Nat) (q : Nat → Nat → α) :
    ((List.range h).flatMap (fun i => (List.range w).map (q i))).length = h * w := by
  induction h with
  | zero => simp
  | succ n ih =>
    rw [List.range_succ, List.flatMap_append, List.length_append, ih]
    simp [Nat.succ_mul]

/-- Row-major indexing into a vector filled row by row. -/
theorem getElem?_rows {α : Type} (h w : Nat) (q : Nat → Nat → α) (r c : Nat)
    (hr : r < h) (hc : c < w) :
    ((List.range h).flatMap (fun i => (List.range w).map (q i)))[r * w + c]? = some (q r c) := by
  induction h with
  | zero => omega
  | succ n ih =>
    rw [List.range_succ, List.flatMap_append]
    by_cases hrn : r < n
    · have hlt : r * w + c < n * w := by
        calc r * w + c < r * w + w := by omega
          _ = (r + 1) * w := by ring
          _ ≤ n * w := Nat.mul_le_mul_right w hrn
      rw [List.getElem?_append_left (by rw [length_rows]; exact hlt)]
      exact ih hrn
    · have hrn2 : r = n := by omega
      subst hrn2
      rw [List.getElem?_append_right (by rw [length_rows]; omega), length_rows]
      simp [hc]

theorem vecAt_of_lt {α : Type} (oob : Int → Option α) (v : List α) (i : Nat)
    (hi : i < v.length) : vecAt oob v (i : Int) = .ok v[i] := by
  simp [vecAt, hi]

/-- The only way an unchecked read ends abnormally is the memory fault. -/
theorem vecAt_error {α : Type} (oob : Int → Option α) (v : List α) (i : Int) (e : Exn)
    (h : vecAt oob v i = .error e) : e = .memory_fault := by
  unfold vecAt at h
  split at h
  · cases h
  · split at h
    · cases h
    · cases h; rfl

theorem foldlM_congr_mem {σ β ε : Type} (f g : σ → β → Except ε σ) (l : List β)
    (h : ∀ b ∈ l, ∀ s, f s b = g s b) (s : σ) : l.foldlM f s = l.foldlM g s := by
  induction l generalizing s with
  | nil => rfl
  | cons a l ih =>
    simp only [List.foldlM_cons]
    rw [h a (List.mem_cons_self a l) s]
    congr 1
    funext s'
    exact ih (fun b hb => h b (List.mem_cons_of_mem a hb)) s'

theorem range_map_getD (l : List Int) :
    (List.range l.length).map (fun k => l.getD k 0) = l := by
  apply List.ext_getElem
  · simp
  · intro n h1 h2
    simp [h2]

/-- A loop that pushes the result of a read that can fault: it yields all the values
read, in order, when every read is defined, and the fault otherwise. -/
theorem foldlM_push_cases {α β : Type} (f : β → Except Exn α)
    (hf : ∀ b e, f b = .error e → e = .memory_fault) (l : List β) (s : List α) :
    l.foldlM (fun acc b => do let p ← f b; pure (acc ++ [p])) s
      = if l.all (fun b => (f b).toOption.isSome) then
          .ok (s ++ l.filterMap (fun b => (f b).toOption))
        else .error .memory_fault := by
  induction l generalizing s with
  | nil => simp [pure, Except.pure]
  | cons a l ih =>
    rw [List.foldlM_cons]
    cases hfa : f a with
    | error e =>
      have := hf a e hfa
      subst this
      simp [bind, Except.bind, hfa, Except.toOption]
    | ok p =>
      have h1 : (do let p ← (Except.ok p : Except Exn α); pure (s ++ [p]) : Except Exn (List α))
          = pure (s ++ [p]) := rfl
      rw [h1, pure_bind, ih (s ++ [p])]
      simp [hfa, Except.toOption]

/-- The lookup loop in closed form: one table read per ID, in the order of the IDs, when
every read is defined; the memory fault otherwise. -/
theorem calcArucoCornerPositions_eq {P : Type} (oob : Int → Option P)
    (chessboardCorners : List P) (corners_id : List Int) (objectPoints : List P) :
    calcArucoCornerPositions oob chessboardCorners corners_id objectPoints
      = if corners_id.all (fun id => (vecAt oob chessboardCorners id).toOption.isSome) then
          .ok (corners_id.filterMap (fun id => (vecAt oob chessboardCorners id).toOption))
        else .error .memory_fault := by
  unfold calcArucoCornerPositions forLoopM
  simp only [clear, Int.toNat_ofNat]
  rw [foldlM_congr_mem _ (fun acc (k : Nat) => do
        let p ← vecAt oob chessboardCorners (corners_id.getD k 0)
        pure (acc ++ [p]))]
  · have := List.foldlM_map (m := Except Exn) (fun k => corners_id.getD k 0)
      (fun acc id => do
        let p ← vecAt oob chessboardCorners id
        pure (acc ++ [p])) (List.range corners_id.length) ([] : List P)
    rw [← this, range_map_getD, foldlM_push_cases _ (vecAt_error oob chessboardCorners)]
    simp
  · intro k hk s
    have hk' : k < corners_id.length := List.mem_range.mp hk
    rw [vecAt_of_lt _ _ k hk']
    simp [bind, Except.bind, List.getD_eq_getElem?_getD, hk']

theorem length_filterMap_eq_countP {α β : Type} (f : α → Option β) (l : List α) :
    (l.filterMap f).length = l.countP (fun x => (f x).isSome) := by
  induction l with
  | nil => rfl
  | cons a l ih =>
    cases h : f a <;> simp [List.filterMap_cons, List.countP_cons, h, ih]

/-- Where `f` is defined on every element, `filterMap f` keeps the positions. -/
theorem getElem?_filterMap_of_all_some {α β : Type} (f : α → Option β) (l : List α)
    (h : ∀ x ∈ l, (f x).isSome) (i : Nat) (hi : i < l.length) :
    (l.filterMap f)[i]? = f l[i] := by
  induction l generalizing i with
  | nil => simp at hi
  | cons a l ih =>
    obtain ⟨b, hb⟩ := Option.isSome_iff_exists.mp (h a (List.mem_cons_self a l))
    rw [List.filterMap_cons_some hb]
    cases i with
    | zero => simp [hb]
    | succ i =>
      simp only [List.getElem?_cons_succ, List.getElem_cons_succ]
      exact ih (fun x hx => h x (List.mem_cons_of_mem a hx)) i (by simpa using hi)

/-- A read at an ID that has a table entry yields the entry. -/
theorem vecAt_of_mem_range {α : Type} (oob : Int → Option α) (v : List α) (id : Int)
    (h0 : 0 ≤ id) (h1 : id < v.length) :
    ∃ p, v[id.toNat]? = some p ∧ vecAt oob v id = .ok p := by
  have hlt : id.toNat < v.length := by omega
  exact ⟨v[id.toNat], List.getElem?_eq_getElem hlt, by simp [vecAt, h0, hlt]⟩

/-- With every ID inside the table the lookup is defined and yields the table entries of
the IDs, in their order. -/
theorem calcArucoCornerPositions_of_valid {P : Type} (oob : Int → Option P)
    (chessboardCorners : List P) (corners_id : List Int) (objectPoints : List P)
    (hids : ∀ id ∈ corners_id, 0 ≤ id ∧ id < chessboardCorners.length) :
    calcArucoCornerPositions oob chessboardCorners corners_id objectPoints
      = .ok (corners_id.filterMap (fun id => chessboardCorners[id.toNat]?)) ∧
    (corners_id.filterMap (fun id => chessboardCorners[id.toNat]?)).length
      = corners_id.length := by
  have hread : ∀ id ∈ corners_id,
      (vecAt oob chessboardCorners id).toOption = chessboardCorners[id.toNat]? ∧
        (chessboardCorners[id.toNat]?).isSome := by
    intro id hid
    obtain ⟨p, hp, hv⟩ := vecAt_of_mem_range oob chessboardCorners id (hids id hid).1 (hids id hid).2
    rw [hv, hp]
    exact ⟨rfl, rfl⟩
  have hall : corners_id.all (fun id => (vecAt oob chessboardCorners id).toOption.isSome)
      = true := by
    rw [List.all_eq_true]
    intro id hid
    rw [(hread id hid).1]
    exact (hread id hid).2
  constructor
  · rw [calcArucoCornerPositions_eq, if_pos hall]
    congr 1
    apply List.filterMap_congr
    intro id hid
    exact (hread id hid).1
  · rw [length_filterMap_eq_countP, List.countP_eq_length.mpr]
    intro id hid
    exact (hread id hid).2

/-! ## Lemmas on strings, sorting and loops that may throw -/

theorem strCompare_eq_zero_iff (a b : CppString) : strCompare a b = 0 ↔ a = b := by
  unfold strCompare
  rcases lt_trichotomy a b with h | h | h
  · simp [h, h.ne]
  · subst h
    simp
  · have hn : ¬ a < b := not_lt.mpr h.le
    simp [hn, h, h.ne']

theorem append_lt_append_left (c a b : CppString) : c ++ a < c ++ b ↔ a < b := by
  induction c with
  | nil => simp
  | cons x c ih =>
    rw [List.cons_append, List.cons_append]
    exact (List.Lex.cons_iff).trans ih

theorem append_le_append_left (c a b : CppString) : c ++ a ≤ c ++ b ↔ a ≤ b := by
  rw [← not_lt, ← not_lt, append_lt_append_left]

theorem pathFilename_append (dir name : CppString) (h : '/' ∉ name) :
    pathFilename (dir ++ '/' :: name) = name := by
  unfold pathFilename
  have hrev : (dir ++ '/' :: name).reverse = name.reverse ++ '/' :: dir.reverse := by simp
  rw [hrev, List.takeWhile_append_of_pos]
  · simp [List.takeWhile]
  · intro a ha
    have : a ≠ '/' := by
      rintro rfl
      exact h (List.mem_reverse.mp ha)
    simpa using this

theorem stdSort_perm (l : List CppString) : (stdSort l).Perm l :=
  List.perm_insertionSort _ l

theorem stdSort_sorted (l : List CppString) : (stdSort l).Sorted (fun a b => a ≤ b) :=
  List.sorted_insertionSort _ l

theorem stdSort_length (l : List CppString) : (stdSort l).length = l.length :=
  (stdSort_perm l).length_eq

theorem stdSort_eq_of_perm {l₁ l₂ : List CppString} (h : l₁.Perm l₂) :
    stdSort l₁ = stdSort l₂ :=
  List.eq_of_perm_of_sorted (((stdSort_perm l₁).trans h).trans (stdSort_perm l₂).symm)
    (stdSort_sorted l₁) (stdSort_sorted l₂)

theorem stdSort_eq_self {l : List CppString} (h : l.Sorted (fun a b => a ≤ b)) :
    stdSort l = l :=
  List.Sorted.insertionSort_eq h

/-- Sorting strings that share a leading part sorts what follows it. -/
theorem stdSort_map_append (c : CppString) (l : List CppString) :
    stdSort (l.map (fun s => c ++ s)) = (stdSort l).map (fun s => c ++ s) := by
  have hsorted : ((stdSort l).map (fun s => c ++ s)).Sorted (fun a b => a ≤ b) :=
    List.Pairwise.map _ (fun a b hab => (append_le_append_left c a b).mpr hab)
      (stdSort_sorted l)
  rw [← stdSort_eq_self hsorted]
  exact stdSort_eq_of_perm ((stdSort_perm l).map _).symm

theorem substr_drop (s : CppString) (n : Nat) (h : n ≤ s.length) :
    substr s n (sizeSub s.length n) = .ok (s.drop n) := by
  unfold substr sizeSub
  rw [if_neg (by omega), if_pos h]
  congr 1
  apply List.take_of_length_le
  simp

theorem foldlM_ok_of_steps {σ β ε : Type} (f : σ → β → Except ε σ) (g : σ → β → σ)
    (l : List β) (h : ∀ i ∈ l, ∀ acc, f acc i = .ok (g acc i)) (init : σ) :
    l.foldlM f init = .ok (l.foldl g init) := by
  induction l generalizing init with
  | nil => rfl
  | cons a l ih =>
    rw [List.foldlM_cons, h a (List.mem_cons_self a l) init]
    exact ih (fun i hi acc => h i (List.mem_cons_of_mem a hi) acc) (g init a)

theorem foldlM_ok_invariant {σ β ε : Type} (f : σ → β → Except ε σ) (Inv : σ → Prop)
    (l : List β) (hstep : ∀ acc e acc', e ∈ l → Inv acc → f acc e = .ok acc' → Inv acc')
    (init res : σ) (hinit : Inv init) (hres : l.foldlM f init = .ok res) : Inv res := by
  induction l generalizing init with
  | nil =>
    cases hres
    exact hinit
  | cons a l ih =>
    rw [List.foldlM_cons] at hres
    cases hfa : f init a with
    | error e =>
      rw [hfa] at hres
      cases hres
    | ok x =>
      rw [hfa] at hres
      exact ih (fun acc e acc' he => hstep acc e acc' (List.mem_cons_of_mem a he)) x
        (hstep init a x (List.mem_cons_self a l) hinit hfa) hres

theorem foldl_and_eq_all {β : Type} (q : β → Bool) (l : List β) (b : Bool) :
    l.foldl (fun acc i => if q i then acc else false) b = (b && l.all q) := by
  induction l generalizing b with
  | nil => simp
  | cons a l ih =>
    simp only [List.foldl_cons, List.all_cons, ih]
    cases b <;> cases q a <;> simp

theorem matchStep_eq (prefixL prefixR : CppString) (L R : List CppString) (acc : Bool)
    (i : Nat) (a b : CppString) (hi : L[i]? = some a) (hj : R[i]? = some b)
    (ha : prefixL.length ≤ (pathFilename a).length)
    (hb : prefixR.length ≤ (pathFilename b).length) :
    matchStep prefixL prefixR L R acc i
      = .ok (if strippedName prefixL.length a = strippedName prefixR.length b
          then acc else false) := by
  simp only [matchStep, vecAtChecked, compareSub, hi, hj, substr_drop _ _ ha,
    substr_drop _ _ hb, bind, Except.bind, pure, Except.pure, strippedName, ne_eq,
    strCompare_eq_zero_iff]
  by_cases h : List.drop prefixL.length (pathFilename a)
      = List.drop prefixR.length (pathFilename b) <;> simp [h]

/-- The matching loop never throws on names that are at least as long as the prefix of
their side, and its result says whether all stripped names agree index by index. -/
theorem matchFilenames_eq (prefixL prefixR : CppString) (L R : List CppString)
    (hlen : L.length = R.length)
    (hL : ∀ p ∈ L, prefixL.length ≤ (pathFilename p).length)
    (hR : ∀ p ∈ R, prefixR.length ≤ (pathFilename p).length) :
    matchFilenames prefixL prefixR L R
      = .ok ((List.range L.length).all (fun i =>
          decide ((L[i]?).map (strippedName prefixL.length)
            = (R[i]?).map (strippedName prefixR.length)))) := by
  unfold matchFilenames
  rw [foldlM_ok_of_steps _ (fun acc i =>
    if decide ((L[i]?).map (strippedName prefixL.length)
        = (R[i]?).map (strippedName prefixR.length)) then acc else false)]
  · rw [foldl_and_eq_all]
    simp
  · intro i hi acc
    have hiL : i < L.length := List.mem_range.mp hi
    have hiR : i < R.length := hlen ▸ hiL
    rw [matchStep_eq prefixL prefixR L R acc i L[i] R[i] (List.getElem?_eq_getElem hiL)
      (List.getElem?_eq_getElem hiR) (hL _ (List.getElem_mem hiL))
      (hR _ (List.getElem_mem hiR))]
    simp [List.getElem?_eq_getElem hiL, List.getElem?_eq_getElem hiR]

theorem matchFilenames_ok_true_iff (prefixL prefixR : CppString) (L R : List CppString)
    (hlen : L.length = R.length)
    (hL : ∀ p ∈ L, prefixL.length ≤ (pathFilename p).length)
    (hR : ∀ p ∈ R, prefixR.length ≤ (pathFilename p).length) :
    matchFilenames prefixL prefixR L R = .ok true ↔
      ∀ i, i < L.length → (L[i]?).map (strippedName prefixL.length)
        = (R[i]?).map (strippedName prefixR.length) := by
  rw [matchFilenames_eq prefixL prefixR L R hlen hL hR]
  simp [List.all_eq_true]

theorem matchFilenames_ok_false_of_not (prefixL prefixR : CppString) (L R : List CppString)
    (hlen : L.length = R.length)
    (hL : ∀ p ∈ L, prefixL.length ≤ (pathFilename p).length)
    (hR : ∀ p ∈ R, prefixR.length ≤ (pathFilename p).length)
    (hne : ¬ ∀ i, i < L.length → (L[i]?).map (strippedName prefixL.length)
        = (R[i]?).map (strippedName prefixR.length)) :
    matchFilenames prefixL prefixR L R = .ok false := by
  have h := matchFilenames_eq prefixL prefixR L R hlen hL hR
  rw [h]
  congr 1
  rw [Bool.eq_false_iff]
  intro hall
  apply hne
  simpa [List.all_eq_true] using hall

theorem compareAt_zero (filename pre : CppString) :
    compareAt filename 0 pre.length pre = .ok (strCompare (filename.take pre.length) pre) := by
  simp [compareAt, substr, bind, Except.bind, pure, Except.pure]

theorem prefix_of_take_eq (filename pre : CppString)
    (h : strCompare (filename.take pre.length) pre = 0) : pre <+: filename := by
  rw [strCompare_eq_zero_iff] at h
  exact List.prefix_iff_eq_take.mpr h.symm

/-- What one round of the stereo directory loop does to each candidate list: it leaves
the list alone or appends the path of the entry, the latter only when the entry's name
starts with the prefix of that side. -/
theorem stereoEnumStep_ok (inputDir fileExtension prefixL prefixR : CppString)
    (acc acc' : List CppString × List CppString) (e : DirEntry)
    (h : stereoEnumStep inputDir fileExtension prefixL prefixR acc e = .ok acc') :
    (acc'.1 = acc.1 ∨ (acc'.1 = acc.1 ++ [entryPath inputDir e.filename] ∧ prefixL <+: e.filename)) ∧
    (acc'.2 = acc.2 ∨ (acc'.2 = acc.2 ++ [entryPath inputDir e.filename] ∧ prefixR <+: e.filename)) := by
  unfold stereoEnumStep at h
  by_cases hreg : e.is_regular_file = true
  · simp only [hreg, Bool.not_true, Bool.false_eq_true, ↓reduceIte, bind, Except.bind] at h
    cases hc : compareAt e.filename (sizeSub e.filename.length fileExtension.length)
        fileExtension.length fileExtension with
    | error x =>
      rw [hc] at h
      cases h
    | ok c =>
      rw [hc] at h
      by_cases hc0 : c = 0
      · simp only [hc0, ne_eq, not_true_eq_false, ↓reduceIte, compareAt_zero, pure,
          Except.pure] at h
        by_cases hpe : prefixL.isEmpty = true <;>
        by_cases hpr : prefixR.isEmpty = true <;>
        by_cases hcl : strCompare (List.take prefixL.length e.filename) prefixL = 0 <;>
        by_cases hcr : strCompare (List.take prefixR.length e.filename) prefixR = 0 <;>
        simp only [hpe, hpr, hcl, hcr, ↓reduceIte, Except.ok.injEq, Bool.false_eq_true] at h <;>
        subst h <;>
        refine ⟨?_, ?_⟩ <;>
        first
          | exact Or.inl rfl
          | exact Or.inr ⟨rfl, prefix_of_take_eq _ _ hcl⟩
          | exact Or.inr ⟨rfl, prefix_of_take_eq _ _ hcr⟩
          | exact Or.inr ⟨rfl, by rw [List.isEmpty_iff.mp hpe]; exact List.nil_prefix⟩
          | exact Or.inr ⟨rfl, by rw [List.isEmpty_iff.mp hpr]; exact List.nil_prefix⟩
      · simp only [hc0, ne_eq, not_false_eq_true, ↓reduceIte, pure, Except.pure] at h
        cases h
        exact ⟨Or.inl rfl, Or.inl rfl⟩
  · simp only [hreg, Bool.not_false, ↓reduceIte, pure, Except.pure, Bool.not_eq_true] at h
    simp at hreg
    simp [hreg, pure, Except.pure] at h
    cases h
    exact ⟨Or.inl rfl, Or.inl rfl⟩

/-- Every path the stereo directory loop puts on a candidate list is the path of a
directory entry whose name starts with the prefix of that side. -/
theorem stereoEnumerate_candidates (inputDir fileExtension prefixL prefixR : CppString)
    (entries : List DirEntry) (L R : List CppString)
    (h : stereoEnumerate inputDir fileExtension prefixL prefixR entries = .ok (L, R)) :
    (∀ p ∈ L, ∃ e ∈ entries, p = entryPath inputDir e.filename ∧ prefixL <+: e.filename) ∧
    (∀ p ∈ R, ∃ e ∈ entries, p = entryPath inputDir e.filename ∧ prefixR <+: e.filename) := by
  refine foldlM_ok_invariant (stereoEnumStep inputDir fileExtension prefixL prefixR)
    (fun acc =>
      (∀ p ∈ acc.1, ∃ e ∈ entries, p = entryPath inputDir e.filename ∧ prefixL <+: e.filename) ∧
      (∀ p ∈ acc.2, ∃ e ∈ entries, p = entryPath inputDir e.filename ∧ prefixR <+: e.filename))
    entries ?_ ([], []) (L, R) (by simp) h
  intro acc e acc' he hinv hstep
  obtain ⟨h1, h2⟩ := stereoEnumStep_ok _ _ _ _ _ _ _ hstep
  constructor
  · rcases h1 with h1 | ⟨h1, hp⟩
    · rw [h1]
      exact hinv.1
    · rw [h1]
      intro p hp'
      rcases List.mem_append.mp hp' with hp' | hp'
      · exact hinv.1 p hp'
      · exact ⟨e, he, List.mem_singleton.mp hp', hp⟩
  · rcases h2 with h2 | ⟨h2, hp⟩
    · rw [h2]
      exact hinv.2
    · rw [h2]
      intro p hp'
      rcases List.mem_append.mp hp' with hp' | hp'
      · exact hinv.2 p hp'
      · exact ⟨e, he, List.mem_singleton.mp hp', hp⟩

theorem pathFilename_entryPath (inputDir filename : CppString) (h : '/' ∉ filename) :
    pathFilename (entryPath inputDir filename) = filename :=
  pathFilename_append inputDir filename h

/-- The first half of `stereoImages`, once the candidate lists are known to be non-empty
and of equal length: all that is left is the matching loop on the sorted lists. -/
theorem stereoImages_eq_match {F : Type} (fs : FileSystem) (opts : StereoOptions F)
    (entries : List DirEntry) (L R : List CppString)
    (hdir : fs.directory_iterator opts.inputDir = .ok entries)
    (henum : stereoEnumerate opts.inputDir opts.fileExtension opts.prefixL opts.prefixR entries
      = .ok (L, R))
    (hne : L ≠ []) (hlen : L.length = R.length) :
    stereoImages fs opts =
      match matchFilenames opts.prefixL opts.prefixR (stdSort L) (stdSort R) with
      | .error e => .error (.uncaught e)
      | .ok matchImages =>
        if !matchImages then .error (.returned 1) else .ok (stdSort L, stdSort R) := by
  have hneR : R ≠ [] := by
    intro hR
    rw [hR] at hlen
    exact hne (List.length_eq_zero.mp hlen)
  unfold stereoImages
  simp only [hdir, henum]
  rw [if_neg (by simp [hne, hneR]), if_neg (by simp [hlen])]

/-- The fail-fast tests of `stereoImages`: an empty candidate list or two lists of
different lengths end the run with `return 1`. -/
theorem stereoImages_fail_fast {F : Type} (fs : FileSystem) (opts : StereoOptions F)
    (entries : List DirEntry) (L R : List CppString)
    (hdir : fs.directory_iterator opts.inputDir = .ok entries)
    (henum : stereoEnumerate opts.inputDir opts.fileExtension opts.prefixL opts.prefixR entries
      = .ok (L, R))
    (hbad : L = [] ∨ R = [] ∨ L.length ≠ R.length) :
    stereoImages fs opts = .error (.returned 1) := by
  unfold stereoImages
  simp only [hdir, henum]
  by_cases hempty : (L.isEmpty || R.isEmpty) = true
  · rw [if_pos hempty]
  · rw [if_neg hempty]
    have hlen : L.length ≠ R.length := by
      rcases hbad with h | h | h
      · simp [h] at hempty
      · simp [h] at hempty
      · exact h
    rw [if_pos hlen]

/-! ## Board geometry: theorems -/

/-- Inside the range of `int` the 32-bit result is the exact result. -/
theorem toInt32_of_range (x : Int) (h0 : -2 ^ 31 ≤ x) (h1 : x < 2 ^ 31) : toInt32 x = x := by
  unfold toInt32
  rw [Int.emod_eq_of_lt (by omega) (by omega)]
  omega

/-- The count of a board that fits in `int` survives the `int` product and the conversion
to `size_t`. -/
theorem toSizeT_toInt32_of_lt (n : Nat) (h : n < 2 ^ 31) : toSizeT (toInt32 (n : Int)) = n := by
  rw [toInt32_of_range _ (by omega) (by exact_mod_cast h)]
  unfold toSizeT
  rw [Int.emod_eq_of_lt (Int.ofNat_nonneg n) (by omega), Int.toNat_ofNat]

/-- The asymmetric grid as the code fills it, at the row-major index of row `r` and column
`c`: the column factor is the 32-bit result of `2 * c + r % 2`. -/
theorem calcBoardCornerPositions_asymmetric_getElem? {F : Type} [FloatOps F]
    (w h r c : Nat) (hr : r < h) (hc : c < w) (squareSize : F) (corners : List (Point3f F)) :
    (calcBoardCornerPositions ⟨(w : Int), (h : Int)⟩ squareSize corners
        .ASYMMETRIC_CIRCLES_GRID)[r * w + c]?
      = some ⟨FloatOps.mul (FloatOps.ofInt (toInt32 (toInt32 (2 * (c : Int)) + (r : Int) % 2)))
                squareSize,
              FloatOps.mul (FloatOps.ofInt (r : Int)) squareSize, FloatOps.ofInt 0⟩ := by
  have key : calcBoardCornerPositions ⟨(w : Int), (h : Int)⟩ squareSize corners
        .ASYMMETRIC_CIRCLES_GRID
      = (List.range h).flatMap (fun i : Nat => (List.range w).map (fun j : Nat =>
          (⟨FloatOps.mul (FloatOps.ofInt (toInt32 (toInt32 (2 * (j : Int)) + Int.tmod (i : Int) 2)))
              squareSize,
            FloatOps.mul (FloatOps.ofInt (i : Int)) squareSize, FloatOps.ofInt 0⟩
            : Point3f F))) := by
    simp only [calcBoardCornerPositions, clear, forLoop_nested_push, List.nil_append,
      Int.toNat_ofNat, scale]
  rw [key, getElem?_rows h w _ r c hr hc]
  have hmod : Int.tmod (r : Int) 2 = (r : Int) % 2 :=
    Int.tmod_eq_emod (Int.ofNat_nonneg r) (by decide)
  rw [hmod]

/-- The chessboard and circle grids as the code fills them, at the row-major index of row
`r` and column `c`. -/
theorem calcBoardCornerPositions_grid_getElem? {F : Type} [FloatOps F]
    (patternType : PatternType)
    (hp : patternType = .CHESSBOARD ∨ patternType = .CIRCLES_GRID)
    (w h r c : Nat) (hr : r < h) (hc : c < w) (squareSize : F) (corners : List (Point3f F)) :
    (calcBoardCornerPositions ⟨(w : Int), (h : Int)⟩ squareSize corners patternType)[r * w + c]?
      = some ⟨FloatOps.mul (FloatOps.ofInt (c : Int)) squareSize,
              FloatOps.mul (FloatOps.ofInt (r : Int)) squareSize, FloatOps.ofInt 0⟩ := by
  have key : calcBoardCornerPositions ⟨(w : Int), (h : Int)⟩ squareSize corners patternType
      = (List.range h).flatMap (fun i : Nat => (List.range w).map (fun j : Nat =>
          (⟨FloatOps.mul (FloatOps.ofInt (j : Int)) squareSize,
            FloatOps.mul (FloatOps.ofInt (i : Int)) squareSize, FloatOps.ofInt 0⟩
            : Point3f F))) := by
    rcases hp with rfl | rfl <;>
      simp only [calcBoardCornerPositions, clear, forLoop_nested_push, List.nil_append,
        Int.toNat_ofNat, scale]
  rw [key]
  exact getElem?_rows h w _ r c hr hc

/-- C1. For pattern type Chessboard or CircleGrid, every board size `w x h` and every
`squareSize`, `calcBoardCornerPositions` produces a sequence whose element at the
row-major index `r*w + c`, for every `0 ≤ r < h` and `0 ≤ c < w`, is exactly
`(c*squareSize, r*squareSize, 0)`, whatever the output vector held before: the products
are the float products of the column and the row, converted to float, with `squareSize`. -/
theorem calcBoardCornerPositions_grid_index {F : Type} [FloatOps F]
    (patternType : PatternType)
    (hp : patternType = .CHESSBOARD ∨ patternType = .CIRCLES_GRID)
    (w h : Int) (hw : 0 ≤ w) (hh : 0 ≤ h) (squareSize : F) (corners : List (Point3f F))
    (r c : Int) (hr0 : 0 ≤ r) (hr : r < h) (hc0 : 0 ≤ c) (hc : c < w) :
    (calcBoardCornerPositions ⟨w, h⟩ squareSize corners patternType)[(r * w + c).toNat]?
      = some ⟨FloatOps.mul (FloatOps.ofInt c) squareSize,
              FloatOps.mul (FloatOps.ofInt r) squareSize, FloatOps.ofInt 0⟩ := by
  obtain ⟨w, rfl⟩ := Int.eq_ofNat_of_zero_le hw
  obtain ⟨h, rfl⟩ := Int.eq_ofNat_of_zero_le hh
  obtain ⟨r, rfl⟩ := Int.eq_ofNat_of_zero_le hr0
  obtain ⟨c, rfl⟩ := Int.eq_ofNat_of_zero_le hc0
  have hidx : ((r : Int) * (w : Int) + (c : Int)).toNat = r * w + c := by
    have : ((r : Int) * (w : Int) + (c : Int)) = ((r * w + c : Nat) : Int) := by push_cast; ring
    rw [this, Int.toNat_ofNat]
  rw [hidx]
  exact calcBoardCornerPositions_grid_getElem? patternType hp w h r c (by exact_mod_cast hr)
    (by exact_mod_cast hc) squareSize corners

/-- Witness for C1: on a 3 x 2 chessboard with square size 5, over exact integer
arithmetic, the point at row 1, column 2 (index 5) is `(10, 5, 0)`; the whole grid is
spelled out next to it. -/
theorem calcBoardCornerPositions_grid_index_witness :
    (calcBoardCornerPositions (F := Int) ⟨3, 2⟩ 5 [⟨9, 9, 9⟩] .CHESSBOARD)[5]?
      = some ⟨10, 5, 0⟩ ∧
    calcBoardCornerPositions (F := Int) ⟨3, 2⟩ 5 [⟨9, 9, 9⟩] .CHESSBOARD
      = [⟨0, 0, 0⟩, ⟨5, 0, 0⟩, ⟨10, 0, 0⟩, ⟨0, 5, 0⟩, ⟨5, 5, 0⟩, ⟨10, 5, 0⟩] :=
  ⟨calcBoardCornerPositions_grid_index .CHESSBOARD (Or.inl rfl) 3 2 (by decide) (by decide) 5
    [⟨9, 9, 9⟩] 1 2 (by decide) (by decide) (by decide) (by decide), by decide⟩

/-- C2 (counterexample). On an asymmetric grid of width `2 ^ 30 + 1` and height 1 with
square size 1, over exact integer arithmetic, the point at row 0 and column `2 ^ 30` has
the first coordinate `-2 ^ 31`, not `(2 * 2 ^ 30 + 0 mod 2) * 1 = 2 ^ 31`: the `int`
expression `2 * j + i % 2` does not hold `2 ^ 31`. -/
theorem calcBoardCornerPositions_asymmetric_overflow :
    (calcBoardCornerPositions (F := Int) ⟨2 ^ 30 + 1, 1⟩ 1 []
        .ASYMMETRIC_CIRCLES_GRID)[0 * (2 ^ 30 + 1) + 2 ^ 30]?
      = some ⟨-2 ^ 31, 0, 0⟩ ∧
    (⟨-2 ^ 31, 0, 0⟩ : Point3f Int) ≠ ⟨(2 * 2 ^ 30 + 0 % 2) * 1, 0 * 1, 0⟩ := by
  refine ⟨?_, by decide⟩
  have h := calcBoardCornerPositions_asymmetric_getElem? (F := Int) (2 ^ 30 + 1) 1 0 (2 ^ 30)
    (by decide) (by decide) 1 []
  have hv : toInt32 (toInt32 (2 * ((2 ^ 30 : Nat) : Int)) + ((0 : Nat) : Int) % 2) = -2 ^ 31 := by
    decide
  rw [hv] at h
  exact h

/-- C2 (amended). For pattern type AsymmetricCircleGrid, every board size `w x h` and every
`squareSize`, the point that `calcBoardCornerPositions` places at the row-major index
`r*w + c`, for every `0 ≤ r < h` and `0 ≤ c < w` whose column factor `2c + r mod 2` is
below `2 ^ 31` (it fits in `int`; so for every index of a board with `w ≤ 2 ^ 30`), equals
`((2c + r mod 2)*squareSize, r*squareSize, 0)`. -/
theorem calcBoardCornerPositions_asymmetric_index {F : Type} [FloatOps F]
    (w h : Int) (hw : 0 ≤ w) (hh : 0 ≤ h) (squareSize : F) (corners : List (Point3f F))
    (r c : Int) (hr0 : 0 ≤ r) (hr : r < h) (hc0 : 0 ≤ c) (hc : c < w)
    (hfit : 2 * c + r % 2 < 2 ^ 31) :
    (calcBoardCornerPositions ⟨w, h⟩ squareSize corners
        .ASYMMETRIC_CIRCLES_GRID)[(r * w + c).toNat]?
      = some ⟨FloatOps.mul (FloatOps.ofInt (2 * c + r % 2)) squareSize,
              FloatOps.mul (FloatOps.ofInt r) squareSize, FloatOps.ofInt 0⟩ := by
  obtain ⟨w, rfl⟩ := Int.eq_ofNat_of_zero_le hw
  obtain ⟨h, rfl⟩ := Int.eq_ofNat_of_zero_le hh
  obtain ⟨r, rfl⟩ := Int.eq_ofNat_of_zero_le hr0
  obtain ⟨c, rfl⟩ := Int.eq_ofNat_of_zero_le hc0
  have hidx : ((r : Int) * (w : Int) + (c : Int)).toNat = r * w + c := by
    have : ((r : Int) * (w : Int) + (c : Int)) = ((r * w + c : Nat) : Int) := by push_cast; ring
    rw [this, Int.toNat_ofNat]
  have hmod : 0 ≤ (r : Int) % 2 ∧ (r : Int) % 2 < 2 := by omega
  rw [hidx, calcBoardCornerPositions_asymmetric_getElem? w h r c (by exact_mod_cast hr)
    (by exact_mod_cast hc), toInt32_of_range (2 * (c : Int)) (by omega) (by omega),
    toInt32_of_range (2 * (c : Int) + (r : Int) % 2) (by omega) hfit]

/-- Witness for C2: on a 2 x 3 asymmetric grid with square size 5, over exact integer
arithmetic, the point at row 1, column 1 (index 3) is `(15, 5, 0)`; the whole grid is
spelled out next to it. -/
theorem calcBoardCornerPositions_asymmetric_index_witness :
    (calcBoardCornerPositions (F := Int) ⟨2, 3⟩ 5 [] .ASYMMETRIC_CIRCLES_GRID)[3]?
      = some ⟨15, 5, 0⟩ ∧
    calcBoardCornerPositions (F := Int) ⟨2, 3⟩ 5 [] .ASYMMETRIC_CIRCLES_GRID
      = [⟨0, 0, 0⟩, ⟨10, 0, 0⟩, ⟨5, 5, 0⟩, ⟨15, 5, 0⟩, ⟨0, 10, 0⟩, ⟨10, 10, 0⟩] :=
  ⟨calcBoardCornerPositions_asymmetric_index 2 3 (by decide) (by decide) 5 [] 1 1
    (by decide) (by decide) (by decide) (by decide) (by decide), by decide⟩

/-- A duplicate-free list of `n` IDs that all lie in `[0, n)` holds every ID of `[0, n)`. -/
theorem ids_full_of_nodup (n : Nat) (ids : List Int) (hnd : ids.Nodup)
    (hr : ∀ id ∈ ids, 0 ≤ id ∧ id < (n : Int)) (hlen : ids.length = n) (id : Int) :
    id ∈ ids ↔ (0 ≤ id ∧ id < (n : Int)) := by
  have hsub : ids.toFinset ⊆ Finset.Ico (0 : Int) n := by
    intro x hx
    rw [Finset.mem_Ico]
    exact hr x (List.mem_toFinset.mp hx)
  have hcard : (Finset.Ico (0 : Int) n).card ≤ ids.toFinset.card := by
    rw [List.toFinset_card_of_nodup hnd, Int.card_Ico, hlen]
    simp
  have heq := Finset.eq_of_subset_of_card_le hsub hcard
  rw [← List.mem_toFinset, heq, Finset.mem_Ico]

/-- When the two interpolated ID lists are duplicate-free, all their IDs lie in
`[0, boardWidth*boardHeight)` and that count fits in `int`, the count test of the stereo
ChArUco case amounts to equal ID sets of full size. -/
theorem stereoCharucoAccepted_iff_of_valid_ids (boardSize : Size) (n : Nat)
    (hn : boardSize.width * boardSize.height = (n : Int)) (hn31 : n < 2 ^ 31)
    (idsL idsR : List Int) (hLnd : idsL.Nodup) (hRnd : idsR.Nodup)
    (hLr : ∀ id ∈ idsL, 0 ≤ id ∧ id < (n : Int))
    (hRr : ∀ id ∈ idsR, 0 ≤ id ∧ id < (n : Int)) :
    stereoCharucoAccepted boardSize idsL idsR = true ↔
      ((∀ id, id ∈ idsL ↔ id ∈ idsR) ∧ idsL.length = n) := by
  have hsz : toSizeT (toInt32 (boardSize.width * boardSize.height)) = n := by
    rw [hn]
    exact toSizeT_toInt32_of_lt n hn31
  unfold stereoCharucoAccepted
  rw [hsz]
  simp only [Bool.and_eq_true, beq_iff_eq]
  constructor
  · rintro ⟨h1, h2⟩
    refine ⟨fun id => ?_, h1⟩
    rw [ids_full_of_nodup n idsL hLnd hLr h1, ids_full_of_nodup n idsR hRnd hRr (h2 ▸ h1)]
  · rintro ⟨hmem, h1⟩
    exact ⟨h1, ((List.perm_ext_iff_of_nodup hLnd hRnd).mpr hmem).length_eq⟩

/-! ## Stereo ChArUco acceptance -/

/-- The two examples of the specification for the stereo ChArUco test, on a board of
3 x 1 corners: left IDs `2, 5, 7` with right IDs `2, 5, 7` pass, with right IDs `2, 5`
they do not. -/
theorem stereoCharucoAccepted_examples :
    stereoCharucoAccepted ⟨3, 1⟩ [2, 5, 7] [2, 5, 7] = true ∧
    stereoCharucoAccepted ⟨3, 1⟩ [2, 5, 7] [2, 5] = false := by
  decide

/-- In the sorted candidate lists every file name is at least as long as the prefix of
its side, so the matching loop stays within range. -/
theorem sorted_candidates_long_enough (inputDir fileExtension prefixL prefixR : CppString)
    (entries : List DirEntry) (L R : List CppString)
    (hsep : ∀ e ∈ entries, '/' ∉ e.filename)
    (henum : stereoEnumerate inputDir fileExtension prefixL prefixR entries = .ok (L, R)) :
    (∀ p ∈ stdSort L, prefixL.length ≤ (pathFilename p).length) ∧
    (∀ p ∈ stdSort R, prefixR.length ≤ (pathFilename p).length) := by
  obtain ⟨hL, hR⟩ := stereoEnumerate_candidates _ _ _ _ _ _ _ henum
  constructor
  · intro p hp
    obtain ⟨e, he, rfl, hpre⟩ := hL p ((stdSort_perm L).mem_iff.mp hp)
    rw [pathFilename_entryPath _ _ (hsep e he)]
    exact hpre.length_le
  · intro p hp
    obtain ⟨e, he, rfl, hpre⟩ := hR p ((stdSort_perm R).mem_iff.mp hp)
    rw [pathFilename_entryPath _ _ (hsep e he)]
    exact hpre.length_le

/-- With candidate lists that are non-empty, of equal length and whose sorted file names
are long enough, `stereoImages` returns the sorted lists when the suffixes agree at every
index and ends the run with `return 1` otherwise. -/
theorem stereoImages_cases {F : Type} (fs : FileSystem) (opts : StereoOptions F)
    (entries : List DirEntry) (L R : List CppString)
    (hdir : fs.directory_iterator opts.inputDir = .ok entries)
    (henum : stereoEnumerate opts.inputDir opts.fileExtension opts.prefixL opts.prefixR entries
      = .ok (L, R))
    (hne : L ≠ []) (hlen : L.length = R.length)
    (hLs : ∀ p ∈ stdSort L, opts.prefixL.length ≤ (pathFilename p).length)
    (hRs : ∀ p ∈ stdSort R, opts.prefixR.length ≤ (pathFilename p).length) :
    (suffixesAgree opts.prefixL opts.prefixR (stdSort L) (stdSort R) →
      stereoImages fs opts = .ok (stdSort L, stdSort R)) ∧
    (¬ suffixesAgree opts.prefixL opts.prefixR (stdSort L) (stdSort R) →
      stereoImages fs opts = .error (.returned 1)) := by
  have hlens : (stdSort L).length = (stdSort R).length := by
    rw [stdSort_length, stdSort_length, hlen]
  have himg := stereoImages_eq_match fs opts entries L R hdir henum hne hlen
  constructor
  · intro h
    rw [himg, (matchFilenames_ok_true_iff _ _ _ _ hlens hLs hRs).mpr h]
    rfl
  · intro h
    rw [himg, matchFilenames_ok_false_of_not _ _ _ _ hlens hLs hRs h]
    rfl

theorem suffixesAgree_iff_map_eq (prefixL prefixR : CppString) (L R : List CppString)
    (hlen : L.length = R.length) :
    suffixesAgree prefixL prefixR L R ↔
      L.map (strippedName prefixL.length) = R.map (strippedName prefixR.length) := by
  constructor
  · intro h
    apply List.ext_getElem?
    intro i
    by_cases hi : i < L.length
    · simpa [List.getElem?_map] using h i hi
    · have hiR : ¬ i < R.length := hlen ▸ hi
      simp [List.getElem?_map, List.getElem?_eq_none (not_lt.mp hi),
        List.getElem?_eq_none (not_lt.mp hiR)]
  · intro h i _
    rw [← List.getElem?_map, ← List.getElem?_map, h]

theorem stdSort_eq_iff_same_members {A B : List CppString} (hA : A.Nodup) (hB : B.Nodup) :
    stdSort A = stdSort B ↔ ∀ s, s ∈ A ↔ s ∈ B := by
  rw [← List.perm_ext_iff_of_nodup hA hB]
  constructor
  · intro h
    exact ((stdSort_perm A).symm.trans (h ▸ List.Perm.refl _)).trans (stdSort_perm B)
  · exact stdSort_eq_of_perm

/-- Candidates of the form `inputDir/prefix ++ s`, sorted: the sort orders the suffixes,
and stripping the prefix gives the suffix back. -/
theorem sorted_prefixed (inputDir pre : CppString) (S L : List CppString)
    (hL : L.Perm (S.map (fun s => entryPath inputDir (pre ++ s))))
    (hsep : ∀ s ∈ S, '/' ∉ pre ++ s) :
    stdSort L = (stdSort S).map (fun s => entryPath inputDir (pre ++ s)) ∧
    (stdSort L).map (strippedName pre.length) = stdSort S ∧
    (∀ p ∈ stdSort L, pre.length ≤ (pathFilename p).length) := by
  have hfun : (fun s : CppString => entryPath inputDir (pre ++ s))
      = fun s => (inputDir ++ '/' :: pre) ++ s := by
    funext s
    simp [entryPath]
  have hsort : stdSort L = (stdSort S).map (fun s => entryPath inputDir (pre ++ s)) := by
    rw [stdSort_eq_of_perm hL, hfun]
    exact stdSort_map_append _ S
  have hmem : ∀ s ∈ stdSort S, s ∈ S := fun s hs => (stdSort_perm S).mem_iff.mp hs
  refine ⟨hsort, ?_, ?_⟩
  · rw [hsort, List.map_map]
    conv_rhs => rw [← List.map_id (stdSort S)]
    apply List.map_congr_left
    intro s hs
    simp [strippedName, pathFilename_entryPath _ _ (hsep s (hmem s hs))]
  · intro p hp
    rw [hsort] at hp
    obtain ⟨s, hs, rfl⟩ := List.mem_map.mp hp
    rw [pathFilename_entryPath _ _ (hsep s (hmem s hs))]
    simp

/-! ## Stereo filename pairing -/

/-- C9. Stereo pairing fails fast: whenever the directory loop has produced candidate
lists of which one is empty or which differ in length, the run ends with `return 1`
before the frame loop: no frame is read or searched, no sample is accepted and the
calibration is not run. -/
theorem stereo_fail_fast {Img P2 F : Type} [FloatOps F] (vis : Vision Img P2 (List P2) F)
    (fs : FileSystem) (opts : StereoOptions F) (patternType : PatternType)
    (charucoboard : CharucoBoard F) (entries : List DirEntry) (L R : List CppString)
    (hsetup : stereoSetup vis fs opts = .ok (patternType, charucoboard))
    (hdir : fs.directory_iterator opts.inputDir = .ok entries)
    (henum : stereoEnumerate opts.inputDir opts.fileExtension opts.prefixL opts.prefixR entries
      = .ok (L, R))
    (hbad : L = [] ∨ R = [] ∨ L.length ≠ R.length) :
    (stereo_calib_main vis fs opts).exit = .returned 1 ∧
    (stereo_calib_main vis fs opts).frames = 0 ∧
    (stereo_calib_main vis fs opts).dataset = [] ∧
    (stereo_calib_main vis fs opts).calibrated = false := by
  unfold stereo_calib_main
  simp only [hsetup, stereoImages_fail_fast fs opts entries L R hdir henum hbad]
  simp [StereoOutcome.early]

/-- Witness for C9: a directory with 8 left and 9 right images. -/
theorem stereo_fail_fast_witness :
    (stereo_calib_main (scriptedVision [] [] [])
      (listedFs (numbered "left_" ["1", "2", "3", "4", "5", "6", "7", "8"]
        ++ numbered "right_" ["1", "2", "3", "4", "5", "6", "7", "8", "9"]))
      (stereoOptions "chessboard".toList ⟨9, 6⟩ false)).exit = .returned 1 ∧
    (stereo_calib_main (scriptedVision [] [] [])
      (listedFs (numbered "left_" ["1", "2", "3", "4", "5", "6", "7", "8"]
        ++ numbered "right_" ["1", "2", "3", "4", "5", "6", "7", "8", "9"]))
      (stereoOptions "chessboard".toList ⟨9, 6⟩ false)).frames = 0 ∧
    (stereo_calib_main (scriptedVision [] [] [])
      (listedFs (numbered "left_" ["1", "2", "3", "4", "5", "6", "7", "8"]
        ++ numbered "right_" ["1", "2", "3", "4", "5", "6", "7", "8", "9"]))
      (stereoOptions "chessboard".toList ⟨9, 6⟩ false)).dataset = [] ∧
    (stereo_calib_main (scriptedVision [] [] [])
      (listedFs (numbered "left_" ["1", "2", "3", "4", "5", "6", "7", "8"]
        ++ numbered "right_" ["1", "2", "3", "4", "5", "6", "7", "8", "9"]))
      (stereoOptions "chessboard".toList ⟨9, 6⟩ false)).calibrated = false :=
  stereo_fail_fast (scriptedVision [] [] [])
    (listedFs (numbered "left_" ["1", "2", "3", "4", "5", "6", "7", "8"]
      ++ numbered "right_" ["1", "2", "3", "4", "5", "6", "7", "8", "9"]))
    (stereoOptions "chessboard".toList ⟨9, 6⟩ false) .CHESSBOARD ⟨[]⟩
    ((numbered "left_" ["1", "2", "3", "4", "5", "6", "7", "8"]
      ++ numbered "right_" ["1", "2", "3", "4", "5", "6", "7", "8", "9"]).map
        (fun n => ⟨n, true⟩))
    ((numbered "left_" ["1", "2", "3", "4", "5", "6", "7", "8"]).map
      (entryPath "images".toList))
    ((numbered "right_" ["1", "2", "3", "4", "5", "6", "7", "8", "9"]).map
      (entryPath "images".toList))
    (by decide) (by decide) (by decide) (by decide)

/-- C8. Stereo pairing validation: given the two candidate lists of the directory loop,
non-empty and of equal length, the run goes on to the frame loop with the two sorted
lists if and only if at every index the left file name without its first `|prefixL|`
characters equals the right file name without its first `|prefixR|` characters; a
mismatch at any index ends the run with `return 1`, whatever the options (the verbose
flag among them), with no frame processed, no sample accepted and no calibration. -/
theorem stereo_pairing_validation {Img P2 F : Type} [FloatOps F]
    (vis : Vision Img P2 (List P2) F) (fs : FileSystem) (opts : StereoOptions F)
    (patternType : PatternType) (charucoboard : CharucoBoard F) (entries : List DirEntry)
    (L R : List CppString)
    (hsetup : stereoSetup vis fs opts = .ok (patternType, charucoboard))
    (hdir : fs.directory_iterator opts.inputDir = .ok entries)
    (hsep : ∀ e ∈ entries, '/' ∉ e.filename)
    (henum : stereoEnumerate opts.inputDir opts.fileExtension opts.prefixL opts.prefixR entries
      = .ok (L, R))
    (hne : L ≠ []) (hlen : L.length = R.length) :
    (stereoImages fs opts = .ok (stdSort L, stdSort R) ↔
      suffixesAgree opts.prefixL opts.prefixR (stdSort L) (stdSort R)) ∧
    (suffixesAgree opts.prefixL opts.prefixR (stdSort L) (stdSort R) →
      stereo_calib_main vis fs opts =
        match stereoFrames vis opts patternType charucoboard (stdSort L) (stdSort R) with
        | .error e => .early (.uncaught e)
        | .ok st => stereoFinish opts.viewResults (stdSort L) (stdSort R) st) ∧
    (¬ suffixesAgree opts.prefixL opts.prefixR (stdSort L) (stdSort R) →
      (stereo_calib_main vis fs opts).exit = .returned 1 ∧
      (stereo_calib_main vis fs opts).frames = 0 ∧
      (stereo_calib_main vis fs opts).dataset = [] ∧
      (stereo_calib_main vis fs opts).calibrated = false) := by
  obtain ⟨hLs, hRs⟩ := sorted_candidates_long_enough _ _ _ _ _ _ _ hsep henum
  obtain ⟨hyes, hno⟩ := stereoImages_cases fs opts entries L R hdir henum hne hlen hLs hRs
  refine ⟨⟨?_, hyes⟩, ?_, ?_⟩
  · intro hok
    by_contra hcon
    rw [hno hcon] at hok
    cases hok
  · intro h
    unfold stereo_calib_main
    simp only [hsetup, hyes h]
  · intro h
    unfold stereo_calib_main
    simp only [hsetup, hno h]
    simp [StereoOutcome.early]

/-- Witness for C8: in the directory `left_a`, `left_b`, `right_a`, `right_c` the suffixes
disagree at index 1 and the run ends with `return 1`, with the verbose flag set; in the
directory `left_a`, `left_b`, `right_a`, `right_b` they agree and the sorted lists are
handed to the frame loop. -/
theorem stereo_pairing_validation_witness :
    (¬ suffixesAgree "left".toList "right".toList
        (stdSort ((numbered "left_" ["b", "a"]).map (entryPath "images".toList)))
        (stdSort ((numbered "right_" ["c", "a"]).map (entryPath "images".toList))) ∧
      (stereo_calib_main idleVision mispairedFs
          (stereoOptions "chessboard".toList ⟨9, 6⟩ true)).exit = .returned 1 ∧
      (stereo_calib_main idleVision mispairedFs
          (stereoOptions "chessboard".toList ⟨9, 6⟩ true)).frames = 0 ∧
      (stereo_calib_main idleVision mispairedFs
          (stereoOptions "chessboard".toList ⟨9, 6⟩ true)).dataset = [] ∧
      (stereo_calib_main idleVision mispairedFs
          (stereoOptions "chessboard".toList ⟨9, 6⟩ true)).calibrated = false) ∧
    stereoImages pairedFs (stereoOptions "chessboard".toList ⟨9, 6⟩ true)
      = .ok (stdSort ((numbered "left_" ["b", "a"]).map (entryPath "images".toList)),
             stdSort ((numbered "right_" ["b", "a"]).map (entryPath "images".toList))) :=
  ⟨⟨by decide,
    (stereo_pairing_validation idleVision mispairedFs
      (stereoOptions "chessboard".toList ⟨9, 6⟩ true) .CHESSBOARD ⟨[]⟩
      ((numbered "" ["right_c", "left_b", "right_a", "left_a"]).map (fun n => ⟨n, true⟩))
      ((numbered "left_" ["b", "a"]).map (entryPath "images".toList))
      ((numbered "right_" ["c", "a"]).map (entryPath "images".toList))
      (by decide) (by decide) (by decide) (by decide) (by decide) (by decide)).2.2 (by decide)⟩,
   (stereo_pairing_validation idleVision pairedFs
      (stereoOptions "chessboard".toList ⟨9, 6⟩ true) .CHESSBOARD ⟨[]⟩
      ((numbered "" ["right_b", "left_b", "right_a", "left_a"]).map (fun n => ⟨n, true⟩))
      ((numbered "left_" ["b", "a"]).map (entryPath "images".toList))
      ((numbered "right_" ["b", "a"]).map (entryPath "images".toList))
      (by decide) (by decide) (by decide) (by decide) (by decide) (by decide)).1.mpr
        (by decide)⟩

/-- C7. Stereo filename pairing: when the left candidates are the names `prefixL ++ s` for
`s` in a duplicate-free collection `SL` and the right candidates the names `prefixR ++ s`
for `s` in `SR`, found in any order, with `|SL| = |SR| > 0`, then pairing succeeds (the
sorted lists reach the frame loop) if and only if `SL` and `SR` have the same members;
otherwise the run ends with `return 1`; and on success the entries at index `i` of the
two sorted lists carry the same suffix, for every `i`. -/
theorem stereo_pairing_iff_same_suffixes {F : Type} (fs : FileSystem) (opts : StereoOptions F)
    (entries : List DirEntry) (L R SL SR : List CppString)
    (hdir : fs.directory_iterator opts.inputDir = .ok entries)
    (henum : stereoEnumerate opts.inputDir opts.fileExtension opts.prefixL opts.prefixR entries
      = .ok (L, R))
    (hSL : SL.Nodup) (hSR : SR.Nodup)
    (hL : L.Perm (SL.map (fun s => entryPath opts.inputDir (opts.prefixL ++ s))))
    (hR : R.Perm (SR.map (fun s => entryPath opts.inputDir (opts.prefixR ++ s))))
    (hsepL : ∀ s ∈ SL, '/' ∉ opts.prefixL ++ s) (hsepR : ∀ s ∈ SR, '/' ∉ opts.prefixR ++ s)
    (hcard : SL.length = SR.length) (hpos : 0 < SL.length) :
    (stereoImages fs opts = .ok (stdSort L, stdSort R) ↔ ∀ s, s ∈ SL ↔ s ∈ SR) ∧
    ((¬ ∀ s, s ∈ SL ↔ s ∈ SR) → stereoImages fs opts = .error (.returned 1)) ∧
    (stereoImages fs opts = .ok (stdSort L, stdSort R) →
      ∀ i, i < SL.length → ∃ s,
        (stdSort L)[i]? = some (entryPath opts.inputDir (opts.prefixL ++ s)) ∧
        (stdSort R)[i]? = some (entryPath opts.inputDir (opts.prefixR ++ s))) := by
  obtain ⟨hsortL, hstripL, hlongL⟩ := sorted_prefixed _ _ SL L hL hsepL
  obtain ⟨hsortR, hstripR, hlongR⟩ := sorted_prefixed _ _ SR R hR hsepR
  have hlenL : L.length = SL.length := by rw [hL.length_eq, List.length_map]
  have hlenR : R.length = SR.length := by rw [hR.length_eq, List.length_map]
  have hlen : L.length = R.length := by rw [hlenL, hlenR, hcard]
  have hne : L ≠ [] := by
    intro h
    rw [h] at hlenL
    simp at hlenL
    omega
  have hlens : (stdSort L).length = (stdSort R).length := by
    rw [stdSort_length, stdSort_length, hlen]
  obtain ⟨hyes, hno⟩ :=
    stereoImages_cases fs opts entries L R hdir henum hne hlen hlongL hlongR
  have hagree : suffixesAgree opts.prefixL opts.prefixR (stdSort L) (stdSort R) ↔
      ∀ s, s ∈ SL ↔ s ∈ SR := by
    rw [suffixesAgree_iff_map_eq _ _ _ _ hlens, hstripL, hstripR]
    exact stdSort_eq_iff_same_members hSL hSR
  have hiff : stereoImages fs opts = .ok (stdSort L, stdSort R) ↔ ∀ s, s ∈ SL ↔ s ∈ SR := by
    constructor
    · intro hok
      by_contra hcon
      rw [hno (fun h => hcon (hagree.mp h))] at hok
      cases hok
    · intro h
      exact hyes (hagree.mpr h)
  refine ⟨hiff, fun h => hno (fun h' => h (hagree.mp h')), ?_⟩
  intro hok i hi
  have hsame : stdSort SL = stdSort SR := (stdSort_eq_iff_same_members hSL hSR).mpr (hiff.mp hok)
  have hiS : i < (stdSort SL).length := by rw [stdSort_length]; exact hi
  refine ⟨(stdSort SL)[i], ?_, ?_⟩
  · rw [hsortL, List.getElem?_map, List.getElem?_eq_getElem hiS]
    rfl
  · rw [hsortR, ← hsame, List.getElem?_map, List.getElem?_eq_getElem hiS]
    rfl

/-- Witness for C7: left files `left_a.png`, `left_b.png` pair with right files
`right_a.png`, `right_b.png` (`a` with `a`, `b` with `b`); with right files `right_a.png`,
`right_c.png` the run ends with `return 1`. -/
theorem stereo_pairing_iff_same_suffixes_witness :
    (stereoImages pairedFs (stereoOptions "chessboard".toList ⟨9, 6⟩ false)
        = .ok (["images/left_a.png".toList, "images/left_b.png".toList],
               ["images/right_a.png".toList, "images/right_b.png".toList]) ∧
      ∀ i, i < 2 → ∃ s,
        (stdSort ((numbered "left_" ["b", "a"]).map (entryPath "images".toList)))[i]?
          = some (entryPath "images".toList ("left".toList ++ s)) ∧
        (stdSort ((numbered "right_" ["b", "a"]).map (entryPath "images".toList)))[i]?
          = some (entryPath "images".toList ("right".toList ++ s))) ∧
    stereoImages mispairedFs (stereoOptions "chessboard".toList ⟨9, 6⟩ false)
      = .error (.returned 1) :=
  have hpaired := stereo_pairing_iff_same_suffixes pairedFs
    (stereoOptions "chessboard".toList ⟨9, 6⟩ false)
    ((numbered "" ["right_b", "left_b", "right_a", "left_a"]).map (fun n => ⟨n, true⟩))
    ((numbered "left_" ["b", "a"]).map (entryPath "images".toList))
    ((numbered "right_" ["b", "a"]).map (entryPath "images".toList))
    ["_a.png".toList, "_b.png".toList] ["_b.png".toList, "_a.png".toList]
    (by decide) (by decide) (by decide) (by decide) (by decide) (by decide) (by decide)
    (by decide) (by decide) (by decide)
  have hsame : ∀ s : CppString, s ∈ ["_a.png".toList, "_b.png".toList] ↔
      s ∈ ["_b.png".toList, "_a.png".toList] :=
    (List.perm_ext_iff_of_nodup (by decide) (by decide)).mp (by decide)
  ⟨⟨hpaired.1.mpr hsame, hpaired.2.2 (hpaired.1.mpr hsame)⟩,
   (stereo_pairing_iff_same_suffixes mispairedFs
    (stereoOptions "chessboard".toList ⟨9, 6⟩ false)
    ((numbered "" ["right_c", "left_b", "right_a", "left_a"]).map (fun n => ⟨n, true⟩))
    ((numbered "left_" ["b", "a"]).map (entryPath "images".toList))
    ((numbered "right_" ["c", "a"]).map (entryPath "images".toList))
    ["_a.png".toList, "_b.png".toList] ["_c.png".toList, "_a.png".toList]
    (by decide) (by decide) (by decide) (by decide) (by decide) (by decide) (by decide)
    (by decide) (by decide) (by decide)).2.1
      (fun h => absurd ((h "_c.png".toList).mpr (by decide)) (by decide))⟩

/-! ## The sample gate -/

/-- C10. Sample gating, in the mono and in the stereo program: once the frame loop has
ended with a dataset of `n` samples, `calibration.calibrate()` is called if and only if
`n ≥ 10`, and with `n < 10` the run ends with `return 1` without calibrating. -/
theorem sample_gate {ImgM PM ImgS PS F : Type} [FloatOps F]
    (visM : Vision ImgM PM PM F) (fsM : FileSystem) (optsM : MonoOptions F)
    (patternM : PatternType) (boardM : CharucoBoard F) (imageFilenames : List CppString)
    (stM : MonoState PM (Point3f F))
    (visS : Vision ImgS PS (List PS) F) (fsS : FileSystem) (optsS : StereoOptions F)
    (patternS : PatternType) (boardS : CharucoBoard F)
    (imageFilenamesL imageFilenamesR : List CppString) (stS : StereoState PS (Point3f F))
    (hM1 : monoSetup visM fsM optsM = .ok (patternM, boardM))
    (hM2 : monoImages fsM optsM = .ok imageFilenames)
    (hM3 : monoFrames visM optsM patternM boardM imageFilenames = .ok stM)
    (hS1 : stereoSetup visS fsS optsS = .ok (patternS, boardS))
    (hS2 : stereoImages fsS optsS = .ok (imageFilenamesL, imageFilenamesR))
    (hS3 : stereoFrames visS optsS patternS boardS imageFilenamesL imageFilenamesR = .ok stS) :
    (((intrinsic_calib_main visM fsM optsM).calibrated = true ↔ 10 ≤ sampleCount stM.dataset) ∧
      (sampleCount stM.dataset < 10 →
        (intrinsic_calib_main visM fsM optsM).exit = .returned 1 ∧
        (intrinsic_calib_main visM fsM optsM).calibrated = false)) ∧
    (((stereo_calib_main visS fsS optsS).calibrated = true ↔ 10 ≤ sampleCount stS.dataset) ∧
      (sampleCount stS.dataset < 10 →
        (stereo_calib_main visS fsS optsS).exit = .returned 1 ∧
        (stereo_calib_main visS fsS optsS).calibrated = false)) := by
  have hM : intrinsic_calib_main visM fsM optsM
      = monoFinish optsM.viewResults imageFilenames stM := by
    unfold intrinsic_calib_main
    simp only [hM1, hM2, hM3]
  have hS : stereo_calib_main visS fsS optsS
      = stereoFinish optsS.viewResults imageFilenamesL imageFilenamesR stS := by
    unfold stereo_calib_main
    simp only [hS1, hS2, hS3]
  rw [hM, hS]
  unfold monoFinish stereoFinish
  refine ⟨⟨?_, ?_⟩, ?_, ?_⟩
  · by_cases h : sampleCount stM.dataset < 10
    · simp only [h, ↓reduceIte]
      constructor
      · intro hc
        cases hc
      · intro h10
        omega
    · simp only [h, ↓reduceIte, true_iff]
      omega
  · intro h
    simp [h]
  · by_cases h : sampleCount stS.dataset < 10
    · simp only [h, ↓reduceIte]
      constructor
      · intro hc
        cases hc
      · intro h10
        omega
    · simp only [h, ↓reduceIte, true_iff]
      omega
  · intro h
    simp [h]

/-- Witness for C10: a mono run over ten images that all show the chessboard calibrates;
a stereo run over nine image pairs that all show it has nine samples and ends with
`return 1` without calibrating. -/
theorem sample_gate_witness :
    (intrinsic_calib_main (scriptedMonoVision (numbered "left-" tenTags) [])
        (listedFs (numbered "left-" tenTags))
        (monoOptions "chessboard".toList ⟨8, 12⟩)).calibrated = true ∧
    (stereo_calib_main
        (scriptedVision (numbered "left_" nineTags ++ numbered "right_" nineTags) [] [])
        (listedFs (numbered "left_" nineTags ++ numbered "right_" nineTags))
        (stereoOptions "chessboard".toList ⟨9, 6⟩ false)).exit = .returned 1 ∧
    (stereo_calib_main
        (scriptedVision (numbered "left_" nineTags ++ numbered "right_" nineTags) [] [])
        (listedFs (numbered "left_" nineTags ++ numbered "right_" nineTags))
        (stereoOptions "chessboard".toList ⟨9, 6⟩ false)).calibrated = false :=
  have h := sample_gate (scriptedMonoVision (numbered "left-" tenTags) [])
    (listedFs (numbered "left-" tenTags)) (monoOptions "chessboard".toList ⟨8, 12⟩)
    .CHESSBOARD ⟨[]⟩ ((numbered "left-" tenTags).map (entryPath "calibrationdata".toList))
    { frames := 10, dataset := List.replicate 10 (.chessboard [])
      chessboardFound := List.replicate 10 true }
    (scriptedVision (numbered "left_" nineTags ++ numbered "right_" nineTags) [] [])
    (listedFs (numbered "left_" nineTags ++ numbered "right_" nineTags))
    (stereoOptions "chessboard".toList ⟨9, 6⟩ false) .CHESSBOARD ⟨[]⟩
    ((numbered "left_" nineTags).map (entryPath "images".toList))
    ((numbered "right_" nineTags).map (entryPath "images".toList))
    { frames := 9, dataset := List.replicate 9 (.chessboard [] [])
      chessboardFoundL := List.replicate 9 true, chessboardFoundR := List.replicate 9 true }
    (by decide) (by decide) (by decide) (by decide) (by decide) (by decide)
  ⟨h.1.1.mpr (by decide), h.2.2 (by decide)⟩

/-! ## The frame loops in closed form -/

theorem foldlM_range_ok {σ ε : Type} (f : σ → Nat → Except ε σ) (S : Nat → σ) (n : Nat)
    (hstep : ∀ k, k < n → f (S k) k = .ok (S (k + 1))) :
    (List.range n).foldlM f (S 0) = .ok (S n) := by
  induction n with
  | zero => rfl
  | succ n ih =>
    rw [List.range_succ, List.foldlM_append, ih (fun k hk => hstep k (Nat.lt_succ_of_lt hk))]
    simp [bind, Except.bind, hstep n (Nat.lt_succ_self n), pure, Except.pure]

theorem flags_keep (A : List Bool) (n k : Nat) (hk : k < n) :
    A ++ List.replicate (n - k) false
      = (A ++ [false]) ++ List.replicate (n - (k + 1)) false := by
  have h : n - k = (n - (k + 1)) + 1 := by omega
  rw [h, List.replicate_succ]
  simp

theorem vecSetChecked_flags (A : List Bool) (n k : Nat) (hA : A.length = k) (hk : k < n)
    (v : Bool) :
    vecSetChecked (A ++ List.replicate (n - k) false) k v
      = .ok ((A ++ [v]) ++ List.replicate (n - (k + 1)) false) := by
  have h : n - k = (n - (k + 1)) + 1 := by omega
  unfold vecSetChecked
  rw [if_pos (by simp [hA]; omega)]
  congr 1
  rw [List.set_append_right _ _ (by omega), hA, Nat.sub_self, h, List.replicate_succ]
  simp

theorem monoReadsDefined_of_ne {Img P2 F : Type} (vis : Vision Img P2 P2 F)
    (opts : MonoOptions F) (patternType : PatternType) (charucoboard : CharucoBoard F)
    (path : CppString) (h : patternType ≠ .CHARUCO) :
    monoReadsDefined vis opts patternType charucoboard path :=
  fun hp => absurd hp h

theorem stereoReadsDefined_of_ne {Img P2 F : Type} (vis : Vision Img P2 (List P2) F)
    (opts : StereoOptions F) (patternType : PatternType) (charucoboard : CharucoBoard F)
    (pathL pathR : CppString) (h : patternType ≠ .CHARUCO) :
    stereoReadsDefined vis opts patternType charucoboard pathL pathR :=
  fun hp => absurd hp h

theorem ne_charuco_of_isGrid {patternType : PatternType} (h : patternType.isGrid = true) :
    patternType ≠ .CHARUCO := by
  rintro rfl
  simp [PatternType.isGrid] at h

/-- One round of the mono frame loop, in closed form: with an index within range and
table reads that are defined it ends normally, adds the sample of the frame if there is
one, and writes the flag of the frame in the grid cases. -/
theorem monoFrame_eq {Img P2 F : Type} [FloatOps F] (vis : Vision Img P2 P2 F)
    (opts : MonoOptions F) (patternType : PatternType) (charucoboard : CharucoBoard F)
    (imageFilenames : List CppString) (st : MonoState P2 (Point3f F)) (k : Nat)
    (path : CppString) (hpath : imageFilenames[k]? = some path)
    (hflag : k < st.chessboardFound.length)
    (hdef : monoReadsDefined vis opts patternType charucoboard path) :
    monoFrame vis opts patternType charucoboard imageFilenames st k
      = .ok { frames := st.frames + 1
              dataset := st.dataset
                ++ (monoSampleOf vis opts patternType charucoboard path).toList
              chessboardFound :=
                if patternType.isGrid then
                  st.chessboardFound.set k (monoFlagOf vis opts patternType path)
                else st.chessboardFound } := by
  unfold monoFrame
  simp only [vecAtChecked, hpath, vecSetChecked, hflag, bind, Except.bind, pure, Except.pure,
    ↓reduceIte]
  cases patternType <;>
    simp only [monoSampleOf, monoFlagOf, gridDetect, monoGridSample, PatternType.isGrid,
      monoCharucoFrame, ↓reduceIte, Option.toList, List.append_nil, decide_False, decide_True,
      Bool.false_eq_true]
  case CHESSBOARD =>
    split_ifs with h1 <;> simp [h1]
  case CIRCLES_GRID =>
    split_ifs <;> simp
  case ASYMMETRIC_CIRCLES_GRID =>
    split_ifs <;> simp
  case CHARUCO =>
    obtain ⟨objectPoints, hpts⟩ := hdef rfl
    simp only [monoMarkers] at hpts
    split_ifs at hpts ⊢ <;> simp_all [bind, Except.bind, pure, Except.pure]

/-- One round of the stereo frame loop, in closed form: with an index within range and
table reads that are defined it ends normally, adds the sample of the frame if there is
one, and writes the two flags of the frame in the grid cases and, in the ChArUco case,
when the frame is accepted. -/
theorem stereoFrame_eq {Img P2 F : Type} [FloatOps F] (vis : Vision Img P2 (List P2) F)
    (opts : StereoOptions F) (patternType : PatternType) (charucoboard : CharucoBoard F)
    (imageFilenamesL imageFilenamesR : List CppString) (st : StereoState P2 (Point3f F))
    (k : Nat) (pathL pathR : CppString)
    (hpathL : imageFilenamesL[k]? = some pathL) (hpathR : imageFilenamesR[k]? = some pathR)
    (hflagL : k < st.chessboardFoundL.length) (hflagR : k < st.chessboardFoundR.length)
    (hdef : stereoReadsDefined vis opts patternType charucoboard pathL pathR) :
    stereoFrame vis opts patternType charucoboard imageFilenamesL imageFilenamesR st k
      = .ok { frames := st.frames + 1
              dataset := st.dataset
                ++ (stereoSampleOf vis opts patternType charucoboard pathL pathR).toList
              chessboardFoundL :=
                if patternType.isGrid
                    || (stereoSampleOf vis opts patternType charucoboard pathL pathR).isSome then
                  st.chessboardFoundL.set k
                    (stereoFlagsOf vis opts patternType charucoboard pathL pathR).1
                else st.chessboardFoundL
              chessboardFoundR :=
                if patternType.isGrid
                    || (stereoSampleOf vis opts patternType charucoboard pathL pathR).isSome then
                  st.chessboardFoundR.set k
                    (stereoFlagsOf vis opts patternType charucoboard pathL pathR).2
                else st.chessboardFoundR } := by
  unfold stereoFrame
  simp only [vecAtChecked, hpathL, hpathR, vecSetChecked, hflagL, hflagR, bind, Except.bind,
    pure, Except.pure, ↓reduceIte]
  cases patternType <;>
    simp only [stereoSampleOf, stereoFlagsOf, gridDetect, stereoGridSample, PatternType.isGrid,
      stereoCharucoFrame, stereoInterpolated, vecSetChecked, hflagL, hflagR, bind,
      Except.bind, pure, Except.pure, ↓reduceIte, Option.toList, List.append_nil,
      decide_False, decide_True, Bool.false_eq_true, Bool.true_or, Bool.false_or,
      Option.isSome_none, Option.isSome_some]
  case CHESSBOARD => split_ifs <;> simp
  case CIRCLES_GRID =>
    split_ifs <;> simp
  case ASYMMETRIC_CIRCLES_GRID =>
    split_ifs <;> simp
  case CHARUCO =>
    obtain ⟨objectPoints, hpts⟩ := hdef rfl
    simp only [stereoInterpolated] at hpts
    split_ifs at hpts ⊢ <;> simp_all

theorem list_set_flags (A : List Bool) (n k : Nat) (hA : A.length = k) (hk : k < n)
    (v : Bool) :
    (A ++ List.replicate (n - k) false).set k v
      = (A ++ [v]) ++ List.replicate (n - (k + 1)) false := by
  have h : n - k = (n - (k + 1)) + 1 := by omega
  rw [List.set_append_right _ _ (by omega), hA, Nat.sub_self, h, List.replicate_succ]
  simp

theorem monoFlagOf_of_not_grid {Img P2 F : Type} (vis : Vision Img P2 P2 F)
    (opts : MonoOptions F) (patternType : PatternType) (path : CppString)
    (h : patternType.isGrid = false) : monoFlagOf vis opts patternType path = false := by
  cases patternType <;> simp_all [PatternType.isGrid, monoFlagOf]

/-- The mono frame loop with table reads that are defined ends normally, and after it the
dataset holds the samples of the frames in input order and `chessboardFound` the flags
of the frames. -/
theorem monoFrames_eq {Img P2 F : Type} [FloatOps F] (vis : Vision Img P2 P2 F)
    (opts : MonoOptions F) (patternType : PatternType) (charucoboard : CharucoBoard F)
    (imageFilenames : List CppString)
    (hdef : ∀ path ∈ imageFilenames,
      monoReadsDefined vis opts patternType charucoboard path) :
    monoFrames vis opts patternType charucoboard imageFilenames
      = .ok { frames := imageFilenames.length
              dataset := imageFilenames.filterMap
                (monoSampleOf vis opts patternType charucoboard)
              chessboardFound := imageFilenames.map (monoFlagOf vis opts patternType) } := by
  have hstart : ({ frames := 0, dataset := []
                   chessboardFound := List.replicate imageFilenames.length false }
        : MonoState P2 (Point3f F))
      = monoAfter vis opts patternType charucoboard imageFilenames 0 := by
    simp [monoAfter]
  have hend : monoAfter vis opts patternType charucoboard imageFilenames imageFilenames.length
      = { frames := imageFilenames.length
          dataset := imageFilenames.filterMap (monoSampleOf vis opts patternType charucoboard)
          chessboardFound := imageFilenames.map (monoFlagOf vis opts patternType) } := by
    simp [monoAfter]
  unfold monoFrames
  rw [hstart, ← hend]
  apply foldlM_range_ok
  intro k hk
  have hget : imageFilenames[k]? = some imageFilenames[k] := List.getElem?_eq_getElem hk
  have hlenA : ((imageFilenames.take k).map (monoFlagOf vis opts patternType)).length = k := by
    simp
    omega
  rw [monoFrame_eq vis opts patternType charucoboard imageFilenames _ k imageFilenames[k] hget
    (by simp [monoAfter]; omega) (hdef _ (List.getElem_mem hk))]
  simp only [monoAfter, List.take_succ, hget, Option.toList, List.filterMap_append,
    List.map_append, List.map_cons, List.map_nil, Except.ok.injEq, MonoState.mk.injEq,
    true_and]
  refine ⟨?_, ?_⟩
  · cases hs : monoSampleOf vis opts patternType charucoboard imageFilenames[k] <;>
      simp [hs]
  · by_cases hg : patternType.isGrid = true
    · rw [if_pos hg, list_set_flags _ _ _ hlenA hk]
    · rw [if_neg hg, flags_keep _ _ _ hk,
        monoFlagOf_of_not_grid vis opts patternType _ (by simpa using hg)]

theorem stereoFlagsOf_of_no_write {Img P2 F : Type} [FloatOps F]
    (vis : Vision Img P2 (List P2) F) (opts : StereoOptions F) (patternType : PatternType)
    (charucoboard : CharucoBoard F) (pathL pathR : CppString)
    (hdef : stereoReadsDefined vis opts patternType charucoboard pathL pathR)
    (h : ¬ (patternType.isGrid
        || (stereoSampleOf vis opts patternType charucoboard pathL pathR).isSome) = true) :
    stereoFlagsOf vis opts patternType charucoboard pathL pathR = (false, false) := by
  cases patternType
  case CHARUCO =>
    obtain ⟨objectPoints, hpts⟩ := hdef rfl
    simp_all [PatternType.isGrid, stereoFlagsOf, stereoSampleOf]
  all_goals simp_all [PatternType.isGrid, stereoFlagsOf, stereoSampleOf]

/-- The stereo frame loop over two lists of equal length with table reads that are
defined ends normally, and after it the dataset holds the samples of the frames in input
order and the two flag vectors hold the flags of the frames. -/
theorem stereoFrames_eq {Img P2 F : Type} [FloatOps F] (vis : Vision Img P2 (List P2) F)
    (opts : StereoOptions F) (patternType : PatternType) (charucoboard : CharucoBoard F)
    (imageFilenamesL imageFilenamesR : List CppString)
    (hlen : imageFilenamesL.length = imageFilenamesR.length)
    (hdef : ∀ pair ∈ imageFilenamesL.zip imageFilenamesR,
      stereoReadsDefined vis opts patternType charucoboard pair.1 pair.2) :
    stereoFrames vis opts patternType charucoboard imageFilenamesL imageFilenamesR
      = .ok { frames := imageFilenamesL.length
              dataset := (imageFilenamesL.zip imageFilenamesR).filterMap
                (fun pair => stereoSampleOf vis opts patternType charucoboard pair.1 pair.2)
              chessboardFoundL := (imageFilenamesL.zip imageFilenamesR).map
                (fun pair => (stereoFlagsOf vis opts patternType charucoboard pair.1 pair.2).1)
              chessboardFoundR := (imageFilenamesL.zip imageFilenamesR).map
                (fun pair =>
                  (stereoFlagsOf vis opts patternType charucoboard pair.1 pair.2).2) } := by
  have hzip : (imageFilenamesL.zip imageFilenamesR).length = imageFilenamesL.length := by
    simp [hlen]
  have hstart : ({ frames := 0, dataset := []
                   chessboardFoundL := List.replicate imageFilenamesL.length false
                   chessboardFoundR := List.replicate imageFilenamesR.length false }
        : StereoState P2 (Point3f F))
      = stereoAfter vis opts patternType charucoboard imageFilenamesL imageFilenamesR 0 := by
    simp [stereoAfter]
  have hend : stereoAfter vis opts patternType charucoboard imageFilenamesL imageFilenamesR
        imageFilenamesL.length
      = { frames := imageFilenamesL.length
          dataset := (imageFilenamesL.zip imageFilenamesR).filterMap
            (fun pair => stereoSampleOf vis opts patternType charucoboard pair.1 pair.2)
          chessboardFoundL := (imageFilenamesL.zip imageFilenamesR).map
            (fun pair => (stereoFlagsOf vis opts patternType charucoboard pair.1 pair.2).1)
          chessboardFoundR := (imageFilenamesL.zip imageFilenamesR).map
            (fun pair =>
              (stereoFlagsOf vis opts patternType charucoboard pair.1 pair.2).2) } := by
    simp [stereoAfter, ← hlen, List.take_of_length_le (le_of_eq hzip)]
  unfold stereoFrames
  rw [hstart, ← hend]
  apply foldlM_range_ok
  intro k hk
  have hkR : k < imageFilenamesR.length := hlen ▸ hk
  have hgetL : imageFilenamesL[k]? = some imageFilenamesL[k] := List.getElem?_eq_getElem hk
  have hgetR : imageFilenamesR[k]? = some imageFilenamesR[k] := List.getElem?_eq_getElem hkR
  have hgetZ : (imageFilenamesL.zip imageFilenamesR)[k]?
      = some (imageFilenamesL[k], imageFilenamesR[k]) :=
    List.getElem?_zip_eq_some.mpr ⟨hgetL, hgetR⟩
  have hlenA : ∀ g : CppString × CppString → Bool,
      (((imageFilenamesL.zip imageFilenamesR).take k).map g).length = k := by
    intro g
    simp [hlen]
    omega
  have hdefk : stereoReadsDefined vis opts patternType charucoboard imageFilenamesL[k]
      imageFilenamesR[k] :=
    hdef (imageFilenamesL[k], imageFilenamesR[k]) (List.getElem?_mem hgetZ)
  rw [stereoFrame_eq vis opts patternType charucoboard imageFilenamesL imageFilenamesR _ k
    imageFilenamesL[k] imageFilenamesR[k] hgetL hgetR
    (by simp [stereoAfter, hlen]; omega) (by simp [stereoAfter, hlen]; omega) hdefk]
  simp only [stereoAfter, List.take_succ, hgetZ, Option.toList, List.filterMap_append,
    List.map_append, List.map_cons, List.map_nil, Except.ok.injEq, StereoState.mk.injEq,
    true_and]
  refine ⟨?_, ?_, ?_⟩
  · cases hs : stereoSampleOf vis opts patternType charucoboard imageFilenamesL[k]
        imageFilenamesR[k] <;> simp [hs]
  · by_cases hg : (patternType.isGrid
        || (stereoSampleOf vis opts patternType charucoboard imageFilenamesL[k]
            imageFilenamesR[k]).isSome) = true
    · rw [if_pos hg, list_set_flags _ _ _ (hlenA _) hk]
    · rw [if_neg hg, flags_keep _ _ _ hk, stereoFlagsOf_of_no_write vis opts patternType
        charucoboard _ _ hdefk hg]
  · by_cases hg : (patternType.isGrid
        || (stereoSampleOf vis opts patternType charucoboard imageFilenamesL[k]
            imageFilenamesR[k]).isSome) = true
    · rw [if_pos hg, list_set_flags _ _ _ (hlenA _) hkR]
    · rw [if_neg hg, flags_keep _ _ _ hkR, stereoFlagsOf_of_no_write vis opts patternType
        charucoboard _ _ hdefk hg]

/-! ## Mono ChArUco acceptance -/

/-- C11 (the code at the failing input). In the mono ChArUco case a frame that shows one
raw marker (ID `0`, corner `0`) is accepted whatever the interpolation yields: with no
interpolated board corner at all the frame still adds a sample, and with the
interpolated corners `10, 20` of the IDs `1, 2` the sample holds the raw marker corner
`0` and the table entry of the raw marker ID `0`, not the interpolated corners and the
entries of the IDs `1, 2`. -/
theorem monoCharuco_uses_raw_markers :
    ((scriptedMonoVision [] []).interpolateCornersCharuco [0] [0] "left-1.png".toList board3
        = ([], []) ∧
      monoCharucoFrame (scriptedMonoVision [] []) true 0 board3 "left-1.png".toList monoStart
        = .ok { frames := 1, dataset := [.marker [0] [⟨0, 0, 0⟩]]
                chessboardFound := [false] }) ∧
    ((scriptedMonoVision [] [1, 2]).interpolateCornersCharuco [0] [0] "left-1.png".toList board3
        = ([10, 20], [1, 2]) ∧
      monoCharucoFrame (scriptedMonoVision [] [1, 2]) true 0 board3 "left-1.png".toList
          monoStart
        = .ok { frames := 1, dataset := [.marker [0] [⟨0, 0, 0⟩]]
                chessboardFound := [false] } ∧
      calcArucoCornerPositions (fun _ => none) board3.chessboardCorners [1, 2] []
        = .ok [(⟨1, 0, 0⟩ : Point3f Int), ⟨2, 0, 0⟩]) := by
  decide

/-! ## Startup errors -/

/-- C12 (the code at the failing input). With the pattern `charuco` and a
detector-parameter file that cannot be opened, both programs end with `return 0`. -/
theorem unreadable_parameters_return_zero :
    (stereo_calib_main idleVision (unreadableParamsFs (numbered "" ["left_a", "right_a"]))
        (stereoOptions "charuco".toList ⟨9, 6⟩ false)).exit = .returned 0 ∧
    (intrinsic_calib_main (scriptedMonoVision [] [])
        (unreadableParamsFs (numbered "" ["left-a"]))
        (monoOptions "charuco".toList ⟨8, 12⟩)).exit = .returned 0 := by
  decide

/-- In both programs an unreadable detector-parameter file ends the run with `return 0`
whenever the pattern is ChArUco and the earlier startup tests pass. -/
theorem setup_unreadable_parameters {ImgM PM ImgS PS F : Type}
    (visM : Vision ImgM PM PM F) (visS : Vision ImgS PS (List PS) F) (fs : FileSystem)
    (optsM : MonoOptions F) (optsS : StereoOptions F) :
    (optsM.help = false → fs.fsExists optsM.inputDir = true →
      (parseModelType optsM.cameraModel).isSome = true →
      parsePatternType optsM.pattern = some .CHARUCO →
      fs.fileStorageIsOpened optsM.arucoParams = false →
      monoSetup visM fs optsM = .error (.returned 0)) ∧
    (optsS.help = false → fs.fsExists optsS.inputDir = true →
      (parseModelType optsS.cameraModel).isSome = true →
      parsePatternType optsS.pattern = some .CHARUCO →
      fs.fileStorageIsOpened optsS.arucoParams = false →
      stereoSetup visS fs optsS = .error (.returned 0)) := by
  constructor
  · intro h1 h2 h3 h4 h5
    obtain ⟨m, hm⟩ := Option.isSome_iff_exists.mp h3
    simp [monoSetup, h1, h2, hm, h4, h5, readArucoMarkerParameters]
  · intro h1 h2 h3 h4 h5
    obtain ⟨m, hm⟩ := Option.isSome_iff_exists.mp h3
    simp [stereoSetup, h1, h2, hm, h4, h5, readArucoMarkerParameters]

/-- The other startup errors of the two programs do end the run with `return 1`: a
missing input directory, an unknown camera model name, an unknown pattern name, and no
image left by the filters. -/
theorem startup_errors_return_one {ImgM PM ImgS PS F : Type} [FloatOps F]
    (visM : Vision ImgM PM PM F) (visS : Vision ImgS PS (List PS) F) (fs : FileSystem)
    (optsM : MonoOptions F) (optsS : StereoOptions F) :
    ((fs.fsExists optsM.inputDir = false → fs.is_directory optsM.inputDir = false →
        (intrinsic_calib_main visM fs optsM).exit = .returned 1) ∧
      (parseModelType optsM.cameraModel = none →
        (intrinsic_calib_main visM fs optsM).exit = .returned 1) ∧
      (parsePatternType optsM.pattern = none →
        (intrinsic_calib_main visM fs optsM).exit = .returned 1) ∧
      (∀ p entries, monoSetup visM fs optsM = .ok p →
        fs.directory_iterator optsM.inputDir = .ok entries →
        monoEnumerate optsM.inputDir optsM.fileExtension optsM.prefix_ entries = .ok [] →
        (intrinsic_calib_main visM fs optsM).exit = .returned 1)) ∧
    ((fs.fsExists optsS.inputDir = false → fs.is_directory optsS.inputDir = false →
        (stereo_calib_main visS fs optsS).exit = .returned 1) ∧
      (parseModelType optsS.cameraModel = none →
        (stereo_calib_main visS fs optsS).exit = .returned 1) ∧
      (parsePatternType optsS.pattern = none →
        (stereo_calib_main visS fs optsS).exit = .returned 1) ∧
      (∀ p entries L R, stereoSetup visS fs optsS = .ok p →
        fs.directory_iterator optsS.inputDir = .ok entries →
        stereoEnumerate optsS.inputDir optsS.fileExtension optsS.prefixL optsS.prefixR entries
          = .ok (L, R) →
        (L = [] ∨ R = []) →
        (stereo_calib_main visS fs optsS).exit = .returned 1)) := by
  refine ⟨⟨?_, ?_, ?_, ?_⟩, ?_, ?_, ?_, ?_⟩
  · intro h1 h2
    by_cases hh : optsM.help = true <;>
      simp [intrinsic_calib_main, monoSetup, hh, h1, h2, MonoOutcome.early]
  · intro h
    by_cases hh : optsM.help = true <;>
    by_cases hd : (!fs.fsExists optsM.inputDir && !fs.is_directory optsM.inputDir) = true <;>
      simp [intrinsic_calib_main, monoSetup, hh, hd, h, MonoOutcome.early]
  · intro h
    by_cases hh : optsM.help = true <;>
    by_cases hd : (!fs.fsExists optsM.inputDir && !fs.is_directory optsM.inputDir) = true <;>
    cases hm : parseModelType optsM.cameraModel <;>
      simp [intrinsic_calib_main, monoSetup, hh, hd, hm, h, MonoOutcome.early]
  · intro p entries hs hdir henum
    obtain ⟨patternType, charucoboard⟩ := p
    simp [intrinsic_calib_main, hs, monoImages, hdir, henum, MonoOutcome.early]
  · intro h1 h2
    by_cases hh : optsS.help = true <;>
      simp [stereo_calib_main, stereoSetup, hh, h1, h2, StereoOutcome.early]
  · intro h
    by_cases hh : optsS.help = true <;>
    by_cases hd : (!fs.fsExists optsS.inputDir && !fs.is_directory optsS.inputDir) = true <;>
      simp [stereo_calib_main, stereoSetup, hh, hd, h, StereoOutcome.early]
  · intro h
    by_cases hh : optsS.help = true <;>
    by_cases hd : (!fs.fsExists optsS.inputDir && !fs.is_directory optsS.inputDir) = true <;>
    cases hm : parseModelType optsS.cameraModel <;>
      simp [stereo_calib_main, stereoSetup, hh, hd, hm, h, StereoOutcome.early]
  · intro p entries L R hs hdir henum hbad
    obtain ⟨patternType, charucoboard⟩ := p
    have hbad' : L = [] ∨ R = [] ∨ L.length ≠ R.length := by
      rcases hbad with h | h
      · exact Or.inl h
      · exact Or.inr (Or.inl h)
    simp [stereo_calib_main, hs, stereoImages_fail_fast fs optsS entries L R hdir henum hbad',
      StereoOutcome.early]

/-! ## Purity of the board geometry -/

/-- C16. `calcBoardCornerPositions` is a function of the pattern type, the board size and
the square size alone: for every such input the result is the same for any two prior
contents of the output vector, so calling it again on its own output gives the same
sequence as calling it once. -/
theorem calcBoardCornerPositions_pure {F : Type} [FloatOps F] (boardSize : Size)
    (squareSize : F) (patternType : PatternType) (corners₁ corners₂ : List (Point3f F)) :
    calcBoardCornerPositions boardSize squareSize corners₁ patternType
      = calcBoardCornerPositions boardSize squareSize corners₂ patternType ∧
    calcBoardCornerPositions boardSize squareSize
        (calcBoardCornerPositions boardSize squareSize corners₁ patternType) patternType
      = calcBoardCornerPositions boardSize squareSize corners₁ patternType := by
  have h : ∀ c : List (Point3f F),
      calcBoardCornerPositions boardSize squareSize c patternType
        = calcBoardCornerPositions boardSize squareSize [] patternType := by
    intro c
    unfold calcBoardCornerPositions
    simp only [clear]
  exact ⟨(h corners₁).trans (h corners₂).symm, h _⟩

/-! ## The extension filter and the prefix filter -/

/-- On a name at least as long as the extension, the extension test of the directory
loops does not throw, and it is passed exactly when the name ends with the extension. -/
theorem extension_filter_of_long_name (filename fileExtension : CppString)
    (h : fileExtension.length ≤ filename.length) :
    ∃ c, compareAt filename (sizeSub filename.length fileExtension.length)
        fileExtension.length fileExtension = .ok c ∧
      (c = 0 ↔ fileExtension <:+ filename) := by
  refine ⟨strCompare (filename.drop (filename.length - fileExtension.length)) fileExtension,
    ?_, ?_⟩
  · have hs : sizeSub filename.length fileExtension.length
        = filename.length - fileExtension.length := by
      unfold sizeSub
      rw [if_pos h]
    have htake : List.take fileExtension.length
        (List.drop (filename.length - fileExtension.length) filename)
        = List.drop (filename.length - fileExtension.length) filename := by
      apply List.take_of_length_le
      simp
      omega
    simp only [compareAt, substr, hs, bind, Except.bind, pure, Except.pure]
    rw [if_neg (by omega), htake]
  · rw [strCompare_eq_zero_iff, List.suffix_iff_eq_drop]
    exact eq_comm

/-- On a name shorter than the extension, the extension test of the directory loops
throws `std::out_of_range`: the start position `filename.length() - fileExtension.length()`
wraps around to a value beyond the end of the name. -/
theorem extension_filter_of_short_name (filename fileExtension : CppString)
    (h : filename.length < fileExtension.length) (h64 : fileExtension.length < 2 ^ 64) :
    compareAt filename (sizeSub filename.length fileExtension.length)
        fileExtension.length fileExtension = .error .out_of_range := by
  have hs : filename.length < sizeSub filename.length fileExtension.length := by
    unfold sizeSub
    rw [if_neg (by omega)]
    have hlt : filename.length + 2 ^ 64 - fileExtension.length < 2 ^ 64 := by omega
    rw [Nat.mod_eq_of_lt hlt]
    omega
  simp [compareAt, substr, hs, bind, Except.bind]

/-- C18 (the code at the failing input). With the extension `.png`, a regular file named
`x` in the input directory makes the extension test throw `std::out_of_range`, which
nothing catches: the stereo program is terminated, and so is the mono program when its
prefix lets the name through (here the empty prefix); the file is not skipped. -/
theorem extension_filter_throws_on_short_name :
    sizeSub "x".toList.length ".png".toList.length = 2 ^ 64 - 3 ∧
    compareAt "x".toList (sizeSub "x".toList.length ".png".toList.length)
      ".png".toList.length ".png".toList = .error .out_of_range ∧
    stereoEnumerate "images".toList ".png".toList "left".toList "right".toList
      [⟨"left_a.png".toList, true⟩, ⟨"x".toList, true⟩, ⟨"right_a.png".toList, true⟩]
      = .error .out_of_range ∧
    (stereo_calib_main idleVision
        (listedFs ["left_a.png".toList, "x".toList, "right_a.png".toList])
        (stereoOptions "chessboard".toList ⟨9, 6⟩ false)).exit = .uncaught .out_of_range ∧
    monoEnumerate "calibrationdata".toList ".png".toList []
      [⟨"left-a.png".toList, true⟩, ⟨"x".toList, true⟩] = .error .out_of_range ∧
    (intrinsic_calib_main (scriptedMonoVision [] [])
        (listedFs ["left-a.png".toList, "x".toList])
        { monoOptions "chessboard".toList ⟨8, 12⟩ with prefix_ := [] }).exit
      = .uncaught .out_of_range := by
  decide

/-- C19. In the stereo program every file name on the left candidate list is at least as
long as `prefixL` and every file name on the right candidate list at least as long as
`prefixR`, empty prefixes included; hence, on two lists of equal length, the matching
loop over the sorted lists returns a value of `matchImages` and never throws. -/
theorem stereo_candidates_within_range (inputDir fileExtension prefixL prefixR : CppString)
    (entries : List DirEntry) (L R : List CppString)
    (hsep : ∀ e ∈ entries, '/' ∉ e.filename)
    (henum : stereoEnumerate inputDir fileExtension prefixL prefixR entries = .ok (L, R)) :
    (∀ p ∈ L, prefixL.length ≤ (pathFilename p).length) ∧
    (∀ p ∈ R, prefixR.length ≤ (pathFilename p).length) ∧
    (L.length = R.length →
      ∃ matchImages,
        matchFilenames prefixL prefixR (stdSort L) (stdSort R) = .ok matchImages) := by
  obtain ⟨hLs, hRs⟩ := sorted_candidates_long_enough _ _ _ _ _ _ _ hsep henum
  refine ⟨fun p hp => hLs p ((stdSort_perm L).mem_iff.mpr hp),
    fun p hp => hRs p ((stdSort_perm R).mem_iff.mpr hp), ?_⟩
  intro hlen
  have hlens : (stdSort L).length = (stdSort R).length := by
    rw [stdSort_length, stdSort_length, hlen]
  exact ⟨_, matchFilenames_eq prefixL prefixR (stdSort L) (stdSort R) hlens hLs hRs⟩

/-- Witness for C19: the directory `left_a`, `left_b`, `right_a`, `right_b`, once with the
prefixes `left` and `right` and once with an empty left prefix, which puts all four files
on the left list. -/
theorem stereo_candidates_within_range_witness :
    ((∀ p ∈ (numbered "left_" ["b", "a"]).map (entryPath "images".toList),
        "left".toList.length ≤ (pathFilename p).length) ∧
      (∀ p ∈ (numbered "right_" ["b", "a"]).map (entryPath "images".toList),
        "right".toList.length ≤ (pathFilename p).length) ∧
      ((numbered "left_" ["b", "a"]).map (entryPath "images".toList)).length
          = ((numbered "right_" ["b", "a"]).map (entryPath "images".toList)).length ∧
      ∃ matchImages, matchFilenames "left".toList "right".toList
        (stdSort ((numbered "left_" ["b", "a"]).map (entryPath "images".toList)))
        (stdSort ((numbered "right_" ["b", "a"]).map (entryPath "images".toList)))
          = .ok matchImages) ∧
    (∀ p ∈ (numbered "" ["right_b", "left_b", "right_a", "left_a"]).map
        (entryPath "images".toList), ([] : CppString).length ≤ (pathFilename p).length) :=
  have h := stereo_candidates_within_range "images".toList ".png".toList "left".toList
    "right".toList
    ((numbered "" ["right_b", "left_b", "right_a", "left_a"]).map (fun n => ⟨n, true⟩))
    ((numbered "left_" ["b", "a"]).map (entryPath "images".toList))
    ((numbered "right_" ["b", "a"]).map (entryPath "images".toList))
    (by decide) (by decide)
  ⟨⟨h.1, h.2.1, by decide, h.2.2 (by decide)⟩,
   (stereo_candidates_within_range "images".toList ".png".toList [] "right".toList
    ((numbered "" ["right_b", "left_b", "right_a", "left_a"]).map (fun n => ⟨n, true⟩))
    ((numbered "" ["right_b", "left_b", "right_a", "left_a"]).map (entryPath "images".toList))
    ((numbered "right_" ["b", "a"]).map (entryPath "images".toList))
    (by decide) (by decide)).1⟩

/-! ## Grid patterns in the frame loops -/

theorem monoSampleOf_grid {Img P2 F : Type} [FloatOps F] (vis : Vision Img P2 P2 F)
    (opts : MonoOptions F) (patternType : PatternType) (charucoboard : CharucoBoard F)
    (path : CppString) (hgrid : patternType.isGrid = true) :
    monoSampleOf vis opts patternType charucoboard path
      = if (gridDetect vis opts.boardSize opts.useOpenCV patternType (vis.imread path)).1 then
          some (monoGridSample opts.boardSize opts.squareSize patternType
            (gridDetect vis opts.boardSize opts.useOpenCV patternType (vis.imread path)).2)
        else none := by
  cases patternType <;> simp_all [PatternType.isGrid, monoSampleOf]

theorem monoFlagOf_grid {Img P2 F : Type} (vis : Vision Img P2 P2 F)
    (opts : MonoOptions F) (patternType : PatternType) (path : CppString)
    (hgrid : patternType.isGrid = true) :
    monoFlagOf vis opts patternType path
      = (gridDetect vis opts.boardSize opts.useOpenCV patternType (vis.imread path)).1 := by
  cases patternType <;> simp_all [PatternType.isGrid, monoFlagOf]

theorem stereoSampleOf_grid {Img P2 F : Type} [FloatOps F] (vis : Vision Img P2 (List P2) F)
    (opts : StereoOptions F) (patternType : PatternType) (charucoboard : CharucoBoard F)
    (pathL pathR : CppString) (hgrid : patternType.isGrid = true) :
    stereoSampleOf vis opts patternType charucoboard pathL pathR
      = if (gridDetect vis opts.boardSize opts.useOpenCV patternType (vis.imread pathL)).1
            && (gridDetect vis opts.boardSize opts.useOpenCV patternType (vis.imread pathR)).1
        then
          some (stereoGridSample opts.boardSize opts.squareSize patternType
            (gridDetect vis opts.boardSize opts.useOpenCV patternType (vis.imread pathL)).2
            (gridDetect vis opts.boardSize opts.useOpenCV patternType (vis.imread pathR)).2)
        else none := by
  cases patternType <;> simp_all [PatternType.isGrid, stereoSampleOf]

theorem filterMap_ite_eq_map_filter {α β : Type} (q : α → Bool) (f : α → β) (l : List α) :
    l.filterMap (fun x => if q x then some (f x) else none) = (l.filter q).map f := by
  induction l with
  | nil => rfl
  | cons a l ih =>
    by_cases h : q a = true <;> simp [List.filterMap_cons, List.filter_cons, h, ih]

/-- C13. In the stereo pipeline with a grid pattern, for every frame whose two images are
in the lists: the round of the frame loop does not throw; it adds a sample (the sample
count grows by one) if and only if the detection is found on the left and on the right
image; a rejected frame leaves the dataset, hence the sample count, unchanged; and for
the two circle grids the accepted sample holds the left points, the right points and
one 3D grid, that of `calcBoardCornerPositions`, for both sides. -/
theorem stereo_grid_frame {Img P2 F : Type} [FloatOps F] (vis : Vision Img P2 (List P2) F)
    (opts : StereoOptions F) (patternType : PatternType) (charucoboard : CharucoBoard F)
    (imageFilenamesL imageFilenamesR : List CppString) (st : StereoState P2 (Point3f F))
    (k : Nat) (pathL pathR : CppString)
    (hgrid : patternType.isGrid = true)
    (hpathL : imageFilenamesL[k]? = some pathL) (hpathR : imageFilenamesR[k]? = some pathR)
    (hflagL : k < st.chessboardFoundL.length) (hflagR : k < st.chessboardFoundR.length) :
    ∃ st', stereoFrame vis opts patternType charucoboard imageFilenamesL imageFilenamesR st k
        = .ok st' ∧
      (sampleCount st'.dataset = sampleCount st.dataset + 1 ↔
        ((gridDetect vis opts.boardSize opts.useOpenCV patternType (vis.imread pathL)).1 = true ∧
          (gridDetect vis opts.boardSize opts.useOpenCV patternType (vis.imread pathR)).1
            = true)) ∧
      (¬ ((gridDetect vis opts.boardSize opts.useOpenCV patternType (vis.imread pathL)).1 = true ∧
          (gridDetect vis opts.boardSize opts.useOpenCV patternType (vis.imread pathR)).1
            = true) →
        st'.dataset = st.dataset ∧ sampleCount st'.dataset = sampleCount st.dataset) ∧
      (((gridDetect vis opts.boardSize opts.useOpenCV patternType (vis.imread pathL)).1 = true ∧
          (gridDetect vis opts.boardSize opts.useOpenCV patternType (vis.imread pathR)).1
            = true) →
        st'.dataset = st.dataset ++ [stereoGridSample opts.boardSize opts.squareSize patternType
          (gridDetect vis opts.boardSize opts.useOpenCV patternType (vis.imread pathL)).2
          (gridDetect vis opts.boardSize opts.useOpenCV patternType (vis.imread pathR)).2]) ∧
      (patternType ≠ .CHESSBOARD → ∀ pointsL pointsR : List P2,
        stereoGridSample opts.boardSize opts.squareSize patternType pointsL pointsR
          = .corners pointsL pointsR
              (calcBoardCornerPositions opts.boardSize opts.squareSize [] patternType)) := by
  refine ⟨_, stereoFrame_eq vis opts patternType charucoboard imageFilenamesL imageFilenamesR
    st k pathL pathR hpathL hpathR hflagL hflagR
    (stereoReadsDefined_of_ne vis opts patternType charucoboard pathL pathR
      (ne_charuco_of_isGrid hgrid)), ?_, ?_, ?_, ?_⟩
  · rw [stereoSampleOf_grid vis opts patternType charucoboard pathL pathR hgrid]
    by_cases hL : (gridDetect vis opts.boardSize opts.useOpenCV patternType
        (vis.imread pathL)).1 = true <;>
    by_cases hR : (gridDetect vis opts.boardSize opts.useOpenCV patternType
        (vis.imread pathR)).1 = true <;>
      simp [hL, hR, sampleCount]
  · intro hno
    rw [stereoSampleOf_grid vis opts patternType charucoboard pathL pathR hgrid]
    have hcond : ¬ ((gridDetect vis opts.boardSize opts.useOpenCV patternType
          (vis.imread pathL)).1
        && (gridDetect vis opts.boardSize opts.useOpenCV patternType
          (vis.imread pathR)).1) = true := by
      simpa using hno
    simp [hcond]
  · intro hyes
    rw [stereoSampleOf_grid vis opts patternType charucoboard pathL pathR hgrid]
    simp [hyes.1, hyes.2]
  · intro hne pointsL pointsR
    cases patternType <;> simp_all [stereoGridSample]

/-- Witness for C13: a circle-grid frame found on both images is added with one 3D grid,
and the sample count goes from 0 to 1. -/
theorem stereo_grid_frame_witness :
    ∃ st', stereoFrame
        (scriptedVision ["left_a.png".toList, "right_a.png".toList] [] [])
        (stereoOptions "circles_grid".toList ⟨2, 1⟩ false) .CIRCLES_GRID ⟨[]⟩
        ["images/left_a.png".toList] ["images/right_a.png".toList] stereoStart 0 = .ok st' ∧
      st'.dataset = [.corners [] [] [⟨0, 0, 0⟩, ⟨120, 0, 0⟩]] ∧
      sampleCount st'.dataset = sampleCount stereoStart.dataset + 1 :=
  have h := stereo_grid_frame
    (scriptedVision ["left_a.png".toList, "right_a.png".toList] [] [])
    (stereoOptions "circles_grid".toList ⟨2, 1⟩ false) .CIRCLES_GRID ⟨[]⟩
    ["images/left_a.png".toList] ["images/right_a.png".toList] stereoStart 0
    "images/left_a.png".toList "images/right_a.png".toList
    (by decide) (by decide) (by decide) (by decide) (by decide)
  h.elim (fun st' hst => ⟨st', hst.1, hst.2.2.2.1 (by decide),
    hst.2.1.mpr (by decide)⟩)

theorem intrinsic_calib_main_of_frames {Img P2 F : Type} [FloatOps F]
    (vis : Vision Img P2 P2 F) (fs : FileSystem) (opts : MonoOptions F)
    (patternType : PatternType) (charucoboard : CharucoBoard F)
    (imageFilenames : List CppString)
    (hsetup : monoSetup vis fs opts = .ok (patternType, charucoboard))
    (himages : monoImages fs opts = .ok imageFilenames)
    (hdef : ∀ path ∈ imageFilenames,
      monoReadsDefined vis opts patternType charucoboard path) :
    intrinsic_calib_main vis fs opts
      = monoFinish opts.viewResults imageFilenames
          { frames := imageFilenames.length
            dataset := imageFilenames.filterMap
              (monoSampleOf vis opts patternType charucoboard)
            chessboardFound := imageFilenames.map (monoFlagOf vis opts patternType) } := by
  unfold intrinsic_calib_main
  simp only [hsetup, himages,
    monoFrames_eq vis opts patternType charucoboard imageFilenames hdef]

theorem monoFinish_fields {C P3 : Type} (viewResults : Bool) (imageFilenames : List CppString)
    (st : MonoState C P3) :
    (monoFinish viewResults imageFilenames st).dataset = st.dataset ∧
    (monoFinish viewResults imageFilenames st).chessboardFound = st.chessboardFound ∧
    (monoFinish viewResults imageFilenames st).frames = st.frames ∧
    ((monoFinish viewResults imageFilenames st).calibrated = true ↔
      10 ≤ sampleCount st.dataset) ∧
    (sampleCount st.dataset < 10 →
      (monoFinish viewResults imageFilenames st).exit = .returned 1 ∧
      (monoFinish viewResults imageFilenames st).calibrated = false) := by
  unfold monoFinish
  by_cases h : sampleCount st.dataset < 10
  · simp only [h, ↓reduceIte, true_and, implies_true, and_true]
    constructor
    · intro hc
      cases hc
    · intro h10
      omega
  · simp only [h, ↓reduceIte, true_and, true_iff, false_implies, and_true]
    omega

/-- C14. In the mono pipeline with a grid pattern, for every list of images that the
frame loop is run on, the dataset at the end of the run holds exactly the samples of
the frames whose detection was found, in input order, so the sample count is the number
of found frames; the flags are the found flags; the calibration is run if and only if
at least 10 frames were found; and the round of a frame that is not found leaves the
dataset as it was. -/
theorem mono_grid_samples {Img P2 F : Type} [FloatOps F]
    (vis : Vision Img P2 P2 F) (fs : FileSystem) (opts : MonoOptions F)
    (patternType : PatternType) (charucoboard : CharucoBoard F)
    (imageFilenames : List CppString)
    (hgrid : patternType.isGrid = true)
    (hsetup : monoSetup vis fs opts = .ok (patternType, charucoboard))
    (himages : monoImages fs opts = .ok imageFilenames) :
    (intrinsic_calib_main vis fs opts).dataset
      = (imageFilenames.filter (fun p =>
          (gridDetect vis opts.boardSize opts.useOpenCV patternType (vis.imread p)).1)).map
        (fun p => monoGridSample opts.boardSize opts.squareSize patternType
          (gridDetect vis opts.boardSize opts.useOpenCV patternType (vis.imread p)).2) ∧
    sampleCount (intrinsic_calib_main vis fs opts).dataset
      = ((imageFilenames.countP (fun p =>
          (gridDetect vis opts.boardSize opts.useOpenCV patternType (vis.imread p)).1) : Nat)
          : Int) ∧
    (intrinsic_calib_main vis fs opts).chessboardFound
      = imageFilenames.map (fun p =>
          (gridDetect vis opts.boardSize opts.useOpenCV patternType (vis.imread p)).1) ∧
    ((intrinsic_calib_main vis fs opts).calibrated = true ↔
      10 ≤ imageFilenames.countP (fun p =>
          (gridDetect vis opts.boardSize opts.useOpenCV patternType (vis.imread p)).1)) ∧
    (∀ (st : MonoState P2 (Point3f F)) (k : Nat) (path : CppString),
      imageFilenames[k]? = some path → k < st.chessboardFound.length →
      (gridDetect vis opts.boardSize opts.useOpenCV patternType (vis.imread path)).1 = false →
      ∃ st', monoFrame vis opts patternType charucoboard imageFilenames st k = .ok st' ∧
        st'.dataset = st.dataset ∧
        st'.chessboardFound = st.chessboardFound.set k false) := by
  have hmain := intrinsic_calib_main_of_frames vis fs opts patternType charucoboard
    imageFilenames hsetup himages
    (fun path _ => monoReadsDefined_of_ne vis opts patternType charucoboard path
      (ne_charuco_of_isGrid hgrid))
  have hsamples : imageFilenames.filterMap (monoSampleOf vis opts patternType charucoboard)
      = (imageFilenames.filter (fun p =>
          (gridDetect vis opts.boardSize opts.useOpenCV patternType (vis.imread p)).1)).map
        (fun p => monoGridSample opts.boardSize opts.squareSize patternType
          (gridDetect vis opts.boardSize opts.useOpenCV patternType (vis.imread p)).2) := by
    rw [← filterMap_ite_eq_map_filter]
    congr 1
    funext p
    exact monoSampleOf_grid vis opts patternType charucoboard p hgrid
  have hflags : imageFilenames.map (monoFlagOf vis opts patternType)
      = imageFilenames.map (fun p =>
          (gridDetect vis opts.boardSize opts.useOpenCV patternType (vis.imread p)).1) := by
    congr 1
    funext p
    exact monoFlagOf_grid vis opts patternType p hgrid
  obtain ⟨hd, hf, -, hc, -⟩ := monoFinish_fields opts.viewResults imageFilenames
    { frames := imageFilenames.length
      dataset := imageFilenames.filterMap (monoSampleOf vis opts patternType charucoboard)
      chessboardFound := imageFilenames.map (monoFlagOf vis opts patternType) }
  have hcount : sampleCount (imageFilenames.filterMap
        (monoSampleOf vis opts patternType charucoboard))
      = ((imageFilenames.countP (fun p =>
          (gridDetect vis opts.boardSize opts.useOpenCV patternType (vis.imread p)).1) : Nat)
          : Int) := by
    rw [hsamples, sampleCount, List.length_map, List.countP_eq_length_filter]
  rw [hmain]
  refine ⟨hd.trans hsamples, ?_, hf.trans hflags, ?_, ?_⟩
  · rw [hd]
    exact hcount
  · rw [hc, hcount]
    exact Int.ofNat_le
  · intro st k path hpath hflag hnot
    refine ⟨_, monoFrame_eq vis opts patternType charucoboard imageFilenames st k path hpath
      hflag (monoReadsDefined_of_ne vis opts patternType charucoboard path
        (ne_charuco_of_isGrid hgrid)), ?_, ?_⟩
    · simp [monoSampleOf_grid vis opts patternType charucoboard path hgrid, hnot]
    · simp [hgrid, monoFlagOf_grid vis opts patternType path hgrid, hnot]

/-- Witness for C14: twelve chessboard images of which eleven are found give eleven
samples, and the calibration is run. -/
theorem mono_grid_samples_witness :
    sampleCount (intrinsic_calib_main (scriptedMonoVision (numbered "left-" elevenTags) [])
        (listedFs (numbered "left-" twelveTags))
        (monoOptions "chessboard".toList ⟨8, 12⟩)).dataset = 11 ∧
    (intrinsic_calib_main (scriptedMonoVision (numbered "left-" elevenTags) [])
        (listedFs (numbered "left-" twelveTags))
        (monoOptions "chessboard".toList ⟨8, 12⟩)).chessboardFound
      = List.replicate 11 true ++ [false] ∧
    (intrinsic_calib_main (scriptedMonoVision (numbered "left-" elevenTags) [])
        (listedFs (numbered "left-" twelveTags))
        (monoOptions "chessboard".toList ⟨8, 12⟩)).calibrated = true :=
  have h := mono_grid_samples (scriptedMonoVision (numbered "left-" elevenTags) [])
    (listedFs (numbered "left-" twelveTags)) (monoOptions "chessboard".toList ⟨8, 12⟩)
    .CHESSBOARD ⟨[]⟩ ((numbered "left-" twelveTags).map (entryPath "calibrationdata".toList))
    (by decide) (by decide) (by decide)
  ⟨h.2.1.trans (by decide), h.2.2.1.trans (by decide), h.2.2.2.1.mpr (by decide)⟩

/-! ## Lengths of the correspondence sets of grid patterns -/

theorem calcBoardCornerPositions_length {F : Type} [FloatOps F] (patternType : PatternType)
    (hgrid : patternType.isGrid = true) (w h : Nat) (squareSize : F)
    (corners : List (Point3f F)) :
    (calcBoardCornerPositions ⟨(w : Int), (h : Int)⟩ squareSize corners patternType).length
      = h * w := by
  cases patternType <;> simp [PatternType.isGrid] at hgrid <;>
    simp only [calcBoardCornerPositions, clear, forLoop_nested_push, List.nil_append,
      Int.toNat_ofNat] <;>
    exact length_rows h w _

/-- C15. For every grid pattern type and every board size `w x h` with `w ≥ 0` and
`h ≥ 0`, the 3D sequence of `calcBoardCornerPositions` has length exactly `w*h`; hence,
for every grid detection that is found with `w*h` 2D points, the correspondence set
that the mono program emits has as many 2D as 3D points, and so has each side of the
pair that the stereo program emits. -/
theorem grid_correspondence_lengths {ImgM PM ImgS PS F : Type} [FloatOps F]
    (patternType : PatternType) (hgrid : patternType.isGrid = true)
    (w h : Int) (hw : 0 ≤ w) (hh : 0 ≤ h) :
    (∀ (squareSize : F) (corners : List (Point3f F)),
      ((calcBoardCornerPositions ⟨w, h⟩ squareSize corners patternType).length : Int)
        = w * h) ∧
    (∀ (vis : Vision ImgM PM PM F) (opts : MonoOptions F) (charucoboard : CharucoBoard F)
        (path : CppString) (sample : MonoSample PM (Point3f F)),
      opts.boardSize = ⟨w, h⟩ →
      monoSampleOf vis opts patternType charucoboard path = some sample →
      (((gridDetect vis opts.boardSize opts.useOpenCV patternType
          (vis.imread path)).2.length : Int) = w * h) →
      sample.points2D.length = (sample.points3D opts.boardSize opts.squareSize).length) ∧
    (∀ (vis : Vision ImgS PS (List PS) F) (opts : StereoOptions F)
        (charucoboard : CharucoBoard F) (pathL pathR : CppString)
        (sample : StereoSample PS (Point3f F)),
      opts.boardSize = ⟨w, h⟩ →
      stereoSampleOf vis opts patternType charucoboard pathL pathR = some sample →
      (((gridDetect vis opts.boardSize opts.useOpenCV patternType
          (vis.imread pathL)).2.length : Int) = w * h) →
      (((gridDetect vis opts.boardSize opts.useOpenCV patternType
          (vis.imread pathR)).2.length : Int) = w * h) →
      sample.points2DL.length = (sample.points3D opts.boardSize opts.squareSize).length ∧
      sample.points2DR.length = (sample.points3D opts.boardSize opts.squareSize).length) := by
  obtain ⟨w, rfl⟩ := Int.eq_ofNat_of_zero_le hw
  obtain ⟨h, rfl⟩ := Int.eq_ofNat_of_zero_le hh
  have hlen : ∀ (pt : PatternType), pt.isGrid = true →
      ∀ (squareSize : F) (corners : List (Point3f F)),
      ((calcBoardCornerPositions ⟨(w : Int), (h : Int)⟩ squareSize corners pt).length : Int)
        = (w : Int) * (h : Int) := by
    intro pt hpt squareSize corners
    rw [calcBoardCornerPositions_length pt hpt w h squareSize corners]
    push_cast
    ring
  refine ⟨hlen patternType hgrid, ?_, ?_⟩
  · intro vis opts charucoboard path sample hsize hsample hpoints
    rw [monoSampleOf_grid vis opts patternType charucoboard path hgrid] at hsample
    split_ifs at hsample
    cases hsample
    have h3 := hlen patternType hgrid opts.squareSize []
    have hC := hlen .CHESSBOARD rfl opts.squareSize []
    rw [hsize] at hpoints ⊢
    cases patternType <;> simp [PatternType.isGrid] at hgrid <;>
      simp only [monoGridSample, MonoSample.points2D, MonoSample.points3D] <;>
      omega
  · intro vis opts charucoboard pathL pathR sample hsize hsample hpointsL hpointsR
    rw [stereoSampleOf_grid vis opts patternType charucoboard pathL pathR hgrid] at hsample
    split_ifs at hsample
    cases hsample
    have h3 := hlen patternType hgrid opts.squareSize []
    have hC := hlen .CHESSBOARD rfl opts.squareSize []
    rw [hsize] at hpointsL hpointsR ⊢
    cases patternType <;> simp [PatternType.isGrid] at hgrid <;>
      simp only [stereoGridSample, StereoSample.points2DL, StereoSample.points2DR,
        StereoSample.points3D] <;>
      omega

/-- Witness for C15: the circle grid of a 3 x 2 board has 6 points. -/
theorem grid_correspondence_lengths_witness :
    ((calcBoardCornerPositions ⟨3, 2⟩ (5 : Int) [⟨9, 9, 9⟩] .CIRCLES_GRID).length : Int)
      = 3 * 2 :=
  (@grid_correspondence_lengths CppString Int CppString Int Int _ .CIRCLES_GRID (by decide)
    3 2 (by decide) (by decide)).1 5
    [⟨9, 9, 9⟩]

/-! ## Found flags and accepted samples -/

/-- In the mono program, for every pattern type but ChArUco, the number of frames whose
found flag is set after the frame loop is the number of samples in the dataset. -/
theorem mono_flags_count {Img P2 F : Type} [FloatOps F] (vis : Vision Img P2 P2 F)
    (opts : MonoOptions F) (patternType : PatternType) (charucoboard : CharucoBoard F)
    (imageFilenames : List CppString) (hpt : patternType ≠ .CHARUCO) :
    ∃ st, monoFrames vis opts patternType charucoboard imageFilenames = .ok st ∧
      st.chessboardFound.countP (fun flag => flag) = st.dataset.length := by
  refine ⟨_, monoFrames_eq vis opts patternType charucoboard imageFilenames
    (fun path _ => monoReadsDefined_of_ne vis opts patternType charucoboard path hpt), ?_⟩
  simp only [List.countP_map, length_filterMap_eq_countP]
  congr 1
  funext p
  by_cases hg : patternType.isGrid = true
  · simp only [Function.comp, monoFlagOf_grid vis opts patternType p hg,
      monoSampleOf_grid vis opts patternType charucoboard p hg]
    split_ifs <;> simp_all
  · cases patternType <;> simp_all [PatternType.isGrid, monoFlagOf, monoSampleOf]

/-- In the stereo program, for every pattern type, when the table reads are defined, the
number of frames whose two found flags are both set after the frame loop is the number
of samples in the dataset. -/
theorem stereo_flags_count {Img P2 F : Type} [FloatOps F] (vis : Vision Img P2 (List P2) F)
    (opts : StereoOptions F) (patternType : PatternType) (charucoboard : CharucoBoard F)
    (imageFilenamesL imageFilenamesR : List CppString)
    (hlen : imageFilenamesL.length = imageFilenamesR.length)
    (hdef : ∀ pair ∈ imageFilenamesL.zip imageFilenamesR,
      stereoReadsDefined vis opts patternType charucoboard pair.1 pair.2) :
    ∃ st, stereoFrames vis opts patternType charucoboard imageFilenamesL imageFilenamesR
        = .ok st ∧
      (st.chessboardFoundL.zip st.chessboardFoundR).countP (fun flags => flags.1 && flags.2)
        = st.dataset.length := by
  refine ⟨_, stereoFrames_eq vis opts patternType charucoboard imageFilenamesL
    imageFilenamesR hlen hdef, ?_⟩
  simp only [List.zip_map', List.countP_map, length_filterMap_eq_countP]
  apply List.countP_congr
  intro pair hpair
  have hdefp := hdef pair hpair
  by_cases hg : patternType.isGrid = true
  · simp only [Function.comp,
      stereoSampleOf_grid vis opts patternType charucoboard pair.1 pair.2 hg]
    cases patternType <;> simp [PatternType.isGrid] at hg <;>
      simp only [stereoFlagsOf] <;> split_ifs <;> simp_all
  · cases patternType <;> simp [PatternType.isGrid] at hg
    · simp [stereoFlagsOf, stereoSampleOf]
    · obtain ⟨objectPoints, hpts⟩ := hdefp rfl
      simp only [Function.comp, stereoFlagsOf, stereoSampleOf, hpts]
      split_ifs <;> simp_all

/-- C17 (the code at the failing input). In a mono ChArUco run over ten images that each
show a raw marker, every frame adds a sample and the calibration is run on ten samples,
yet no found flag is set: the number of frames with a set flag is 0, not 10, and the
result viewer selects no image for a dataset of ten samples. -/
theorem monoCharuco_flags_never_set :
    sampleCount monoCharucoRun.dataset = 10 ∧
    monoCharucoRun.calibrated = true ∧
    monoCharucoRun.chessboardFound = List.replicate 10 false ∧
    monoCharucoRun.chessboardFound.countP (fun flag => flag) = 0 ∧
    monoCharucoRun.cbImageFilenames = [] := by
  decide

/-! ## The ArUco pattern -/

theorem monoSetup_aruco {Img P2 F : Type} (vis : Vision Img P2 P2 F) (fs : FileSystem)
    (opts : MonoOptions F) (h : parsePatternType opts.pattern = some .ARUCO) :
    monoSetup vis fs opts = .error (.returned 1) ∨
      monoSetup vis fs opts = .ok (.ARUCO, ⟨[]⟩) := by
  unfold monoSetup
  by_cases hh : opts.help = true <;>
  by_cases hd : (!fs.fsExists opts.inputDir && !fs.is_directory opts.inputDir) = true <;>
  cases hm : parseModelType opts.cameraModel <;>
    simp [hh, hd, h]

theorem stereoSetup_aruco {Img P2 F : Type} (vis : Vision Img P2 (List P2) F)
    (fs : FileSystem) (opts : StereoOptions F)
    (h : parsePatternType opts.pattern = some .ARUCO) :
    stereoSetup vis fs opts = .error (.returned 1) ∨
      stereoSetup vis fs opts = .ok (.ARUCO, ⟨[]⟩) := by
  unfold stereoSetup
  by_cases hh : opts.help = true <;>
  by_cases hd : (!fs.fsExists opts.inputDir && !fs.is_directory opts.inputDir) = true <;>
  cases hm : parseModelType opts.cameraModel <;>
    simp [hh, hd, h]

theorem monoImages_error {F : Type} (fs : FileSystem) (opts : MonoOptions F) (e : Exit)
    (h : monoImages fs opts = .error e) : e ≠ .returned 0 := by
  unfold monoImages at h
  split at h
  · cases h
    simp
  · split at h
    · cases h
      simp
    · split_ifs at h
      cases h
      simp

theorem filterMap_none {α β : Type} (l : List α) (f : α → Option β)
    (h : ∀ x, f x = none) : l.filterMap f = [] := by
  induction l with
  | nil => rfl
  | cons a l ih => simp [List.filterMap_cons, h a, ih]

/-- The lists that `stereoImages` hands to the frame loop have the same length, and its
ways of ending the run are `return 1` and an uncaught exception. -/
theorem stereoImages_result {F : Type} (fs : FileSystem) (opts : StereoOptions F) :
    (∀ L R, stereoImages fs opts = .ok (L, R) → L.length = R.length) ∧
    (∀ e, stereoImages fs opts = .error e → e ≠ .returned 0) := by
  unfold stereoImages
  constructor
  · intro L R h
    split at h
    · cases h
    · split at h
      · cases h
      · split_ifs at h with h1 h2
        dsimp only at h
        split at h
        · cases h
        · split_ifs at h
          cases h
          rw [stdSort_length, stdSort_length]
          exact not_not.mp h2
  · intro e h
    split at h
    · cases h
      simp
    · split at h
      · cases h
        simp
      · split_ifs at h with h1 h2
        · cases h
          simp
        · cases h
          simp
        · dsimp only at h
          split at h
          · cases h
            simp
          · split_ifs at h
            cases h
            simp

/-- C20 (counterexample). ArUco runs that do not end with the insufficient-samples error.
On an empty input directory both programs end at the test for images after the
enumeration, with `return 1` before the frame loop and the sample gate; on a directory
whose only file has a name shorter than the extension, the stereo program ends with an
uncaught `std::out_of_range`, which is no return status at all. -/
theorem aruco_run_ends_before_gate :
    (monoImages (listedFs []) (monoOptions "aruco".toList ⟨8, 12⟩) = .error (.returned 1) ∧
      intrinsic_calib_main (scriptedMonoVision [] []) (listedFs [])
          (monoOptions "aruco".toList ⟨8, 12⟩)
        = MonoOutcome.early (.returned 1)) ∧
    (stereoImages (listedFs []) (stereoOptions "aruco".toList ⟨9, 6⟩ false)
        = .error (.returned 1) ∧
      stereo_calib_main idleVision (listedFs []) (stereoOptions "aruco".toList ⟨9, 6⟩ false)
        = StereoOutcome.early (.returned 1)) ∧
    (stereoImages (listedFs ["x".toList]) (stereoOptions "aruco".toList ⟨9, 6⟩ false)
        = .error (.uncaught .out_of_range) ∧
      (stereo_calib_main idleVision (listedFs ["x".toList])
          (stereoOptions "aruco".toList ⟨9, 6⟩ false)).exit
        = .uncaught .out_of_range) := by
  decide

/-- C20 (amended). With the pattern ArUco, in the mono and in the stereo program and for
every directory of input images: the dataset at the end of the run is empty, every found
flag is false, the calibration is not run and the run does not end with status 0; and
whenever the run gets to the frame loop, it goes through all frames and ends at the
sample gate with `return 1`. -/
theorem aruco_never_accepts {ImgM PM ImgS PS F : Type} [FloatOps F]
    (visM : Vision ImgM PM PM F) (fsM : FileSystem) (optsM : MonoOptions F)
    (visS : Vision ImgS PS (List PS) F) (fsS : FileSystem) (optsS : StereoOptions F)
    (hM : parsePatternType optsM.pattern = some .ARUCO)
    (hS : parsePatternType optsS.pattern = some .ARUCO) :
    ((intrinsic_calib_main visM fsM optsM).dataset = [] ∧
      (∀ flag ∈ (intrinsic_calib_main visM fsM optsM).chessboardFound, flag = false) ∧
      (intrinsic_calib_main visM fsM optsM).calibrated = false ∧
      (intrinsic_calib_main visM fsM optsM).exit ≠ .returned 0 ∧
      (∀ p imageFilenames, monoSetup visM fsM optsM = .ok p →
        monoImages fsM optsM = .ok imageFilenames →
        (intrinsic_calib_main visM fsM optsM).exit = .returned 1 ∧
        (intrinsic_calib_main visM fsM optsM).frames = imageFilenames.length)) ∧
    ((stereo_calib_main visS fsS optsS).dataset = [] ∧
      (∀ flag ∈ (stereo_calib_main visS fsS optsS).chessboardFoundL, flag = false) ∧
      (∀ flag ∈ (stereo_calib_main visS fsS optsS).chessboardFoundR, flag = false) ∧
      (stereo_calib_main visS fsS optsS).calibrated = false ∧
      (stereo_calib_main visS fsS optsS).exit ≠ .returned 0 ∧
      (∀ p imageFilenamesL imageFilenamesR, stereoSetup visS fsS optsS = .ok p →
        stereoImages fsS optsS = .ok (imageFilenamesL, imageFilenamesR) →
        (stereo_calib_main visS fsS optsS).exit = .returned 1 ∧
        (stereo_calib_main visS fsS optsS).frames = imageFilenamesL.length)) := by
  constructor
  · rcases monoSetup_aruco visM fsM optsM hM with hs | hs
    · simp [intrinsic_calib_main, hs, MonoOutcome.early]
    · cases hi : monoImages fsM optsM with
      | error e =>
        have he := monoImages_error fsM optsM e hi
        simp [intrinsic_calib_main, hs, hi, MonoOutcome.early, he]
      | ok imageFilenames =>
        have hnone : imageFilenames.filterMap (monoSampleOf visM optsM .ARUCO ⟨[]⟩) = [] :=
          filterMap_none _ _ (fun _ => rfl)
        have hflags : ∀ flag ∈ imageFilenames.map (monoFlagOf visM optsM .ARUCO),
            flag = false := by
          intro flag hflag
          obtain ⟨p, -, rfl⟩ := List.mem_map.mp hflag
          rfl
        rw [intrinsic_calib_main_of_frames visM fsM optsM .ARUCO ⟨[]⟩ imageFilenames hs hi
          (fun path _ => monoReadsDefined_of_ne visM optsM .ARUCO ⟨[]⟩ path (by decide)),
          hnone]
        refine ⟨rfl, hflags, rfl, ?_, ?_⟩
        · simp [monoFinish, sampleCount]
        · intro p files hp hfiles
          cases hfiles
          exact ⟨rfl, rfl⟩
  · rcases stereoSetup_aruco visS fsS optsS hS with hs | hs
    · simp [stereo_calib_main, hs, StereoOutcome.early]
    · cases hi : stereoImages fsS optsS with
      | error e =>
        have he := (stereoImages_result fsS optsS).2 e hi
        simp [stereo_calib_main, hs, hi, StereoOutcome.early, he]
      | ok lists =>
        obtain ⟨imageFilenamesL, imageFilenamesR⟩ := lists
        have hlen := (stereoImages_result fsS optsS).1 _ _ hi
        have hnone : (imageFilenamesL.zip imageFilenamesR).filterMap
            (fun pair => stereoSampleOf visS optsS .ARUCO ⟨[]⟩ pair.1 pair.2) = [] :=
          filterMap_none _ _ (fun _ => rfl)
        have hflagsL : ∀ flag ∈ (imageFilenamesL.zip imageFilenamesR).map
            (fun pair => (stereoFlagsOf visS optsS .ARUCO ⟨[]⟩ pair.1 pair.2).1),
            flag = false := by
          intro flag hflag
          obtain ⟨p, -, rfl⟩ := List.mem_map.mp hflag
          rfl
        have hflagsR : ∀ flag ∈ (imageFilenamesL.zip imageFilenamesR).map
            (fun pair => (stereoFlagsOf visS optsS .ARUCO ⟨[]⟩ pair.1 pair.2).2),
            flag = false := by
          intro flag hflag
          obtain ⟨p, -, rfl⟩ := List.mem_map.mp hflag
          rfl
        have hmain : stereo_calib_main visS fsS optsS
            = stereoFinish optsS.viewResults imageFilenamesL imageFilenamesR
                { frames := imageFilenamesL.length
                  dataset := []
                  chessboardFoundL := (imageFilenamesL.zip imageFilenamesR).map
                    (fun pair => (stereoFlagsOf visS optsS .ARUCO ⟨[]⟩ pair.1 pair.2).1)
                  chessboardFoundR := (imageFilenamesL.zip imageFilenamesR).map
                    (fun pair => (stereoFlagsOf visS optsS .ARUCO ⟨[]⟩ pair.1 pair.2).2) } := by
          unfold stereo_calib_main
          simp only [hs, hi,
            stereoFrames_eq visS optsS .ARUCO ⟨[]⟩ imageFilenamesL imageFilenamesR hlen
              (fun pair _ => stereoReadsDefined_of_ne visS optsS .ARUCO ⟨[]⟩ pair.1 pair.2
                (by decide)), hnone]
        rw [hmain]
        refine ⟨rfl, hflagsL, hflagsR, rfl, ?_, ?_⟩
        · simp [stereoFinish, sampleCount]
        · intro p filesL filesR hp hfiles
          cases hfiles
          exact ⟨rfl, rfl⟩

/-- Witness for C20: an ArUco run of each program over ten images (ten image pairs) that
all show markers goes through its ten frames and ends with `return 1`, the dataset
empty and the calibration not run. -/
theorem aruco_never_accepts_witness :
    ((intrinsic_calib_main (scriptedMonoVision (numbered "left-" tenTags) [0, 1])
          (listedFs (numbered "left-" tenTags)) (monoOptions "aruco".toList ⟨8, 12⟩)).dataset
        = [] ∧
      (intrinsic_calib_main (scriptedMonoVision (numbered "left-" tenTags) [0, 1])
          (listedFs (numbered "left-" tenTags)) (monoOptions "aruco".toList ⟨8, 12⟩)).exit
        = .returned 1 ∧
      (intrinsic_calib_main (scriptedMonoVision (numbered "left-" tenTags) [0, 1])
          (listedFs (numbered "left-" tenTags)) (monoOptions "aruco".toList ⟨8, 12⟩)).frames
        = 10) ∧
    ((stereo_calib_main (scriptedVision [] [0, 1] [0, 1])
          (listedFs (numbered "left_" tenTags ++ numbered "right_" tenTags))
          (stereoOptions "aruco".toList ⟨9, 6⟩ false)).dataset = [] ∧
      (stereo_calib_main (scriptedVision [] [0, 1] [0, 1])
          (listedFs (numbered "left_" tenTags ++ numbered "right_" tenTags))
          (stereoOptions "aruco".toList ⟨9, 6⟩ false)).exit = .returned 1 ∧
      (stereo_calib_main (scriptedVision [] [0, 1] [0, 1])
          (listedFs (numbered "left_" tenTags ++ numbered "right_" tenTags))
          (stereoOptions "aruco".toList ⟨9, 6⟩ false)).frames = 10) :=
  have h := aruco_never_accepts (scriptedMonoVision (numbered "left-" tenTags) [0, 1])
    (listedFs (numbered "left-" tenTags)) (monoOptions "aruco".toList ⟨8, 12⟩)
    (scriptedVision [] [0, 1] [0, 1])
    (listedFs (numbered "left_" tenTags ++ numbered "right_" tenTags))
    (stereoOptions "aruco".toList ⟨9, 6⟩ false) (by decide) (by decide)
  have hm := h.1.2.2.2.2 (.ARUCO, ⟨[]⟩)
    ((numbered "left-" tenTags).map (entryPath "calibrationdata".toList))
    (by decide) (by decide)
  have hs := h.2.2.2.2.2.2 (.ARUCO, ⟨[]⟩)
    ((numbered "left_" tenTags).map (entryPath "images".toList))
    ((numbered "right_" tenTags).map (entryPath "images".toList))
    (by decide) (by decide)
  ⟨⟨h.1.1, hm.1, hm.2.trans (by decide)⟩, ⟨h.2.1, hs.1, hs.2.trans (by decide)⟩⟩

/-! ## Stereo ChArUco: acceptance and the pair handed to the dataset -/

/-- The ChArUco round of the stereo frame loop in closed form, `charuco` being the
interpolated corners and IDs of the two images: a frame that passes the acceptance test
sets both flags and adds the pair with the 3D points of the lookup, unless the lookup
ends in a memory fault; a frame that does not pass changes nothing. -/
theorem stereoFrame_charuco {Img P2 F : Type} [FloatOps F] (vis : Vision Img P2 (List P2) F)
    (opts : StereoOptions F) (charucoboard : CharucoBoard F)
    (imageFilenamesL imageFilenamesR : List CppString) (st : StereoState P2 (Point3f F))
    (k : Nat) (pathL pathR : CppString)
    (hpathL : imageFilenamesL[k]? = some pathL) (hpathR : imageFilenamesR[k]? = some pathR)
    (hflagL : k < st.chessboardFoundL.length) (hflagR : k < st.chessboardFoundR.length)
    (charuco : (List P2 × List Int) × (List P2 × List Int))
    (hcharuco : charuco = stereoInterpolated vis opts.dictionaryId charucoboard
      (vis.imread pathL) (vis.imread pathR)) :
    stereoFrame vis opts .CHARUCO charucoboard imageFilenamesL imageFilenamesR st k
      = if stereoCharucoAccepted opts.boardSize charuco.1.2 charuco.2.2 then
          match calcArucoCornerPositions vis.oob charucoboard.chessboardCorners
              charuco.1.2 [] with
          | .ok objectPoints =>
            .ok { frames := st.frames + 1
                  dataset := st.dataset ++ [.corners charuco.1.1 charuco.2.1 objectPoints]
                  chessboardFoundL := st.chessboardFoundL.set k true
                  chessboardFoundR := st.chessboardFoundR.set k true }
          | .error e => .error e
        else .ok { st with frames := st.frames + 1 } := by
  subst hcharuco
  unfold stereoFrame
  simp only [vecAtChecked, hpathL, hpathR, stereoCharucoFrame, stereoInterpolated,
    vecSetChecked, hflagL, hflagR, bind, Except.bind, pure, Except.pure, ↓reduceIte]
  split_ifs <;> simp_all <;> split <;> simp_all

/-- A lookup that returns has read one point per ID. -/
theorem calcArucoCornerPositions_ok_length {P : Type} (oob : Int → Option P)
    (chessboardCorners : List P) (corners_id : List Int) (objectPoints result : List P)
    (h : calcArucoCornerPositions oob chessboardCorners corners_id objectPoints = .ok result) :
    result.length = corners_id.length := by
  rw [calcArucoCornerPositions_eq] at h
  split_ifs at h with hall
  rw [List.all_eq_true] at hall
  cases h
  rw [length_filterMap_eq_countP, List.countP_eq_length.mpr]
  exact hall

/-- For a board size with positive fields whose count `boardSize.width * boardSize.height`
fits in `int`, the count that the acceptance test compares with is that product, and at
least one. -/
theorem board_count (w h : Int) (hw : 1 ≤ w) (hh : 1 ≤ h) (hfit : w * h < 2 ^ 31) :
    ((toSizeT (toInt32 (w * h)) : Nat) : Int) = w * h ∧ 1 ≤ toSizeT (toInt32 (w * h)) := by
  have hpos : 1 ≤ w * h := by nlinarith
  obtain ⟨n, hn⟩ := Int.eq_ofNat_of_zero_le (show 0 ≤ w * h by omega)
  have hn31 : n < 2 ^ 31 := by omega
  rw [hn, toSizeT_toInt32_of_lt n hn31]
  omega

/-- Two ID lists that are ascending, lie in `[0, n)` and both have `n` entries are the
same list. -/
theorem ids_eq_of_ascending (n : Nat) (idsL idsR : List Int)
    (hLs : idsL.Pairwise (fun a b => a < b)) (hRs : idsR.Pairwise (fun a b => a < b))
    (hLr : ∀ id ∈ idsL, 0 ≤ id ∧ id < (n : Int)) (hRr : ∀ id ∈ idsR, 0 ≤ id ∧ id < (n : Int))
    (hL : idsL.length = n) (hR : idsR.length = n) : idsL = idsR := by
  have hLnd : idsL.Nodup := hLs.imp (fun h => ne_of_lt h)
  have hRnd : idsR.Nodup := hRs.imp (fun h => ne_of_lt h)
  have hperm : idsL.Perm idsR := by
    rw [List.perm_ext_iff_of_nodup hLnd hRnd]
    intro id
    rw [ids_full_of_nodup n idsL hLnd hLr hL, ids_full_of_nodup n idsR hRnd hRr hR]
  exact List.eq_of_perm_of_sorted hperm hLs hRs

/-- Under the contract of the interpolation, the interpolated corners and IDs of a stereo
frame satisfy it on both sides, also when the interpolation is skipped. -/
theorem stereoInterpolated_contract {Img P2 F : Type} (vis : Vision Img P2 (List P2) F)
    (dictionaryId : Int) (charucoboard : CharucoBoard F) (imageL imageR : Img)
    (hlib : ∀ corners ids image,
      InterpolationContract charucoboard.chessboardCorners.length
        (vis.interpolateCornersCharuco corners ids image charucoboard)) :
    InterpolationContract charucoboard.chessboardCorners.length
        (stereoInterpolated vis dictionaryId charucoboard imageL imageR).1 ∧
      InterpolationContract charucoboard.chessboardCorners.length
        (stereoInterpolated vis dictionaryId charucoboard imageL imageR).2 := by
  unfold stereoInterpolated
  dsimp only
  split_ifs
  · exact ⟨hlib _ _ _, hlib _ _ _⟩
  · simp [InterpolationContract]

theorem stereoInterpolated_of_no_marker {Img P2 F : Type} (vis : Vision Img P2 (List P2) F)
    (dictionaryId : Int) (charucoboard : CharucoBoard F) (imageL imageR : Img)
    (h : (vis.refineDetectedMarkers imageL charucoboard
          (vis.detectMarkers imageL dictionaryId)).ids = [] ∨
        (vis.detectMarkers imageR dictionaryId).ids = []) :
    stereoInterpolated vis dictionaryId charucoboard imageL imageR = (([], []), ([], [])) := by
  unfold stereoInterpolated
  rcases h with h | h <;> simp [h]

theorem stereoCharucoAccepted_nil (boardSize : Size)
    (h : 1 ≤ toSizeT (toInt32 (boardSize.width * boardSize.height))) :
    stereoCharucoAccepted boardSize [] [] = false := by
  unfold stereoCharucoAccepted
  have hne : ¬ (0 = toSizeT (toInt32 (boardSize.width * boardSize.height))) := by omega
  simp [hne]

/-- C5 (amended). In the stereo ChArUco path, for every board whose corner count
`boardWidth*boardHeight` fits in `int`, and every frame, the interpolation delivering IDs of
the board's corners in ascending order: the round returns, and the frame is accepted into
the dataset if and only if the interpolated ID set of the left image equals, as a set,
that of the right image and its size equals `boardWidth*boardHeight`; a frame that is not
accepted leaves the dataset and both found flags as they were.  The acceptance test itself
passes for left IDs `2, 5, 7` with right IDs `2, 5, 7` and count 3, and fails for right IDs
`2, 5`. -/
theorem stereo_charuco_accepted_iff {Img P2 F : Type} [FloatOps F]
    (vis : Vision Img P2 (List P2) F) (opts : StereoOptions F) (charucoboard : CharucoBoard F)
    (hfit : opts.boardSize.width * opts.boardSize.height < 2 ^ 31)
    (htable : (charucoboard.chessboardCorners.length : Int)
      = opts.boardSize.width * opts.boardSize.height)
    (hlib : ∀ corners ids image,
      InterpolationContract charucoboard.chessboardCorners.length
        (vis.interpolateCornersCharuco corners ids image charucoboard))
    (imageFilenamesL imageFilenamesR : List CppString) (st : StereoState P2 (Point3f F))
    (k : Nat) (pathL pathR : CppString)
    (hpathL : imageFilenamesL[k]? = some pathL) (hpathR : imageFilenamesR[k]? = some pathR)
    (hflagL : k < st.chessboardFoundL.length) (hflagR : k < st.chessboardFoundR.length)
    (charuco : (List P2 × List Int) × (List P2 × List Int))
    (hcharuco : charuco = stereoInterpolated vis opts.dictionaryId charucoboard
      (vis.imread pathL) (vis.imread pathR)) :
    (∃ st', stereoFrame vis opts .CHARUCO charucoboard imageFilenamesL imageFilenamesR st k
        = .ok st' ∧
      ((∃ sample, st'.dataset = st.dataset ++ [sample]) ↔
        ((∀ id, id ∈ charuco.1.2 ↔ id ∈ charuco.2.2) ∧
          (charuco.1.2.length : Int) = opts.boardSize.width * opts.boardSize.height)) ∧
      (¬ (∃ sample, st'.dataset = st.dataset ++ [sample]) →
        st'.dataset = st.dataset ∧ st'.chessboardFoundL = st.chessboardFoundL ∧
          st'.chessboardFoundR = st.chessboardFoundR)) ∧
    (stereoCharucoAccepted ⟨3, 1⟩ [2, 5, 7] [2, 5, 7] = true ∧
      stereoCharucoAccepted ⟨3, 1⟩ [2, 5, 7] [2, 5] = false) := by
  refine ⟨?_, by decide⟩
  obtain ⟨⟨hLs, hLr, -⟩, ⟨hRs, hRr, -⟩⟩ := stereoInterpolated_contract vis opts.dictionaryId
    charucoboard (vis.imread pathL) (vis.imread pathR) hlib
  rw [← hcharuco] at hLs hLr hRs hRr
  have hn31 : charucoboard.chessboardCorners.length < 2 ^ 31 := by omega
  have hiff := stereoCharucoAccepted_iff_of_valid_ids opts.boardSize
    charucoboard.chessboardCorners.length htable.symm hn31 charuco.1.2 charuco.2.2
    (hLs.imp (fun h => ne_of_lt h)) (hRs.imp (fun h => ne_of_lt h)) hLr hRr
  have hcount : (charuco.1.2.length = charucoboard.chessboardCorners.length) ↔
      (charuco.1.2.length : Int) = opts.boardSize.width * opts.boardSize.height := by
    rw [← htable]
    exact Int.ofNat_inj.symm
  obtain ⟨hok, -⟩ := calcArucoCornerPositions_of_valid vis.oob charucoboard.chessboardCorners
    charuco.1.2 [] hLr
  rw [stereoFrame_charuco vis opts charucoboard imageFilenamesL imageFilenamesR st k pathL pathR
    hpathL hpathR hflagL hflagR charuco hcharuco]
  by_cases hacc : stereoCharucoAccepted opts.boardSize charuco.1.2 charuco.2.2 = true
  · rw [if_pos hacc, hok]
    refine ⟨_, rfl, ?_, ?_⟩
    · constructor
      · intro _
        exact ⟨(hiff.mp hacc).1, hcount.mp (hiff.mp hacc).2⟩
      · intro _
        exact ⟨_, rfl⟩
    · intro hno
      exact absurd ⟨_, rfl⟩ hno
  · rw [if_neg hacc]
    have hnot : ¬ ∃ sample : StereoSample P2 (Point3f F), st.dataset = st.dataset ++ [sample] := by
      rintro ⟨sample, hs⟩
      have := congrArg List.length hs
      simp at this
    refine ⟨_, rfl, ?_, ?_⟩
    · constructor
      · intro h
        exact absurd h hnot
      · rintro ⟨hmem, hlen⟩
        exact absurd (hiff.mpr ⟨hmem, hcount.mpr hlen⟩) hacc
    · intro _
      exact ⟨rfl, rfl, rfl⟩

/-- C6 (amended). For every board whose corner count `boardWidth*boardHeight` fits in `int`
and every stereo ChArUco frame that passes the acceptance test, the interpolation
delivering IDs of the board's corners in ascending order with one 2D corner per ID: the
round returns and hands the dataset one pair with a single 3D sequence shared by the two
sides; each side's 2D sequence has the length of that 3D sequence; and at every index `i`
the 3D point is the board corner of the ID at index `i` on the left and of the ID at index
`i` on the right. -/
theorem stereo_charuco_pair_aligned {Img P2 F : Type} [FloatOps F]
    (vis : Vision Img P2 (List P2) F) (opts : StereoOptions F) (charucoboard : CharucoBoard F)
    (hfit : opts.boardSize.width * opts.boardSize.height < 2 ^ 31)
    (htable : (charucoboard.chessboardCorners.length : Int)
      = opts.boardSize.width * opts.boardSize.height)
    (hlib : ∀ corners ids image,
      InterpolationContract charucoboard.chessboardCorners.length
        (vis.interpolateCornersCharuco corners ids image charucoboard))
    (imageFilenamesL imageFilenamesR : List CppString) (st : StereoState P2 (Point3f F))
    (k : Nat) (pathL pathR : CppString)
    (hpathL : imageFilenamesL[k]? = some pathL) (hpathR : imageFilenamesR[k]? = some pathR)
    (hflagL : k < st.chessboardFoundL.length) (hflagR : k < st.chessboardFoundR.length)
    (charuco : (List P2 × List Int) × (List P2 × List Int))
    (hcharuco : charuco = stereoInterpolated vis opts.dictionaryId charucoboard
      (vis.imread pathL) (vis.imread pathR))
    (hacc : stereoCharucoAccepted opts.boardSize charuco.1.2 charuco.2.2 = true) :
    ∃ st' objectPoints,
      stereoFrame vis opts .CHARUCO charucoboard imageFilenamesL imageFilenamesR st k
        = .ok st' ∧
      st'.dataset = st.dataset ++ [.corners charuco.1.1 charuco.2.1 objectPoints] ∧
      charuco.1.1.length = objectPoints.length ∧
      charuco.2.1.length = objectPoints.length ∧
      ∀ i, i < objectPoints.length → ∃ idL idR p,
        charuco.1.2[i]? = some idL ∧ charuco.2.2[i]? = some idR ∧
        objectPoints[i]? = some p ∧
        charucoboard.chessboardCorners[idL.toNat]? = some p ∧
        charucoboard.chessboardCorners[idR.toNat]? = some p := by
  obtain ⟨⟨hLs, hLr, hLc⟩, ⟨hRs, hRr, hRc⟩⟩ := stereoInterpolated_contract vis
    opts.dictionaryId charucoboard (vis.imread pathL) (vis.imread pathR) hlib
  rw [← hcharuco] at hLs hLr hLc hRs hRr hRc
  have hn31 : charucoboard.chessboardCorners.length < 2 ^ 31 := by omega
  have hsz : toSizeT (toInt32 (opts.boardSize.width * opts.boardSize.height))
      = charucoboard.chessboardCorners.length := by
    rw [← htable]
    exact toSizeT_toInt32_of_lt _ hn31
  have hacc' := hacc
  unfold stereoCharucoAccepted at hacc'
  rw [hsz] at hacc'
  simp only [Bool.and_eq_true, beq_iff_eq] at hacc'
  obtain ⟨hlenL, hlenLR⟩ := hacc'
  have hids : charuco.1.2 = charuco.2.2 :=
    ids_eq_of_ascending charucoboard.chessboardCorners.length charuco.1.2 charuco.2.2
      hLs hRs hLr hRr hlenL (hlenLR ▸ hlenL)
  obtain ⟨hok, hlen⟩ := calcArucoCornerPositions_of_valid vis.oob
    charucoboard.chessboardCorners charuco.1.2 [] hLr
  rw [stereoFrame_charuco vis opts charucoboard imageFilenamesL imageFilenamesR st k pathL pathR
    hpathL hpathR hflagL hflagR charuco hcharuco, if_pos hacc, hok]
  refine ⟨_, _, rfl, rfl, by rw [hlen, hLc], by rw [hlen, hRc, ← hids], ?_⟩
  intro i hi
  rw [hlen] at hi
  obtain ⟨h0, h1⟩ := hLr charuco.1.2[i] (List.getElem_mem hi)
  have hlt : (charuco.1.2[i]).toNat < charucoboard.chessboardCorners.length := by omega
  refine ⟨charuco.1.2[i], charuco.1.2[i], charucoboard.chessboardCorners[(charuco.1.2[i]).toNat],
    List.getElem?_eq_getElem hi, ?_, ?_, List.getElem?_eq_getElem hlt,
    List.getElem?_eq_getElem hlt⟩
  · rw [← hids]
    exact List.getElem?_eq_getElem hi
  · rw [getElem?_filterMap_of_all_some _ _ _ i hi, List.getElem?_eq_getElem hlt]
    intro id hid
    have : id.toNat < charucoboard.chessboardCorners.length := by
      have := hLr id hid
      omega
    simp [this]

/-- The scripted detector keeps the contract of the interpolation when its two scripted
ID lists do. -/
theorem scriptedVision_contract (found : List CppString) (idsL idsR : List Int) (n : Nat)
    (charucoboard : CharucoBoard Int)
    (hL : InterpolationContract n (idsL.map (fun k => 10 * k), idsL))
    (hR : InterpolationContract n (idsR.map (fun k => 10 * k + 1), idsR))
    (corners : List (List Int)) (ids : List Int) (image : CppString) :
    InterpolationContract n
      ((scriptedVision found idsL idsR).interpolateCornersCharuco corners ids image
        charucoboard) := by
  simp only [scriptedVision, scriptedVisionOf]
  split_ifs
  · exact hR
  · exact hL

/-- Witness for C5 (amended), on a board of 3 x 1 corners: a frame whose two images yield
the IDs `0, 1, 2` is accepted into the dataset; a frame whose right image yields `0, 1`
only is not, and leaves the dataset as it was. -/
theorem stereo_charuco_accepted_iff_witness :
    (∃ st', stereoFrame (scriptedVision [] [0, 1, 2] [0, 1, 2])
          (stereoOptions "charuco".toList ⟨3, 1⟩ false) .CHARUCO board3
          ["images/left_a.png".toList] ["images/right_a.png".toList] stereoStart 0 = .ok st' ∧
        ∃ sample, st'.dataset = stereoStart.dataset ++ [sample]) ∧
    (∃ st', stereoFrame (scriptedVision [] [0, 1, 2] [0, 1])
          (stereoOptions "charuco".toList ⟨3, 1⟩ false) .CHARUCO board3
          ["images/left_a.png".toList] ["images/right_a.png".toList] stereoStart 0 = .ok st' ∧
        st'.dataset = stereoStart.dataset) :=
  have hyes := (stereo_charuco_accepted_iff (scriptedVision [] [0, 1, 2] [0, 1, 2])
    (stereoOptions "charuco".toList ⟨3, 1⟩ false) board3 (by decide) (by decide)
    (scriptedVision_contract [] [0, 1, 2] [0, 1, 2] 3 board3 (by decide) (by decide))
    ["images/left_a.png".toList] ["images/right_a.png".toList] stereoStart 0
    "images/left_a.png".toList "images/right_a.png".toList
    (by decide) (by decide) (by decide) (by decide)
    (([0, 10, 20], [0, 1, 2]), ([1, 11, 21], [0, 1, 2])) (by decide)).1
  have hno := (stereo_charuco_accepted_iff (scriptedVision [] [0, 1, 2] [0, 1])
    (stereoOptions "charuco".toList ⟨3, 1⟩ false) board3 (by decide) (by decide)
    (scriptedVision_contract [] [0, 1, 2] [0, 1] 3 board3 (by decide) (by decide))
    ["images/left_a.png".toList] ["images/right_a.png".toList] stereoStart 0
    "images/left_a.png".toList "images/right_a.png".toList
    (by decide) (by decide) (by decide) (by decide)
    (([0, 10, 20], [0, 1, 2]), ([1, 11], [0, 1])) (by decide)).1
  ⟨hyes.elim (fun st' h => ⟨st', h.1, h.2.1.mpr ⟨fun _ => Iff.rfl, by decide⟩⟩),
   hno.elim (fun st' h => ⟨st', h.1,
     (h.2.2 (fun hacc => absurd ((h.2.1.mp hacc).1 2) (by decide))).1⟩)⟩

/-- Witness for C6 (amended), on a board of 3 x 1 corners one unit apart: a frame whose two
images yield the IDs `0, 1, 2` hands over one pair whose three 3D points are the board
corners of these IDs, for the three 2D corners of each side. -/
theorem stereo_charuco_pair_aligned_witness :
    ∃ st' objectPoints,
      stereoFrame (scriptedVision [] [0, 1, 2] [0, 1, 2])
          (stereoOptions "charuco".toList ⟨3, 1⟩ false) .CHARUCO board3
          ["images/left_a.png".toList] ["images/right_a.png".toList] stereoStart 0 = .ok st' ∧
      st'.dataset = [.corners [0, 10, 20] [1, 11, 21] objectPoints] ∧
      ([0, 10, 20] : List Int).length = objectPoints.length ∧
      ([1, 11, 21] : List Int).length = objectPoints.length ∧
      ∀ i, i < objectPoints.length → ∃ idL idR p,
        ([0, 1, 2] : List Int)[i]? = some idL ∧ ([0, 1, 2] : List Int)[i]? = some idR ∧
        objectPoints[i]? = some p ∧
        board3.chessboardCorners[idL.toNat]? = some p ∧
        board3.chessboardCorners[idR.toNat]? = some p :=
  stereo_charuco_pair_aligned (scriptedVision [] [0, 1, 2] [0, 1, 2])
    (stereoOptions "charuco".toList ⟨3, 1⟩ false) board3 (by decide) (by decide)
    (scriptedVision_contract [] [0, 1, 2] [0, 1, 2] 3 board3 (by decide) (by decide))
    ["images/left_a.png".toList] ["images/right_a.png".toList] stereoStart 0
    "images/left_a.png".toList "images/right_a.png".toList
    (by decide) (by decide) (by decide) (by decide)
    (([0, 10, 20], [0, 1, 2]), ([1, 11, 21], [0, 1, 2])) (by decide) (by decide)

/-- A stereo ChArUco frame without interpolated corners on a board whose count wraps to
zero in `int` passes the acceptance test and adds the empty pair. -/
theorem stereoFrame_charuco_of_empty {Img P2 F : Type} [FloatOps F]
    (vis : Vision Img P2 (List P2) F) (opts : StereoOptions F) (charucoboard : CharucoBoard F)
    (imageFilenamesL imageFilenamesR : List CppString) (st : StereoState P2 (Point3f F))
    (k : Nat) (pathL pathR : CppString)
    (hpathL : imageFilenamesL[k]? = some pathL) (hpathR : imageFilenamesR[k]? = some pathR)
    (hflagL : k < st.chessboardFoundL.length) (hflagR : k < st.chessboardFoundR.length)
    (hempty : (([], []), ([], [])) = stereoInterpolated vis opts.dictionaryId charucoboard
      (vis.imread pathL) (vis.imread pathR))
    (hzero : toSizeT (toInt32 (opts.boardSize.width * opts.boardSize.height)) = 0) :
    stereoFrame vis opts .CHARUCO charucoboard imageFilenamesL imageFilenamesR st k
      = .ok { frames := st.frames + 1
              dataset := st.dataset ++ [.corners [] [] []]
              chessboardFoundL := st.chessboardFoundL.set k true
              chessboardFoundR := st.chessboardFoundR.set k true } := by
  have hacc : stereoCharucoAccepted opts.boardSize [] [] = true := by
    simp [stereoCharucoAccepted, hzero]
  rw [stereoFrame_charuco vis opts charucoboard imageFilenamesL imageFilenamesR st k pathL pathR
    hpathL hpathR hflagL hflagR _ hempty]
  simp only [hacc, ↓reduceIte]
  rfl

/-- C5 (counterexample). On a board of 65536 x 65536 corners, whose count `2 ^ 32` is `0`
as an `int` product, a frame in which both images show a marker and the interpolation
yields no corner on either side is accepted into the dataset, although the size `0` of
the ID set is not `boardWidth*boardHeight`. -/
theorem stereo_charuco_overflow_accepted :
    stereoFrame (scriptedVision [] [] [])
        (stereoOptions "charuco".toList ⟨65536, 65536⟩ false) .CHARUCO
        ((scriptedVision [] [] []).CharucoBoard_create 65537 65537 120 60 0)
        ["images/left_a.png".toList] ["images/right_a.png".toList] stereoStart 0
      = .ok { frames := 1, dataset := [.corners [] [] []]
              chessboardFoundL := [true], chessboardFoundR := [true] } ∧
    ¬ ((([] : List Int).length : Int) = 65536 * 65536) := by
  refine ⟨?_, by decide⟩
  rw [stereoFrame_charuco_of_empty (scriptedVision [] [] [])
    (stereoOptions "charuco".toList ⟨65536, 65536⟩ false) _
    ["images/left_a.png".toList] ["images/right_a.png".toList] stereoStart 0
    "images/left_a.png".toList "images/right_a.png".toList
    (by decide) (by decide) (by decide) (by decide) rfl (by decide)]
  rfl

/-- A stereo ChArUco frame with one interpolated corner on each side, on a board whose
count is `1` as an `int` product: it passes the acceptance test and adds the pair with the
one 3D point that the lookup of the left ID yields. -/
theorem stereoFrame_charuco_of_single {Img P2 F : Type} [FloatOps F]
    (vis : Vision Img P2 (List P2) F) (opts : StereoOptions F) (charucoboard : CharucoBoard F)
    (imageFilenamesL imageFilenamesR : List CppString) (st : StereoState P2 (Point3f F))
    (k : Nat) (pathL pathR : CppString)
    (hpathL : imageFilenamesL[k]? = some pathL) (hpathR : imageFilenamesR[k]? = some pathR)
    (hflagL : k < st.chessboardFoundL.length) (hflagR : k < st.chessboardFoundR.length)
    (cornerL cornerR : P2) (idL idR : Int) (p : Point3f F)
    (hsingle : (([cornerL], [idL]), ([cornerR], [idR]))
      = stereoInterpolated vis opts.dictionaryId charucoboard (vis.imread pathL)
          (vis.imread pathR))
    (hone : toSizeT (toInt32 (opts.boardSize.width * opts.boardSize.height)) = 1)
    (hlookup : calcArucoCornerPositions vis.oob charucoboard.chessboardCorners [idL] []
      = .ok [p]) :
    stereoFrame vis opts .CHARUCO charucoboard imageFilenamesL imageFilenamesR st k
      = .ok { frames := st.frames + 1
              dataset := st.dataset ++ [.corners [cornerL] [cornerR] [p]]
              chessboardFoundL := st.chessboardFoundL.set k true
              chessboardFoundR := st.chessboardFoundR.set k true } := by
  have hacc : stereoCharucoAccepted opts.boardSize [idL] [idR] = true := by
    simp [stereoCharucoAccepted, hone]
  rw [stereoFrame_charuco vis opts charucoboard imageFilenamesL imageFilenamesR st k pathL pathR
    hpathL hpathR hflagL hflagR _ hsingle]
  simp only [hacc, ↓reduceIte, hlookup]

/-- On a chessboard table with at least two columns and one row, over exact integer
arithmetic with unit squares, the lookup of the ID `0` yields the corner `(0, 0, 0)` and
the entry of the ID `1` is the corner `(1, 0, 0)`. -/
theorem chessboard_table_first_corners (w h : Nat) (hw : 1 < w) (hh : 0 < h)
    (oob : Int → Option (Point3f Int)) :
    calcArucoCornerPositions oob
        (calcBoardCornerPositions ⟨(w : Int), (h : Int)⟩ (1 : Int) [] .CHESSBOARD) [0] []
      = .ok [⟨0, 0, 0⟩] ∧
    (calcBoardCornerPositions ⟨(w : Int), (h : Int)⟩ (1 : Int) [] .CHESSBOARD)[1]?
      = some ⟨1, 0, 0⟩ := by
  have h0 : (calcBoardCornerPositions ⟨(w : Int), (h : Int)⟩ (1 : Int) [] .CHESSBOARD)[0]?
      = some ⟨0, 0, 0⟩ := by
    have := calcBoardCornerPositions_grid_getElem? .CHESSBOARD (Or.inl rfl) w h 0 0 hh
      (by omega) (1 : Int) []
    simp only [Nat.zero_mul, Nat.zero_add] at this
    exact this.trans (congrArg some rfl)
  have h1 : (calcBoardCornerPositions ⟨(w : Int), (h : Int)⟩ (1 : Int) [] .CHESSBOARD)[1]?
      = some ⟨1, 0, 0⟩ := by
    have := calcBoardCornerPositions_grid_getElem? .CHESSBOARD (Or.inl rfl) w h 0 1 hh
      hw (1 : Int) []
    simp only [Nat.zero_mul, Nat.zero_add] at this
    exact this.trans (congrArg some rfl)
  have hlen := calcBoardCornerPositions_length .CHESSBOARD rfl w h (1 : Int) []
  refine ⟨?_, h1⟩
  have hpos : 0 < h * w := Nat.mul_pos hh (by omega)
  have hvalid : ∀ id ∈ [(0 : Int)], 0 ≤ id ∧
      id < ((calcBoardCornerPositions ⟨(w : Int), (h : Int)⟩ (1 : Int) []
        .CHESSBOARD).length : Int) := by
    intro id hid
    rw [List.mem_singleton] at hid
    subst hid
    rw [hlen]
    exact ⟨le_refl 0, by exact_mod_cast hpos⟩
  rw [(calcArucoCornerPositions_of_valid oob _ [0] [] hvalid).1]
  simp only [List.filterMap_cons, Int.toNat_zero, h0, List.filterMap_nil]

/-- The frame of the counterexample for C6 on any corner table in which the lookup of the
ID `0` yields `(0, 0, 0)`. -/
theorem stereoFrame_charuco_misaligned (table : List (Point3f Int))
    (hlookup : calcArucoCornerPositions (fun _ => none) table [0] [] = .ok [⟨0, 0, 0⟩]) :
    stereoFrame (scriptedVision [] [0] [1])
        (stereoOptions "charuco".toList ⟨641, 6700417⟩ false) .CHARUCO ⟨table⟩
        ["images/left_a.png".toList] ["images/right_a.png".toList] stereoStart 0
      = .ok { frames := 1, dataset := [.corners [0] [11] [⟨0, 0, 0⟩]]
              chessboardFoundL := [true], chessboardFoundR := [true] } := by
  rw [stereoFrame_charuco_of_single (scriptedVision [] [0] [1])
    (stereoOptions "charuco".toList ⟨641, 6700417⟩ false) ⟨table⟩
    ["images/left_a.png".toList] ["images/right_a.png".toList] stereoStart 0
    "images/left_a.png".toList "images/right_a.png".toList
    (by decide) (by decide) (by decide) (by decide) 0 11 0 1 ⟨0, 0, 0⟩ rfl (by decide)
    hlookup]
  rfl

/-- C6 (counterexample). On a board of 641 x 6700417 corners, whose count `2 ^ 32 + 1` is `1`
as an `int` product, a frame whose left image yields the corner of ID `0` and whose right
image yields the corner of ID `1` is accepted; the one 3D point of the pair is the board
corner `(0, 0, 0)` of ID `0`, while the right image shows at that index the corner of ID
`1`, which is the board point `(1, 0, 0)`.  The table is that of a board with unit squares,
its dimensions written as the natural numbers they are. -/
theorem stereo_charuco_overflow_misaligned :
    (641 : Int) * 6700417 = 2 ^ 32 + 1 ∧
    stereoFrame (scriptedVision [] [0] [1])
        (stereoOptions "charuco".toList ⟨641, 6700417⟩ false) .CHARUCO
        ⟨calcBoardCornerPositions ⟨((641 : Nat) : Int), ((6700417 : Nat) : Int)⟩ 1 []
          .CHESSBOARD⟩
        ["images/left_a.png".toList] ["images/right_a.png".toList] stereoStart 0
      = .ok { frames := 1, dataset := [.corners [0] [11] [⟨0, 0, 0⟩]]
              chessboardFoundL := [true], chessboardFoundR := [true] } ∧
    (calcBoardCornerPositions (F := Int) ⟨((641 : Nat) : Int), ((6700417 : Nat) : Int)⟩ 1 []
        .CHESSBOARD)[1]?
      = some ⟨1, 0, 0⟩ ∧
    (⟨0, 0, 0⟩ : Point3f Int) ≠ ⟨1, 0, 0⟩ :=
  ⟨by decide,
   stereoFrame_charuco_misaligned _
    (chessboard_table_first_corners 641 6700417 (by decide) (by decide) (fun _ => none)).1,
   (chessboard_table_first_corners 641 6700417 (by decide) (by decide) (fun _ => none)).2,
   by decide⟩

/-! ## Stereo ChArUco: no empty correspondence pair -/

/-- A ChArUco round of the stereo frame loop that returns, on a board with positive fields
whose count fits in `int`: it keeps the lengths of the flag vectors, and it leaves the
dataset as it was or adds one pair with exactly `boardWidth*boardHeight` 3D points. -/
theorem stereoFrame_charuco_ok {Img P2 F : Type} [FloatOps F]
    (vis : Vision Img P2 (List P2) F) (opts : StereoOptions F) (charucoboard : CharucoBoard F)
    (hw : 1 ≤ opts.boardSize.width) (hh : 1 ≤ opts.boardSize.height)
    (hfit : opts.boardSize.width * opts.boardSize.height < 2 ^ 31)
    (imageFilenamesL imageFilenamesR : List CppString) (st st' : StereoState P2 (Point3f F))
    (k : Nat) (pathL pathR : CppString)
    (hpathL : imageFilenamesL[k]? = some pathL) (hpathR : imageFilenamesR[k]? = some pathR)
    (hflagL : k < st.chessboardFoundL.length) (hflagR : k < st.chessboardFoundR.length)
    (hst : stereoFrame vis opts .CHARUCO charucoboard imageFilenamesL imageFilenamesR st k
      = .ok st') :
    st'.chessboardFoundL.length = st.chessboardFoundL.length ∧
    st'.chessboardFoundR.length = st.chessboardFoundR.length ∧
    (st'.dataset = st.dataset ∨
      ∃ pointsL pointsR objectPoints,
        st'.dataset = st.dataset ++ [.corners pointsL pointsR objectPoints] ∧
        ((objectPoints.length : Nat) : Int)
          = opts.boardSize.width * opts.boardSize.height ∧
        1 ≤ objectPoints.length) := by
  obtain ⟨hsz, hone⟩ := board_count _ _ hw hh hfit
  rw [stereoFrame_charuco vis opts charucoboard imageFilenamesL imageFilenamesR st k pathL pathR
    hpathL hpathR hflagL hflagR _ rfl] at hst
  split_ifs at hst with hacc
  · cases hpts : calcArucoCornerPositions vis.oob charucoboard.chessboardCorners
        (stereoInterpolated vis opts.dictionaryId charucoboard (vis.imread pathL)
          (vis.imread pathR)).1.2 [] with
    | error e =>
      rw [hpts] at hst
      cases hst
    | ok objectPoints =>
      rw [hpts] at hst
      cases hst
      have hlen := calcArucoCornerPositions_ok_length _ _ _ _ _ hpts
      unfold stereoCharucoAccepted at hacc
      simp only [Bool.and_eq_true, beq_iff_eq] at hacc
      refine ⟨by simp, by simp, Or.inr ⟨_, _, objectPoints, rfl, ?_, ?_⟩⟩
      · rw [hlen, hacc.1]
        exact hsz
      · rw [hlen, hacc.1]
        exact hone
  · cases hst
    exact ⟨rfl, rfl, Or.inl rfl⟩

/-- C21 (counterexample). On a board of 65536 x 65536 corners, whose count `2 ^ 32` is `0`
as an `int` product, a frame in which neither image shows a raw marker is accepted: both
found flags are set and the empty correspondence pair, with no 2D and no 3D point, enters
the dataset. -/
theorem stereo_charuco_overflow_empty_pair :
    (markerlessVision [] []).detectMarkers "left_a.png".toList 0 = ⟨[], [], []⟩ ∧
    stereoFrame (markerlessVision [] [])
        (stereoOptions "charuco".toList ⟨65536, 65536⟩ false) .CHARUCO
        ((markerlessVision [] []).CharucoBoard_create 65537 65537 120 60 0)
        ["images/left_a.png".toList] ["images/right_a.png".toList] stereoStart 0
      = .ok { frames := 1, dataset := [.corners [] [] []]
              chessboardFoundL := [true], chessboardFoundR := [true] } := by
  refine ⟨rfl, ?_⟩
  rw [stereoFrame_charuco_of_empty (markerlessVision [] [])
    (stereoOptions "charuco".toList ⟨65536, 65536⟩ false) _
    ["images/left_a.png".toList] ["images/right_a.png".toList] stereoStart 0
    "images/left_a.png".toList "images/right_a.png".toList
    (by decide) (by decide) (by decide) (by decide) rfl (by decide)]
  rfl

/-- C21 (amended). In the stereo ChArUco path, for every board size with width and height
`≥ 1` whose count `boardWidth*boardHeight` fits in `int`: the round of a frame in which
the left image (after the refinement pass, which is what the code tests) or the right
image shows no raw marker returns and leaves the dataset and both found flags as they
were; the same holds for a left image with no raw marker before the refinement pass,
given that the refinement pass of the library adds nothing to an empty detection; every
round that returns leaves the dataset unchanged or adds one pair whose 3D points are
exactly `boardWidth*boardHeight`, hence at least one, and a round returns whenever its
table reads are defined; and after a frame loop that returns every pair in the dataset has
exactly `boardWidth*boardHeight` 3D points, so no empty pair is in it. -/
theorem stereo_charuco_no_empty_pair {Img P2 F : Type} [FloatOps F]
    (vis : Vision Img P2 (List P2) F) (opts : StereoOptions F) (charucoboard : CharucoBoard F)
    (hw : 1 ≤ opts.boardSize.width) (hh : 1 ≤ opts.boardSize.height)
    (hfit : opts.boardSize.width * opts.boardSize.height < 2 ^ 31) :
    (∀ (imageFilenamesL imageFilenamesR : List CppString) (st : StereoState P2 (Point3f F))
        (k : Nat) (pathL pathR : CppString),
      imageFilenamesL[k]? = some pathL → imageFilenamesR[k]? = some pathR →
      k < st.chessboardFoundL.length → k < st.chessboardFoundR.length →
      (((vis.refineDetectedMarkers (vis.imread pathL) charucoboard
            (vis.detectMarkers (vis.imread pathL) opts.dictionaryId)).ids = [] ∨
          (vis.detectMarkers (vis.imread pathR) opts.dictionaryId).ids = []) →
        ∃ st', stereoFrame vis opts .CHARUCO charucoboard imageFilenamesL imageFilenamesR st k
            = .ok st' ∧
          st'.dataset = st.dataset ∧ st'.chessboardFoundL = st.chessboardFoundL ∧
            st'.chessboardFoundR = st.chessboardFoundR) ∧
      ((∀ image markers, markers.ids = [] →
          (vis.refineDetectedMarkers image charucoboard markers).ids = []) →
        ((vis.detectMarkers (vis.imread pathL) opts.dictionaryId).ids = [] ∨
          (vis.detectMarkers (vis.imread pathR) opts.dictionaryId).ids = []) →
        ∃ st', stereoFrame vis opts .CHARUCO charucoboard imageFilenamesL imageFilenamesR st k
            = .ok st' ∧
          st'.dataset = st.dataset ∧ st'.chessboardFoundL = st.chessboardFoundL ∧
            st'.chessboardFoundR = st.chessboardFoundR) ∧
      (∀ st', stereoFrame vis opts .CHARUCO charucoboard imageFilenamesL imageFilenamesR st k
          = .ok st' →
        st'.dataset = st.dataset ∨
          ∃ pointsL pointsR objectPoints,
            st'.dataset = st.dataset ++ [.corners pointsL pointsR objectPoints] ∧
            ((objectPoints.length : Nat) : Int)
              = opts.boardSize.width * opts.boardSize.height ∧
            1 ≤ objectPoints.length) ∧
      (stereoReadsDefined vis opts .CHARUCO charucoboard pathL pathR →
        ∃ st', stereoFrame vis opts .CHARUCO charucoboard imageFilenamesL imageFilenamesR st k
          = .ok st')) ∧
    (∀ (imageFilenamesL imageFilenamesR : List CppString) (st : StereoState P2 (Point3f F)),
      imageFilenamesL.length = imageFilenamesR.length →
      stereoFrames vis opts .CHARUCO charucoboard imageFilenamesL imageFilenamesR = .ok st →
      ∀ sample ∈ st.dataset, ∃ pointsL pointsR objectPoints,
        sample = .corners pointsL pointsR objectPoints ∧
        ((objectPoints.length : Nat) : Int) = opts.boardSize.width * opts.boardSize.height ∧
        1 ≤ objectPoints.length) := by
  obtain ⟨-, hone⟩ := board_count _ _ hw hh hfit
  have hskip : ∀ (imageFilenamesL imageFilenamesR : List CppString)
      (st : StereoState P2 (Point3f F)) (k : Nat) (pathL pathR : CppString),
      imageFilenamesL[k]? = some pathL → imageFilenamesR[k]? = some pathR →
      k < st.chessboardFoundL.length → k < st.chessboardFoundR.length →
      ((vis.refineDetectedMarkers (vis.imread pathL) charucoboard
            (vis.detectMarkers (vis.imread pathL) opts.dictionaryId)).ids = [] ∨
          (vis.detectMarkers (vis.imread pathR) opts.dictionaryId).ids = []) →
      ∃ st', stereoFrame vis opts .CHARUCO charucoboard imageFilenamesL imageFilenamesR st k
          = .ok st' ∧
        st'.dataset = st.dataset ∧ st'.chessboardFoundL = st.chessboardFoundL ∧
          st'.chessboardFoundR = st.chessboardFoundR := by
    intro imageFilenamesL imageFilenamesR st k pathL pathR hpathL hpathR hflagL hflagR h
    rw [stereoFrame_charuco vis opts charucoboard imageFilenamesL imageFilenamesR st k pathL
      pathR hpathL hpathR hflagL hflagR _ rfl,
      stereoInterpolated_of_no_marker vis opts.dictionaryId charucoboard _ _ h,
      stereoCharucoAccepted_nil opts.boardSize hone]
    exact ⟨_, rfl, rfl, rfl, rfl⟩
  constructor
  · intro imageFilenamesL imageFilenamesR st k pathL pathR hpathL hpathR hflagL hflagR
    refine ⟨?_, ?_, ?_, ?_⟩
    · exact hskip imageFilenamesL imageFilenamesR st k pathL pathR hpathL hpathR hflagL hflagR
    · intro hrefine h
      apply hskip imageFilenamesL imageFilenamesR st k pathL pathR hpathL hpathR hflagL hflagR
      rcases h with h | h
      · exact Or.inl (hrefine _ _ h)
      · exact Or.inr h
    · intro st' hst
      exact (stereoFrame_charuco_ok vis opts charucoboard hw hh hfit imageFilenamesL
        imageFilenamesR st st' k pathL pathR hpathL hpathR hflagL hflagR hst).2.2
    · intro hdef
      exact ⟨_, stereoFrame_eq vis opts .CHARUCO charucoboard imageFilenamesL imageFilenamesR
        st k pathL pathR hpathL hpathR hflagL hflagR hdef⟩
  · intro imageFilenamesL imageFilenamesR st hlen hframes
    have hinv := foldlM_ok_invariant
      (stereoFrame vis opts .CHARUCO charucoboard imageFilenamesL imageFilenamesR)
      (fun s : StereoState P2 (Point3f F) =>
        s.chessboardFoundL.length = imageFilenamesL.length ∧
        s.chessboardFoundR.length = imageFilenamesR.length ∧
        ∀ sample ∈ s.dataset, ∃ pointsL pointsR objectPoints,
          sample = .corners pointsL pointsR objectPoints ∧
          ((objectPoints.length : Nat) : Int)
            = opts.boardSize.width * opts.boardSize.height ∧
          1 ≤ objectPoints.length)
      (List.range imageFilenamesL.length)
      (by
        intro acc k acc' hk hacc hstep
        have hkL : k < imageFilenamesL.length := List.mem_range.mp hk
        have hkR : k < imageFilenamesR.length := hlen ▸ hkL
        obtain ⟨hL, hR, hdata⟩ := hacc
        obtain ⟨hL', hR', hcase⟩ := stereoFrame_charuco_ok vis opts charucoboard hw hh hfit
          imageFilenamesL imageFilenamesR acc acc' k imageFilenamesL[k] imageFilenamesR[k]
          (List.getElem?_eq_getElem hkL) (List.getElem?_eq_getElem hkR)
          (by rw [hL]; exact hkL) (by rw [hR]; exact hkR) hstep
        refine ⟨hL'.trans hL, hR'.trans hR, ?_⟩
        rcases hcase with hsame | ⟨pointsL, pointsR, objectPoints, hadd, hcount, hpos⟩
        · rw [hsame]
          exact hdata
        · rw [hadd]
          intro sample hsample
          rcases List.mem_append.mp hsample with hold | hnew
          · exact hdata sample hold
          · rw [List.mem_singleton] at hnew
            exact ⟨pointsL, pointsR, objectPoints, hnew, hcount, hpos⟩)
      { frames := 0, dataset := []
        chessboardFoundL := List.replicate imageFilenamesL.length false
        chessboardFoundR := List.replicate imageFilenamesR.length false } st
      (by simp) hframes
    exact hinv.2.2

/-- Witness for C21 (amended), on a board of 3 x 1 corners: a frame whose two images yield
the three board-corner IDs is added with three 3D points; with a detector that finds no raw
marker the same frame leaves the dataset and the flags as they were. -/
theorem stereo_charuco_no_empty_pair_witness :
    (stereoFrame (scriptedVision [] [0, 1, 2] [0, 1, 2])
          (stereoOptions "charuco".toList ⟨3, 1⟩ false) .CHARUCO board3
          ["images/left_a.png".toList] ["images/right_a.png".toList] stereoStart 0
        = .ok { frames := 1
                dataset := [.corners [0, 10, 20] [1, 11, 21]
                  [⟨0, 0, 0⟩, ⟨1, 0, 0⟩, ⟨2, 0, 0⟩]]
                chessboardFoundL := [true], chessboardFoundR := [true] } ∧
      (([.corners [0, 10, 20] [1, 11, 21] [⟨0, 0, 0⟩, ⟨1, 0, 0⟩, ⟨2, 0, 0⟩]]
            : List (StereoSample Int (Point3f Int))) = stereoStart.dataset ∨
        ∃ pointsL pointsR objectPoints,
          ([.corners [0, 10, 20] [1, 11, 21] [⟨0, 0, 0⟩, ⟨1, 0, 0⟩, ⟨2, 0, 0⟩]]
            : List (StereoSample Int (Point3f Int)))
            = stereoStart.dataset ++ [.corners pointsL pointsR objectPoints] ∧
          ((objectPoints.length : Nat) : Int) = 3 * 1 ∧ 1 ≤ objectPoints.length)) ∧
    (∃ st', stereoFrame (markerlessVision [0, 1, 2] [0, 1, 2])
          (stereoOptions "charuco".toList ⟨3, 1⟩ false) .CHARUCO board3
          ["images/left_a.png".toList] ["images/right_a.png".toList] stereoStart 0 = .ok st' ∧
        st'.dataset = stereoStart.dataset ∧
        st'.chessboardFoundL = stereoStart.chessboardFoundL ∧
        st'.chessboardFoundR = stereoStart.chessboardFoundR) :=
  have hyes := (stereo_charuco_no_empty_pair (scriptedVision [] [0, 1, 2] [0, 1, 2])
    (stereoOptions "charuco".toList ⟨3, 1⟩ false) board3
    (by decide) (by decide) (by decide)).1
    ["images/left_a.png".toList] ["images/right_a.png".toList] stereoStart 0
    "images/left_a.png".toList "images/right_a.png".toList
    (by decide) (by decide) (by decide) (by decide)
  have hno := (stereo_charuco_no_empty_pair (markerlessVision [0, 1, 2] [0, 1, 2])
    (stereoOptions "charuco".toList ⟨3, 1⟩ false) board3
    (by decide) (by decide) (by decide)).1
    ["images/left_a.png".toList] ["images/right_a.png".toList] stereoStart 0
    "images/left_a.png".toList "images/right_a.png".toList
    (by decide) (by decide) (by decide) (by decide)
  have hrun : stereoFrame (scriptedVision [] [0, 1, 2] [0, 1, 2])
      (stereoOptions "charuco".toList ⟨3, 1⟩ false) .CHARUCO board3
      ["images/left_a.png".toList] ["images/right_a.png".toList] stereoStart 0
    = .ok { frames := 1
            dataset := [.corners [0, 10, 20] [1, 11, 21] [⟨0, 0, 0⟩, ⟨1, 0, 0⟩, ⟨2, 0, 0⟩]]
            chessboardFoundL := [true], chessboardFoundR := [true] } := by decide
  ⟨⟨hrun, hyes.2.2.1 _ hrun⟩, hno.1 (Or.inl (by decide))⟩

end CameraModel
